import Mathlib

/-!
Plex Toolkit: a shallow embedding of `content.js` and `popup.js`

The development models the two scripts of the extension as pure functions over
an explicit world state (settings, module-level flags, the queried part of the
DOM, the pending timers, a log of the simulated clicks, a log of the writes to
the video's time and a count of the values the video's setter has rejected)
and proves or refutes properties of them.

Modelling conventions
* JavaScript numbers are `JSNum`: `NaN`, the two infinities, the negative zero
  and the finite doubles, each given by its exact rational value.  The
  operators `+`, `-`, `*` and `/` and `parseInt` round their exact result to
  the nearest double, ties to the even significand (`roundDouble`), with
  overflow to an infinity and underflow to a signed zero; `Math.abs`,
  `Math.max`, `Math.min` and the comparisons are exact on doubles.
* The video's own `currentTime` setter throws a `TypeError` for a value that
  is not finite and keeps a finite one within 0 and the duration; seekable
  ranges and the time a seek takes are left out.
* Setting values are `JSVal`: `undefined`, booleans and numbers, which is what
  the default table holds and what the popup writes.
* `setTimeout` puts a timer with a due time into a queue.  `fireTimer` runs any
  pending timer; `runLoop` runs them as the browser does, the one that is due
  first (the earliest scheduled one among equals).
* The DOM is the record of what the selectors used by the scripts return.  An
  injected button is found by its own selector only, `document.head` exists,
  and `console.log`, `focus()` and the tooltip are left out.
* `simulateClick` is recorded in a log; what the host page does on a click is
  a separate event, a change of the document.
-/

namespace PlexToolkit

/-! ## Doubles: rounding to nearest, ties to even -/

/-- The power `2 ^ e` as a rational. -/
def pow2 (e : Int) : ℚ :=
  if 0 ≤ e then ((2 ^ e.toNat : ℕ) : ℚ) else 1 / ((2 ^ (-e).toNat : ℕ) : ℚ)

/-- The binary logarithm of a natural number, rounded down, by repeated halving. -/
def log2Fuel : ℕ → ℕ → ℕ
  | 0, _ => 0
  | fuel + 1, n => if 2 ≤ n then log2Fuel fuel (n / 2) + 1 else 0

/-- The position of the leading bit of `n` (0 for `n = 0`). -/
def natLog2 (n : ℕ) : ℕ := log2Fuel n n

/-- The binary exponent of a positive rational `q`: the `e` with `2 ^ e ≤ q < 2 ^ (e + 1)`. -/
def floorLog2 (q : ℚ) : Int :=
  let e0 : Int := (natLog2 q.num.natAbs : Int) - (natLog2 q.den : Int)
  if pow2 e0 ≤ q then e0 else e0 - 1

/-- The nearest natural number to `x ≥ 0`, the even one of two equally near. -/
def roundHalfEven (x : ℚ) : ℕ :=
  let f := ⌊x⌋₊
  if x - f < 1 / 2 then f
  else if 1 / 2 < x - f then f + 1
  else if f % 2 = 0 then f else f + 1

/-- The magnitude `q ≥ 0` rounded to the nearest number with a 53-bit
significand and an exponent of at least -1022 (ties to the even significand);
the exponent is not bounded above here. -/
def roundMagnitude (q : ℚ) : ℚ :=
  let e := max (floorLog2 q) (-1022)
  let ulp := pow2 (e - 52)
  (roundHalfEven (q / ulp) : ℚ) * ulp

/-! ## JavaScript numbers and values -/

/-- JavaScript numbers: `fin q` is the finite double whose exact value is `q`
(`fin 0` is `+0`). -/
inductive JSNum where
  | nan
  | posInf
  | negInf
  | negZero
  | fin (q : ℚ)
deriving DecidableEq, Repr

namespace JSNum

/-- The rational value of a finite number (`-0` has value `0`). -/
def toRat? : JSNum → Option ℚ
  | fin q => some q
  | negZero => some 0
  | _ => none

/-- The sign bit of a number that is not `NaN`. -/
def signBit : JSNum → Bool
  | negInf => true
  | negZero => true
  | fin q => decide (q < 0)
  | _ => false

/-- Whether the number is `+0` or `-0`. -/
def isZero : JSNum → Bool
  | negZero => true
  | fin q => decide (q = 0)
  | _ => false

/-- A zero with the given sign bit. -/
def zero (neg : Bool) : JSNum := if neg then negZero else fin 0

/-- An infinity with the given sign bit. -/
def infinity (neg : Bool) : JSNum := if neg then negInf else posInf

/-- The double nearest to the exact value `q` (ties to even): an exact zero is
`+0`, a magnitude that rounds to `2 ^ 1024` or more overflows to an infinity,
and one that rounds to nothing underflows to a zero, both with the sign of `q`. -/
def roundDouble (q : ℚ) : JSNum :=
  if q = 0 then fin 0
  else
    let r := roundMagnitude |q|
    if pow2 1024 ≤ r then infinity (decide (q < 0))
    else if r = 0 then zero (decide (q < 0))
    else fin (if q < 0 then -r else r)

/-- Whether the rational `q` is the value of a double. -/
def isDouble (q : ℚ) : Bool := roundDouble q == fin q

/-- The result of a product or quotient whose exact value is `q` and whose
sign bit is `neg`: an exact zero keeps the sign bit, anything else is rounded. -/
def signed (neg : Bool) (q : ℚ) : JSNum := if q = 0 then zero neg else roundDouble q

/-- Unary minus. -/
def neg : JSNum → JSNum
  | nan => nan
  | posInf => negInf
  | negInf => posInf
  | negZero => fin 0
  | fin q => if q = 0 then negZero else fin (-q)

/-- The operator `+` on numbers. -/
def add : JSNum → JSNum → JSNum
  | nan, _ => nan
  | _, nan => nan
  | posInf, negInf => nan
  | negInf, posInf => nan
  | posInf, _ => posInf
  | negInf, _ => negInf
  | _, posInf => posInf
  | _, negInf => negInf
  | negZero, negZero => negZero
  | negZero, fin b => fin b
  | fin a, negZero => fin a
  | fin a, fin b => roundDouble (a + b)

/-- The operator `-` on numbers. -/
def sub (x y : JSNum) : JSNum := add x (neg y)

/-- The operator `*` on numbers. -/
def mul (x y : JSNum) : JSNum :=
  match x, y with
  | nan, _ => nan
  | _, nan => nan
  | _, _ =>
    match x.toRat?, y.toRat? with
    | some a, some b => signed (xor x.signBit y.signBit) (a * b)
    | none, some b => if b = 0 then nan else infinity (xor x.signBit y.signBit)
    | some a, none => if a = 0 then nan else infinity (xor x.signBit y.signBit)
    | none, none => infinity (xor x.signBit y.signBit)

/-- The operator `/` on numbers. -/
def div (x y : JSNum) : JSNum :=
  match x, y with
  | nan, _ => nan
  | _, nan => nan
  | _, _ =>
    match x.toRat?, y.toRat? with
    | some a, some b =>
      if b = 0 then (if a = 0 then nan else infinity (xor x.signBit y.signBit))
      else signed (xor x.signBit y.signBit) (a / b)
    | none, some _ => infinity (xor x.signBit y.signBit)
    | some _, none => zero (xor x.signBit y.signBit)
    | none, none => nan

/-- The operator `<` on numbers (false as soon as one side is `NaN`). -/
def lt : JSNum → JSNum → Bool
  | nan, _ => false
  | _, nan => false
  | posInf, _ => false
  | _, negInf => false
  | negInf, _ => true
  | _, posInf => true
  | negZero, negZero => false
  | negZero, fin b => decide (0 < b)
  | fin a, negZero => decide (a < 0)
  | fin a, fin b => decide (a < b)

/-- The operator `>` on numbers. -/
def gt (x y : JSNum) : Bool := lt y x

/-- The function `Math.abs`. -/
def abs : JSNum → JSNum
  | nan => nan
  | posInf => posInf
  | negInf => posInf
  | negZero => fin 0
  | fin q => fin |q|

/-- The function `Math.max` on two arguments (`+0` is larger than `-0`). -/
def max (x y : JSNum) : JSNum :=
  match x, y with
  | nan, _ => nan
  | _, nan => nan
  | _, _ =>
    if lt x y then y
    else if lt y x then x
    else if x.signBit then y else x

/-- The function `Math.min` on two arguments (`-0` is smaller than `+0`). -/
def min (x y : JSNum) : JSNum :=
  match x, y with
  | nan, _ => nan
  | _, nan => nan
  | _, _ =>
    if lt x y then x
    else if lt y x then y
    else if x.signBit then x else y

end JSNum

/-- The values a setting can hold: a missing property reads as `undefined`;
the store holds booleans and numbers. -/
inductive JSVal where
  | undefined
  | bool (b : Bool)
  | num (x : JSNum)
deriving DecidableEq, Repr

namespace JSVal

/-- The abstract operation `ToBoolean`. -/
def truthy : JSVal → Bool
  | undefined => false
  | bool b => b
  | num x => !(x == JSNum.nan || x.isZero)

/-- The abstract operation `ToNumber`. -/
def toNumber : JSVal → JSNum
  | undefined => JSNum.nan
  | bool true => JSNum.fin 1
  | bool false => JSNum.fin 0
  | num x => x

/-- The operator `a || b`. -/
def orElse (a b : JSVal) : JSVal := if a.truthy then a else b

end JSVal

/-! ## `parseInt(s, 10)` -/

/-- The code points `parseInt` skips at the start of its input (white space
and line terminators). -/
def isStrWhiteSpaceChar (c : Char) : Bool :=
  let n := c.toNat
  n == 0x09 || n == 0x0A || n == 0x0B || n == 0x0C || n == 0x0D || n == 0x20 ||
  n == 0xA0 || n == 0x1680 || (0x2000 ≤ n && n ≤ 0x200A) || n == 0x2028 ||
  n == 0x2029 || n == 0x202F || n == 0x205F || n == 0x3000 || n == 0xFEFF

/-- The value of a run of decimal digits, most significant first. -/
def digitsValue (ds : List Char) : Nat :=
  ds.foldl (fun acc c => 10 * acc + (c.toNat - 48)) 0

/-- The sign and the integer that `parseInt(s, 10)` reads from its input
before it converts them to a number: leading white space is skipped, one sign
is read, then the longest run of decimal digits; `none` when there is no digit. -/
def readInt (s : String) : Option (Bool × Nat) :=
  let cs := s.toList.dropWhile isStrWhiteSpaceChar
  let negative := cs.head? == some '-'
  let rest := if cs.head? == some '-' || cs.head? == some '+' then cs.tail else cs
  let ds := rest.takeWhile Char.isDigit
  if ds.isEmpty then none else some (negative, digitsValue ds)

/-- The integer `parseInt(s, 10)` reads, as a mathematical value. -/
def mathInt (s : String) : Option Int :=
  (readInt s).map (fun p => if p.1 then -(p.2 : Int) else (p.2 : Int))

/-- The number for a sign and an integer read by `parseInt`: a zero after a
minus sign is `-0`, and any other integer is rounded to the nearest double. -/
def JSNum.ofSignedNat (negative : Bool) (n : Nat) : JSNum :=
  if n = 0 then JSNum.zero negative
  else JSNum.roundDouble (if negative then -(n : ℚ) else (n : ℚ))

/-- The function `parseInt(s, 10)`: no digit gives `NaN`. -/
def parseInt (s : String) : JSNum :=
  match readInt s with
  | none => JSNum.nan
  | some (negative, n) => JSNum.ofSignedNat negative n

/-- The expression `element.getAttribute(name) || fallback`: a missing
attribute (`null`) and the empty string are both falsy. -/
def attrOr (a : Option String) (fallback : String) : String :=
  match a with
  | none => fallback
  | some s => if s.isEmpty then fallback else s

/-! ## Objects, settings and the platform store -/

/-- A plain object with string keys, as an association list. -/
abbrev Obj (α : Type) := List (String × α)

namespace Obj

variable {α : Type}

/-- The own property `o[k]`, if there is one. -/
def get? : Obj α → String → Option α
  | [], _ => none
  | (k', v) :: r, k => if k' = k then some v else get? r k

/-- The assignment `o[k] = v`. -/
def set : Obj α → String → α → Obj α
  | [], k, v => [(k, v)]
  | (k', v') :: r, k, v => if k' = k then (k, v) :: r else (k', v') :: set r k v

/-- The property names of the object, each once, in insertion order. -/
def keys (o : Obj α) : List String := (o.map Prod.fst).dedup

end Obj

/-- The expression `settings[key]`: a missing property reads as `undefined`. -/
def Obj.read (o : Obj JSVal) (k : String) : JSVal := (o.get? k).getD JSVal.undefined

/-- The table `STORAGE_KEYS` (the same in both scripts). -/
structure StorageKeys where
  ENABLE_PIP : String := "enablePIP"
  ENABLE_SKIP_INTRO : String := "enableSkipIntro"
  ENABLE_SKIP_CREDITS : String := "enableSkipCredits"
  ENABLE_PLAY_NEXT : String := "enablePlayNext"
  DELAY_SKIP_INTRO : String := "delaySkipIntro"
  DELAY_SKIP_CREDITS : String := "delaySkipCredits"
  DELAY_PLAY_NEXT : String := "delayPlayNext"
  CUSTOM_SKIP_BACK : String := "customSkipBack"
  CUSTOM_SKIP_FORWARD : String := "customSkipForward"
  ENABLE_CUSTOM_SKIP : String := "enableCustomSkip"

/-- The constant `STORAGE_KEYS`. -/
def STORAGE_KEYS : StorageKeys := {}

/-- The ten setting keys, in the order of the table. -/
def settingKeys : List String :=
  [STORAGE_KEYS.ENABLE_PIP, STORAGE_KEYS.ENABLE_SKIP_INTRO, STORAGE_KEYS.ENABLE_SKIP_CREDITS,
   STORAGE_KEYS.ENABLE_PLAY_NEXT, STORAGE_KEYS.DELAY_SKIP_INTRO, STORAGE_KEYS.DELAY_SKIP_CREDITS,
   STORAGE_KEYS.DELAY_PLAY_NEXT, STORAGE_KEYS.CUSTOM_SKIP_BACK, STORAGE_KEYS.CUSTOM_SKIP_FORWARD,
   STORAGE_KEYS.ENABLE_CUSTOM_SKIP]

/-- The table `DEFAULT_SETTINGS` of `content.js`. -/
def DEFAULT_SETTINGS : Obj JSVal :=
  [(STORAGE_KEYS.ENABLE_PIP, JSVal.bool true),
   (STORAGE_KEYS.ENABLE_SKIP_INTRO, JSVal.bool true),
   (STORAGE_KEYS.ENABLE_SKIP_CREDITS, JSVal.bool true),
   (STORAGE_KEYS.ENABLE_PLAY_NEXT, JSVal.bool true),
   (STORAGE_KEYS.DELAY_SKIP_INTRO, JSVal.num (JSNum.fin 0)),
   (STORAGE_KEYS.DELAY_SKIP_CREDITS, JSVal.num (JSNum.fin 0)),
   (STORAGE_KEYS.DELAY_PLAY_NEXT, JSVal.num (JSNum.fin 0)),
   (STORAGE_KEYS.CUSTOM_SKIP_BACK, JSVal.num (JSNum.fin 15)),
   (STORAGE_KEYS.CUSTOM_SKIP_FORWARD, JSVal.num (JSNum.fin 15)),
   (STORAGE_KEYS.ENABLE_CUSTOM_SKIP, JSVal.bool false)]

/-- The platform call `chrome.storage.local.get(defaults, cb)`: the object
handed to the callback has the keys of `defaults`, each with the stored value
when the store has one and with the default otherwise. -/
def storageGet (store : Obj JSVal) (defaults : Obj JSVal) : Obj JSVal :=
  defaults.map (fun kd => (kd.1, (store.get? kd.1).getD kd.2))

/-- The platform call `chrome.storage.local.set(items, cb)`: every property of
`items` is written into the store, the other keys are kept. -/
def storageSet (store : Obj JSVal) (items : Obj JSVal) : Obj JSVal :=
  items.foldl (fun s kv => s.set kv.1 kv.2) store

/-! ## The page, the module-level flags and the world -/

/-- The three properties of a computed style that `isElementVisible` reads. -/
structure Style where
  display : String
  visibility : String
  opacity : String
deriving DecidableEq, Repr

/-- The computed style of an element that is not in the document: every
property is the empty string. -/
def Style.detached : Style := ⟨"", "", ""⟩

/-- The progress slider, `[class*=Slider-thumb-]:not([aria-labelledby])`. -/
structure Slider where
  ariaValueNow : Option String
  ariaValueMax : Option String
deriving DecidableEq, Repr

/-- An injected button, `.plex-toolkit-pip-button`. -/
structure PipButton where
  className : String
  ariaLabel : String
  tooltip : String
deriving DecidableEq, Repr

/-- The reference control, `[data-testid="closeButton"]`. -/
structure CloseButton where
  className : String
  hasParent : Bool
deriving DecidableEq, Repr

/-- The custom text put into a skip control: the value shown, and whether an
invisible leading zero pads it. -/
structure SkipLabel where
  value : JSVal
  padded : Bool
deriving DecidableEq, Repr

/-- A host skip control, `[data-testid="skipBackButton"]` or
`[data-testid="skipForwardButton"]`.  `ariaValue` is the value the extension
put into the `aria-label` and `title` (`none`: the host's own text);
`numbersHidden` says that the digit paths of the icon have opacity `0`. -/
structure SkipControl where
  hasSvg : Bool
  ariaValue : Option JSVal
  overflowAdjusted : Bool
  numbersHidden : Bool
  label : Option SkipLabel
deriving DecidableEq, Repr

/-- The `video` element: its time and duration, and whether this element
carries the overriding `currentTime` accessor (`_plexToolkitOverridden`). -/
structure Video where
  currentTime : JSNum
  duration : JSNum
  overridden : Bool
deriving DecidableEq, Repr

/-- The part of the document the content script queries.  Elements that the
script compares or keeps a reference to are named by a node number;
`styles` gives the computed style of the nodes that are in the document. -/
structure Dom where
  styles : List (Nat × Style)
  pipButtons : List PipButton
  closeButton : Option CloseButton
  bottomNavChildren : Option Nat
  stylesInjected : Bool
  pipListeners : Bool
  skipButton : Option Nat
  progressSlider : Option Slider
  autoPlayCheck : Option Bool
  playNextButton : Option Nat
  skipBackButton : Option SkipControl
  skipForwardButton : Option SkipControl
  video : Option Video
deriving DecidableEq, Repr

/-- The call `window.getComputedStyle(element)`. -/
def Dom.getComputedStyle (d : Dom) (node : Nat) : Style :=
  (d.styles.lookup node).getD Style.detached

/-- The module-level variables of `content.js` (`settings` is kept in the
world; the two declared but never used variables are left out). -/
structure Flags where
  pipButtonAdded : Bool
  lastSkipButtonClicked : Option Nat
  skipButtonVisible : Bool
  playNextScheduled : Bool
  playNextClickedSuccessfully : Bool
  skipButtonClickHandler : Bool
  videoSeekingHandler : Bool
  expectedSeekTime : Option JSNum
deriving DecidableEq, Repr

/-- The initial values of the module-level variables. -/
def Flags.initial : Flags :=
  { pipButtonAdded := false, lastSkipButtonClicked := none, skipButtonVisible := false,
    playNextScheduled := false, playNextClickedSuccessfully := false,
    skipButtonClickHandler := false, videoSeekingHandler := false, expectedSeekTime := none }

/-- The callbacks the content script hands to `setTimeout`. -/
inductive Task where
  | tick
  | skipClick (button : Nat)
  | playNextClick
  | clearExpectedSeek
deriving DecidableEq, Repr

/-- A pending timer. -/
structure Timer where
  due : Nat
  task : Task
deriving DecidableEq, Repr

/-- The feature on whose behalf `simulateClick` was called. -/
inductive ClickSource where
  | skipButton
  | playNext
deriving DecidableEq, Repr

/-- One call of `simulateClick(element)`. -/
structure Click where
  source : ClickSource
  node : Nat
deriving DecidableEq, Repr

/-- The state of the content script and of the page it runs in. -/
structure World where
  now : Nat
  settings : Obj JSVal
  flags : Flags
  dom : Dom
  timers : List Timer
  clicks : List Click
  timeWrites : List JSNum
  typeErrors : Nat
deriving DecidableEq, Repr

/-- The WebIDL conversion of a timeout to a `long`, then clamped at zero as
`setTimeout` does: not finite gives 0, otherwise truncate and wrap modulo 2^32. -/
def timeoutMillis (delay : JSVal) : Nat :=
  match delay.toNumber.toRat? with
  | none => 0
  | some q =>
    let n := (Int.tdiv q.num (q.den : Int)) % (2 ^ 32 : Int)
    let n := if n ≥ 2 ^ 31 then n - 2 ^ 32 else n
    n.toNat

/-- The call `setTimeout(task, delay)`. -/
def World.setTimeout (w : World) (task : Task) (delay : JSVal) : World :=
  { w with timers := w.timers ++ [⟨w.now + timeoutMillis delay, task⟩] }

/-! ## `content.js`: utilities and the PIP button -/

/-- The function `isElementVisible(element, skipOpacityCheck)`. -/
def isElementVisible (d : Dom) (element : Option Nat) (skipOpacityCheck : Bool) : Bool :=
  match element with
  | none => false
  | some node =>
    let style := d.getComputedStyle node
    if skipOpacityCheck then
      style.display != "none" && style.visibility != "hidden"
    else
      style.display != "none" && style.visibility != "hidden" && style.opacity != "0"

/-- The function `injectPIPStyles`: the style sheet is added unless an element
with its id is already there. -/
def injectPIPStyles (w : World) : World :=
  if w.dom.stylesInjected then w
  else { w with dom := { w.dom with stylesInjected := true } }

/-- The function `addPIPButton`. -/
def addPIPButton (w : World) : World :=
  if !(w.settings.read STORAGE_KEYS.ENABLE_PIP).truthy then w
  else
    match w.dom.pipButtons.head? with
    | some _ => { w with flags := { w.flags with pipButtonAdded := true } }
    | none =>
      let w := if w.flags.pipButtonAdded then
          { w with flags := { w.flags with pipButtonAdded := false } } else w
      match w.dom.closeButton with
      | none => w
      | some otherButton =>
        if !otherButton.hasParent then w
        else
          let pipButton : PipButton :=
            { className := "plex-toolkit-pip-button " ++ otherButton.className,
              ariaLabel := "Picture in Picture",
              tooltip := "Picture in Picture" }
          let w := injectPIPStyles w
          { w with
            dom := { w.dom with pipButtons := w.dom.pipButtons ++ [pipButton],
                                pipListeners := true },
            flags := { w.flags with pipButtonAdded := true } }

/-! ## `content.js`: skip intro and credits -/

/-- The two answers of `detectSkipType` other than `null`. -/
inductive SkipType where
  | intro
  | credits
deriving DecidableEq, Repr

/-- The function `detectSkipType` (`none` is `null`). -/
def detectSkipType (d : Dom) : Option SkipType :=
  match d.progressSlider with
  | none => none
  | some progressSlider =>
    let currentValue := parseInt (attrOr progressSlider.ariaValueNow "0")
    let maxValue := parseInt (attrOr progressSlider.ariaValueMax "1")
    let progressPercent := (currentValue.div maxValue).mul (JSNum.fin 100)
    if progressPercent.lt (JSNum.fin 50) then some SkipType.intro else some SkipType.credits

/-- The function `simulateClick(element)`: the three mouse events go to the
element; the log records the call. -/
def simulateClick (w : World) (source : ClickSource) (node : Nat) : World :=
  { w with clicks := w.clicks ++ [⟨source, node⟩] }

/-- The callback `clickSkipButton` hands to `setTimeout`. -/
def skipClickCallback (w : World) (button : Nat) : World :=
  if !isElementVisible w.dom (some button) false then w
  else
    let w := simulateClick w ClickSource.skipButton button
    { w with flags := { w.flags with lastSkipButtonClicked := some button } }

/-- The function `clickSkipButton(button, delay)`. -/
def clickSkipButton (w : World) (button : Nat) (delay : JSVal) : World :=
  w.setTimeout (Task.skipClick button) delay

/-- The function `handleSkipButtons`. -/
def handleSkipButtons (w : World) : World :=
  let skipButton := w.dom.skipButton
  if skipButton.isNone || !isElementVisible w.dom skipButton false then
    if w.flags.skipButtonVisible then
      { w with flags := { w.flags with skipButtonVisible := false,
                                       lastSkipButtonClicked := none } }
    else w
  else
    let w := if !w.flags.skipButtonVisible then
        { w with flags := { w.flags with skipButtonVisible := true } } else w
    if w.flags.lastSkipButtonClicked == skipButton then w
    else
      match skipButton with
      | none => w
      | some button =>
        let skipType := detectSkipType w.dom
        if skipType == some SkipType.intro
            && (w.settings.read STORAGE_KEYS.ENABLE_SKIP_INTRO).truthy then
          let delay := (w.settings.read STORAGE_KEYS.DELAY_SKIP_INTRO).orElse
            (JSVal.num (JSNum.fin 0))
          clickSkipButton w button delay
        else if skipType == some SkipType.credits
            && (w.settings.read STORAGE_KEYS.ENABLE_SKIP_CREDITS).truthy then
          let delay := (w.settings.read STORAGE_KEYS.DELAY_SKIP_CREDITS).orElse
            (JSVal.num (JSNum.fin 0))
          clickSkipButton w button delay
        else w

/-! ## `content.js`: play next -/

/-- The callback `handleAutoPlayNext` hands to `setTimeout`: the button is
queried again when the timer fires. -/
def playNextCallback (w : World) : World :=
  let currentButton := w.dom.playNextButton
  match currentButton with
  | none => { w with flags := { w.flags with playNextScheduled := false } }
  | some node =>
    if !isElementVisible w.dom currentButton true then
      { w with flags := { w.flags with playNextScheduled := false } }
    else
      let w := simulateClick w ClickSource.playNext node
      { w with flags := { w.flags with playNextClickedSuccessfully := true } }

/-- The function `handleAutoPlayNext`. -/
def handleAutoPlayNext (w : World) : World :=
  if !(w.settings.read STORAGE_KEYS.ENABLE_PLAY_NEXT).truthy then w
  else
    match w.dom.autoPlayCheck with
    | none => w
    | some checked =>
      if !checked then w
      else
        let playNextButton := w.dom.playNextButton
        if playNextButton.isNone then
          if w.flags.playNextClickedSuccessfully then
            { w with flags := { w.flags with playNextScheduled := false,
                                             playNextClickedSuccessfully := false } }
          else w
        else if w.flags.playNextClickedSuccessfully then w
        else
          let isVisible := isElementVisible w.dom playNextButton true
          if !isVisible then w
          else if w.flags.playNextScheduled then w
          else
            let w := { w with flags := { w.flags with playNextScheduled := true } }
            let delay := (w.settings.read STORAGE_KEYS.DELAY_PLAY_NEXT).orElse
              (JSVal.num (JSNum.fin 0))
            w.setTimeout Task.playNextClick delay

/-! ## `content.js`: custom skip back and forward -/

/-- The comparison `value < 10` on a setting value. -/
def JSVal.ltNum (v : JSVal) (n : JSNum) : Bool := v.toNumber.lt n

/-- The label `updateSkipButtonVisuals` builds for a value: values below 10
get an invisible leading zero. -/
def skipLabelFor (value : JSVal) : SkipLabel :=
  { value := value, padded := value.ltNum (JSNum.fin 10) }

/-- The branch of `updateSkipButtonVisuals` that restores one control. -/
def restoreSkipControl (c : SkipControl) : SkipControl :=
  if c.hasSvg then { c with numbersHidden := false, label := none } else c

/-- The branch of `updateSkipButtonVisuals` that labels one control. -/
def labelSkipControl (c : SkipControl) (value : JSVal) : SkipControl :=
  let c := { c with ariaValue := some value }
  if c.hasSvg then
    { c with overflowAdjusted := true, numbersHidden := true, label := some (skipLabelFor value) }
  else c

/-- The function `updateSkipButtonVisuals`. -/
def updateSkipButtonVisuals (w : World) : World :=
  match w.dom.skipBackButton, w.dom.skipForwardButton with
  | some skipBackButton, some skipForwardButton =>
    if !(w.settings.read STORAGE_KEYS.ENABLE_CUSTOM_SKIP).truthy then
      { w with dom := { w.dom with
          skipBackButton := some (restoreSkipControl skipBackButton),
          skipForwardButton := some (restoreSkipControl skipForwardButton) } }
    else
      let customBackValue := (w.settings.read STORAGE_KEYS.CUSTOM_SKIP_BACK).orElse
        (JSVal.num (JSNum.fin 10))
      let customForwardValue := (w.settings.read STORAGE_KEYS.CUSTOM_SKIP_FORWARD).orElse
        (JSVal.num (JSNum.fin 30))
      { w with dom := { w.dom with
          skipBackButton := some (labelSkipControl skipBackButton customBackValue),
          skipForwardButton := some (labelSkipControl skipForwardButton customForwardValue) } }
  | _, _ => w

/-- The original `currentTime` setter of the media element.  The log records
the value it is called with.  The attribute is a WebIDL `double`: a value that
is not finite is rejected with a `TypeError` (counted in `typeErrors`) and the
time stays as it is.  A finite value becomes the new time, kept within 0 and
the duration once the duration is known (it is `NaN` before that). -/
def nativeSetCurrentTime (w : World) (value : JSNum) : World :=
  match w.dom.video with
  | none => w
  | some v =>
    let w := { w with timeWrites := w.timeWrites ++ [value] }
    match value.toRat? with
    | none => { w with typeErrors := w.typeErrors + 1 }
    | some _ =>
      let time :=
        if v.duration == JSNum.nan then value
        else JSNum.max (JSNum.fin 0) (JSNum.min value v.duration)
      { w with dom := { w.dom with video := some { v with currentTime := time } } }

/-- The value the overriding setter passes on to the original setter. -/
def interceptedValue (expectedSeekTime : Option JSNum) (currentTime value : JSNum) : JSNum :=
  match expectedSeekTime with
  | none => value
  | some e =>
    if ((value.sub e).abs.gt (JSNum.fin 2)) && ((currentTime.sub e).abs.lt (JSNum.fin 10))
    then e else value

/-- An assignment `videoElement.currentTime = value`: through the overriding
setter when this element carries it, through the original setter otherwise. -/
def setCurrentTime (w : World) (value : JSNum) : World :=
  match w.dom.video with
  | none => w
  | some v =>
    if v.overridden then
      match w.flags.expectedSeekTime with
      | none => nativeSetCurrentTime w value
      | some e =>
        let value := interceptedValue (some e) v.currentTime value
        let w := w.setTimeout Task.clearExpectedSeek (JSVal.num (JSNum.fin 500))
        nativeSetCurrentTime w value
    else nativeSetCurrentTime w value

/-- The function `setupVideoSeekingHandler`. -/
def setupVideoSeekingHandler (w : World) : World :=
  match w.dom.video with
  | none => w
  | some videoElement =>
    if !w.flags.videoSeekingHandler
        && (w.settings.read STORAGE_KEYS.ENABLE_CUSTOM_SKIP).truthy then
      if videoElement.overridden then w
      else
        { w with
          dom := { w.dom with video := some { videoElement with overridden := true } },
          flags := { w.flags with videoSeekingHandler := true } }
    else w

/-- The function `setupCustomSkipButtons`. -/
def setupCustomSkipButtons (w : World) : World :=
  if !(w.settings.read STORAGE_KEYS.ENABLE_CUSTOM_SKIP).truthy then
    let w := if w.flags.skipButtonClickHandler then
        { w with flags := { w.flags with skipButtonClickHandler := false } } else w
    let w := if w.flags.videoSeekingHandler then
        { w with flags := { w.flags with videoSeekingHandler := false } } else w
    w
  else
    let w := setupVideoSeekingHandler w
    if w.flags.skipButtonClickHandler then w
    else { w with flags := { w.flags with skipButtonClickHandler := true } }

/-- What a click landed on, as the document-level handler sees it. -/
inductive ClickTarget where
  | skipBackButton
  | skipForwardButton
  | other
deriving DecidableEq, Repr

/-- The value the skip-back branch assigns to the video's time. -/
def skipBackTarget (settings : Obj JSVal) (currentTime : JSNum) : JSNum :=
  let userValue := (settings.read STORAGE_KEYS.CUSTOM_SKIP_BACK).orElse (JSVal.num (JSNum.fin 10))
  let PLEX_DEFAULT_BACK := JSNum.fin 10
  let desiredTime := JSNum.max (JSNum.fin 0) (currentTime.sub userValue.toNumber)
  if currentTime.lt PLEX_DEFAULT_BACK then desiredTime
  else
    let compensatedOffset := PLEX_DEFAULT_BACK.sub userValue.toNumber
    let targetTime := JSNum.max (JSNum.fin 0) (currentTime.add compensatedOffset)
    targetTime

/-- The value the skip-forward branch assigns to the video's time. -/
def skipForwardTarget (settings : Obj JSVal) (currentTime duration : JSNum) : JSNum :=
  let userValue := (settings.read STORAGE_KEYS.CUSTOM_SKIP_FORWARD).orElse
    (JSVal.num (JSNum.fin 30))
  let PLEX_DEFAULT_FORWARD := JSNum.fin 30
  let compensatedOffset := userValue.toNumber.sub PLEX_DEFAULT_FORWARD
  let targetTime := JSNum.min duration (currentTime.add compensatedOffset)
  targetTime

/-- The document-level click handler `skipButtonClickHandler`. -/
def skipButtonClickHandler (w : World) (target : ClickTarget) : World :=
  match target with
  | ClickTarget.skipBackButton =>
    match w.dom.video with
    | none => w
    | some videoElement =>
      let targetTime := skipBackTarget w.settings videoElement.currentTime
      let w := { w with flags := { w.flags with expectedSeekTime := some targetTime } }
      setCurrentTime w targetTime
  | ClickTarget.skipForwardButton =>
    match w.dom.video with
    | none => w
    | some videoElement =>
      let targetTime := skipForwardTarget w.settings videoElement.currentTime
        videoElement.duration
      let w := { w with flags := { w.flags with expectedSeekTime := some targetTime } }
      setCurrentTime w targetTime
  | ClickTarget.other => w

/-! ## `content.js`: the monitoring loop and initialisation -/

/-- The function `tick`. -/
def tick (w : World) : World :=
  let w :=
    if (w.settings.read STORAGE_KEYS.ENABLE_PIP).truthy then
      match w.dom.bottomNavChildren with
      | none => w
      | some childCount => if childCount != 0 then addPIPButton w else w
    else w
  let w :=
    if (w.settings.read STORAGE_KEYS.ENABLE_SKIP_INTRO).truthy
        || (w.settings.read STORAGE_KEYS.ENABLE_SKIP_CREDITS).truthy then
      handleSkipButtons w
    else w
  let w :=
    if (w.settings.read STORAGE_KEYS.ENABLE_PLAY_NEXT).truthy then handleAutoPlayNext w
    else w
  let w := setupCustomSkipButtons w
  let w := updateSkipButtonVisuals w
  w.setTimeout Task.tick (JSVal.num (JSNum.fin 250))

/-- One entry of a change notification. -/
structure StorageChange where
  oldValue : JSVal
  newValue : JSVal
deriving DecidableEq, Repr

/-- The expression `changes[key].newValue` for a key of the notification. -/
def newValueOf (changes : Obj StorageChange) (key : String) : JSVal :=
  match changes.get? key with
  | none => JSVal.undefined
  | some c => c.newValue

/-- The body of the loop `for (let key in changes)` of the listener. -/
def applyChange (changes : Obj StorageChange) (w : World) (key : String) : World :=
  let w := { w with settings := w.settings.set key (newValueOf changes key) }
  if key = STORAGE_KEYS.ENABLE_PIP && !(newValueOf changes key).truthy then
    match w.dom.pipButtons with
    | [] => w
    | _ :: rest =>
      { w with dom := { w.dom with pipButtons := rest },
               flags := { w.flags with pipButtonAdded := false } }
  else w

/-- The listener `init` installs on `chrome.storage.onChanged`. -/
def onStorageChanged (w : World) (changes : Obj StorageChange) (area : String) : World :=
  if area = "local" then changes.keys.foldl (applyChange changes) w
  else w

/-- The function `loadSettings` of `content.js`. -/
def loadSettings (w : World) (store : Obj JSVal) : World :=
  { w with settings := storageGet store DEFAULT_SETTINGS }

/-- The world when the script is loaded: `settings` is a copy of the defaults
and nothing is pending. -/
def World.initial (dom : Dom) : World :=
  { now := 0, settings := DEFAULT_SETTINGS, flags := Flags.initial, dom := dom,
    timers := [], clicks := [], timeWrites := [], typeErrors := 0 }

/-- The function `init`: the settings are loaded, then the first tick runs. -/
def init (store : Obj JSVal) (dom : Dom) : World :=
  tick (loadSettings (World.initial dom) store)

/-! ## `popup.js` -/

namespace Popup

/-- The constant `STORAGE_KEYS` of `popup.js`. -/
def STORAGE_KEYS : StorageKeys :=
  { ENABLE_PIP := "enablePIP",
    ENABLE_SKIP_INTRO := "enableSkipIntro",
    ENABLE_SKIP_CREDITS := "enableSkipCredits",
    ENABLE_PLAY_NEXT := "enablePlayNext",
    DELAY_SKIP_INTRO := "delaySkipIntro",
    DELAY_SKIP_CREDITS := "delaySkipCredits",
    DELAY_PLAY_NEXT := "delayPlayNext",
    CUSTOM_SKIP_BACK := "customSkipBack",
    CUSTOM_SKIP_FORWARD := "customSkipForward",
    ENABLE_CUSTOM_SKIP := "enableCustomSkip" }

/-- The table `DEFAULT_SETTINGS` of `popup.js`. -/
def DEFAULT_SETTINGS : Obj JSVal :=
  [(STORAGE_KEYS.ENABLE_PIP, JSVal.bool true),
   (STORAGE_KEYS.ENABLE_SKIP_INTRO, JSVal.bool true),
   (STORAGE_KEYS.ENABLE_SKIP_CREDITS, JSVal.bool true),
   (STORAGE_KEYS.ENABLE_PLAY_NEXT, JSVal.bool true),
   (STORAGE_KEYS.DELAY_SKIP_INTRO, JSVal.num (JSNum.fin 0)),
   (STORAGE_KEYS.DELAY_SKIP_CREDITS, JSVal.num (JSNum.fin 0)),
   (STORAGE_KEYS.DELAY_PLAY_NEXT, JSVal.num (JSNum.fin 0)),
   (STORAGE_KEYS.CUSTOM_SKIP_BACK, JSVal.num (JSNum.fin 15)),
   (STORAGE_KEYS.CUSTOM_SKIP_FORWARD, JSVal.num (JSNum.fin 15)),
   (STORAGE_KEYS.ENABLE_CUSTOM_SKIP, JSVal.bool false)]

/-- The function `saveSetting(key, value)`: the store after the write. -/
def saveSetting (store : Obj JSVal) (key : String) (value : JSVal) : Obj JSVal :=
  storageSet store [(key, value)]

/-- The function `loadSettings`: the object its callback receives and copies
into the controls. -/
def loadSettings (store : Obj JSVal) : Obj JSVal :=
  storageGet store DEFAULT_SETTINGS

end Popup

/-! ## The event loop -/

/-- What can happen to the world: a pending timer fires, the host page changes
the document, the store reports a change, the user clicks, or the host page
assigns the video's time. -/
inductive Event where
  | timer (i : Nat)
  | domChange (d : Dom)
  | storageChanged (changes : Obj StorageChange) (area : String)
  | userClick (target : ClickTarget)
  | hostSeek (value : JSNum)
deriving DecidableEq, Repr

/-- The callback of a timer. -/
def runTask (w : World) : Task → World
  | Task.tick => tick w
  | Task.skipClick button => skipClickCallback w button
  | Task.playNextClick => playNextCallback w
  | Task.clearExpectedSeek => { w with flags := { w.flags with expectedSeekTime := none } }

/-- The pending timer number `i` fires: it leaves the queue, the clock moves
to its due time when that lies ahead, and its callback runs. -/
def fireTimer (w : World) (i : Nat) : World :=
  match w.timers.get? i with
  | none => w
  | some t =>
    runTask { w with timers := w.timers.eraseIdx i, now := Nat.max w.now t.due } t.task

/-- One event. -/
def step (w : World) : Event → World
  | Event.timer i => fireTimer w i
  | Event.domChange d => { w with dom := d }
  | Event.storageChanged changes area => onStorageChanged w changes area
  | Event.userClick target =>
    if w.flags.skipButtonClickHandler then skipButtonClickHandler w target else w
  | Event.hostSeek value => setCurrentTime w value

/-- A sequence of events. -/
def run (w : World) (events : List Event) : World := events.foldl step w

/-- The states the content script can reach from `init`. -/
def Reachable (w : World) : Prop :=
  ∃ store dom events, w = run (init store dom) events

/-- The position of the pending timer that is due first (the earliest
scheduled one among equals), as the browser's timer queue picks it. -/
def nextDue : List Timer → Option Nat
  | [] => none
  | t :: rest =>
    match nextDue rest with
    | none => some 0
    | some j =>
      match rest.get? j with
      | none => some 0
      | some u => if u.due < t.due then some (j + 1) else some 0

/-- The event loop left alone for `n` turns: each turn fires the timer that
is due first. -/
def runLoop : Nat → World → World
  | 0, w => w
  | n + 1, w =>
    match nextDue w.timers with
    | none => w
    | some i => runLoop n (fireTimer w i)


/-- The write `resetAllSettings` issues: none when the user declines the
prompt, the whole default table when the user confirms. -/
def Popup.resetAllSettingsWrite (confirmed : Bool) : Option (Obj JSVal) :=
  if !confirmed then none else some Popup.DEFAULT_SETTINGS

/-- The function `resetAllSettings` of `popup.js`: the store afterwards, given
the answer to the `confirm` prompt. -/
def Popup.resetAllSettings (store : Obj JSVal) (confirmed : Bool) : Obj JSVal :=
  match Popup.resetAllSettingsWrite confirmed with
  | none => store
  | some items => storageSet store items

/-! ## `popup.js`: the skip sliders -/

/-- The value of a character as a digit of the given radix, if it is one. -/
def radixDigit (radix : Nat) (c : Char) : Option Nat :=
  let v : Option Nat :=
    if c.isDigit then some (c.toNat - 48)
    else if c.isLower then some (c.toNat - 87)
    else if c.isUpper then some (c.toNat - 55)
    else none
  v.filter (fun n => n < radix)

/-- The values of the longest run of digits of the given radix at the start. -/
def leadingDigits (radix : Nat) : List Char → List Nat
  | [] => []
  | c :: cs =>
    match radixDigit radix c with
    | none => []
    | some n => n :: leadingDigits radix cs

/-- The function `parseInt(s)` without a radix, as the popup calls it: as
`parseInt(s, 10)`, except that after the sign a prefix `0x` or `0X` is dropped
and the digits are then read in radix 16. -/
def parseIntAuto (s : String) : JSNum :=
  let cs := s.toList.dropWhile isStrWhiteSpaceChar
  let negative := cs.head? == some '-'
  let rest := if cs.head? == some '-' || cs.head? == some '+' then cs.tail else cs
  let hex := match rest with
    | c0 :: c1 :: _ => c0 == '0' && (c1 == 'x' || c1 == 'X')
    | _ => false
  let radix := if hex then 16 else 10
  let body := if hex then rest.drop 2 else rest
  let ds := leadingDigits radix body
  if ds.isEmpty then JSNum.nan
  else
    let n := ds.foldl (fun acc k => radix * acc + k) 0
    JSNum.ofSignedNat negative n

/-- The `change` listener of the skip-back slider: the store after it has run
on a slider whose value is `value`. -/
def Popup.skipBackSliderChange (store : Obj JSVal) (value : String) : Obj JSVal :=
  Popup.saveSetting store Popup.STORAGE_KEYS.CUSTOM_SKIP_BACK
    ((JSVal.num (parseIntAuto value)).orElse (JSVal.num (JSNum.fin 10)))

/-- The `change` listener of the skip-forward slider. -/
def Popup.skipForwardSliderChange (store : Obj JSVal) (value : String) : Obj JSVal :=
  Popup.saveSetting store Popup.STORAGE_KEYS.CUSTOM_SKIP_FORWARD
    ((JSVal.num (parseIntAuto value)).orElse (JSVal.num (JSNum.fin 30)))

/-! ## Observations used in the statements -/

/-- A page with nothing the script looks for. -/
def Dom.empty : Dom :=
  { styles := [], pipButtons := [], closeButton := none, bottomNavChildren := none,
    stylesInjected := false, pipListeners := false, skipButton := none,
    progressSlider := none, autoPlayCheck := none, playNextButton := none,
    skipBackButton := none, skipForwardButton := none, video := none }

/-- The number `x` kept within `lo` and `hi`. -/
def clamp (x lo hi : ℚ) : ℚ := max lo (min x hi)

/-- The number of delayed play-next clicks that are pending. -/
def pendingPlayNext (w : World) : Nat :=
  w.timers.countP (fun t => t.task == Task.playNextClick)

/-- The number of simulated clicks dispatched for the play-next feature. -/
def playNextClicks (w : World) : Nat :=
  w.clicks.countP (fun c => c.source == ClickSource.playNext)

/-- The number of simulated clicks a node has received. -/
def clicksOn (w : World) (node : Nat) : Nat :=
  w.clicks.countP (fun c => c.node == node)

/-- The step from `w` to `w'` keeps the clock and only adds timers that are not ticks. -/
def Extends (w w' : World) : Prop :=
  w'.now = w.now ∧ ∃ others, w'.timers = w.timers ++ others ∧ ∀ t ∈ others, t.task ≠ Task.tick

/-- Whether the event is a change of the document by the host page. -/
def Event.isDomChange : Event → Bool
  | Event.domChange _ => true
  | _ => false

/-- The play-next bookkeeping is consistent: at most one delayed click is
pending, and while one is pending the click is marked as scheduled and not
yet as successful. -/
def PlayNextInv (w : World) : Prop :=
  pendingPlayNext w ≤ 1 ∧
  (0 < pendingPlayNext w →
    w.flags.playNextScheduled = true ∧ w.flags.playNextClickedSuccessfully = false)

/-- The step from `w` to `w'` leaves the play-next bookkeeping alone. -/
def KeepsPlayNext (w w' : World) : Prop :=
  pendingPlayNext w' = pendingPlayNext w ∧
  w'.flags.playNextScheduled = w.flags.playNextScheduled ∧
  w'.flags.playNextClickedSuccessfully = w.flags.playNextClickedSuccessfully ∧
  playNextClicks w' = playNextClicks w

/-- Whether the event is a tick that finds no play-next button in the page. -/
def tickMissesPlayNext (w : World) : Event → Bool
  | Event.timer i =>
    match w.timers.get? i with
    | some t => t.task == Task.tick && w.dom.playNextButton.isNone
    | none => false
  | _ => false

/-- Whether every tick of the run finds a play-next button in the page. -/
def everyTickSeesPlayNext : World → List Event → Bool
  | _, [] => true
  | w, e :: rest => !tickMissesPlayNext w e && everyTickSeesPlayNext (step w e) rest

/-- The play-next click has been dispatched and nothing further is under
way: the success flag is set, no delayed click is pending and `n` play-next
clicks have been dispatched so far. -/
def PlayNextDone (n : Nat) (w : World) : Prop :=
  w.flags.playNextClickedSuccessfully = true ∧ pendingPlayNext w = 0 ∧ playNextClicks w = n

/-- A page at the end of an episode: the host's autoplay box is checked and
the play-next button (node 7) is in the page. -/
def upNextPage : Dom :=
  { Dom.empty with autoPlayCheck := some true, playNextButton := some 7 }

/-- A page during an intro: the skip button (node 1) is shown and the
progress slider stands at 10 of 100. -/
def introPage : Dom :=
  { Dom.empty with
    styles := [(1, ⟨"block", "visible", "1"⟩)],
    skipButton := some 1,
    progressSlider := some ⟨some "10", some "100"⟩ }

/-- A store in which the user has set the intro delay to 500 ms. -/
def slowIntroStore : Obj JSVal :=
  [(STORAGE_KEYS.DELAY_SKIP_INTRO, JSVal.num (JSNum.fin 500))]

/-- The world after the first tick on `upNextPage` and the delayed play-next
click that tick scheduled. -/
def afterPlayNext : World := run (init [] upNextPage) [Event.timer 0]

/-- None of the elements the content script looks for is in the page: no
reference control, no skip overlay button, no progress slider, no autoplay
box, no play-next button, no skip back or forward control and no video. -/
def Dom.nothingFound (d : Dom) : Bool :=
  d.closeButton.isNone && d.skipButton.isNone && d.progressSlider.isNone &&
  d.autoPlayCheck.isNone && d.playNextButton.isNone && d.skipBackButton.isNone &&
  d.skipForwardButton.isNone && d.video.isNone

/-- A page in which the play-next button has been rendered anew as node 9. -/
def rerenderedUpNextPage : Dom :=
  { Dom.empty with autoPlayCheck := some true, playNextButton := some 9 }

/-- A store in which custom skip is switched on with a skip-back value of 5. -/
def customSkipStore : Obj JSVal :=
  [(STORAGE_KEYS.ENABLE_CUSTOM_SKIP, JSVal.bool true),
   (STORAGE_KEYS.CUSTOM_SKIP_BACK, JSVal.num (JSNum.fin 5))]

/-- A page with a video at 37 s of 100 s. -/
def videoPage : Dom :=
  { Dom.empty with video := some ⟨JSNum.fin 37, JSNum.fin 100, false⟩ }

/-- The world after the first tick on `videoPage` with `customSkipStore` (the
interceptor and the click handler are installed) and a click on skip back. -/
def afterSkipBack : World :=
  run (init customSkipStore videoPage) [Event.userClick ClickTarget.skipBackButton]

/-- The world on `introPage` once the settings of `slowIntroStore` are loaded,
before the first tick. -/
def introWorld : World := loadSettings (World.initial introPage) slowIntroStore

/-- The three states the play-next bookkeeping can be in: idle; a click
scheduled and pending; a click dispatched. -/
def PlayNextStates (w : World) : Prop :=
  (w.flags.playNextScheduled = false ∧ w.flags.playNextClickedSuccessfully = false ∧
    pendingPlayNext w = 0) ∨
  (w.flags.playNextScheduled = true ∧ w.flags.playNextClickedSuccessfully = false ∧
    pendingPlayNext w = 1) ∨
  (w.flags.playNextScheduled = true ∧ w.flags.playNextClickedSuccessfully = true ∧
    pendingPlayNext w = 0)

/-- The part of `tick` before the play-next check. -/
def tickBeforePlayNext (w : World) : World :=
  let w :=
    if (w.settings.read STORAGE_KEYS.ENABLE_PIP).truthy then
      match w.dom.bottomNavChildren with
      | none => w
      | some childCount => if childCount != 0 then addPIPButton w else w
    else w
  if (w.settings.read STORAGE_KEYS.ENABLE_SKIP_INTRO).truthy
      || (w.settings.read STORAGE_KEYS.ENABLE_SKIP_CREDITS).truthy then
    handleSkipButtons w
  else w

/-- The part of `tick` after the play-next check. -/
def tickAfterPlayNext (w : World) : World :=
  let w := setupCustomSkipButtons w
  let w := updateSkipButtonVisuals w
  w.setTimeout Task.tick (JSVal.num (JSNum.fin 250))

/-- A store in which the user has set the play-next delay to 1000 ms. -/
def slowNextStore : Obj JSVal :=
  [(STORAGE_KEYS.DELAY_PLAY_NEXT, JSVal.num (JSNum.fin 1000))]

/-- A page on which the autoplay box is checked and no play-next button is shown. -/
def noUpNextPage : Dom :=
  { Dom.empty with autoPlayCheck := some true }

/-- The world after the first tick on `upNextPage` with `slowNextStore`, which
schedules the delayed click, and the removal of the play-next button. -/
def upNextRemoved : World :=
  run (init slowNextStore upNextPage) [Event.domChange noUpNextPage]

/-- The step from `w` to `w'` leaves alone what the play-next check reads and
writes: the bookkeeping, the settings, the autoplay box and the button. -/
def PlayNextFrame (w w' : World) : Prop :=
  KeepsPlayNext w w' ∧ w'.settings = w.settings ∧
  w'.dom.autoPlayCheck = w.dom.autoPlayCheck ∧
  w'.dom.playNextButton = w.dom.playNextButton

/-- The world after a dispatched play-next click and the removal of the
play-next button. -/
def upNextDoneRemoved : World :=
  run (init [] upNextPage) [Event.timer 0, Event.domChange noUpNextPage]

/-- The page of `introPage` with the skip button hidden (`display: none`). -/
def hiddenIntroPage : Dom :=
  { introPage with styles := [(1, ⟨"none", "visible", "1"⟩)] }

/-- A store in which the user has set the intro delay to 300 ms. -/
def flickerStore : Obj JSVal :=
  [(STORAGE_KEYS.DELAY_SKIP_INTRO, JSVal.num (JSNum.fin 300))]

/-- A skip button that flickers: the tick at 0 ms sees it and schedules the
click for 300 ms; the host hides it, and the tick at 250 ms resets the
tracking; the host shows it again, and the delayed click at 300 ms goes
through; the host hides it once more. -/
def skipFlicker : World :=
  run (init flickerStore introPage)
    [Event.domChange hiddenIntroPage, Event.timer 1, Event.domChange introPage,
     Event.timer 0, Event.domChange hiddenIntroPage]

/-- A page on which the host has put a new video element, at 0 s of 200 s. -/
def nextVideoPage : Dom :=
  { Dom.empty with video := some ⟨JSNum.fin 0, JSNum.fin 200, false⟩ }

/-- The world after the first tick on `videoPage` with `customSkipStore`, which
installs the interceptor on the video, and the replacement of the video
element by the host. -/
def videoReplaced : World :=
  run (init customSkipStore videoPage) [Event.domChange nextVideoPage]

/-- A page with a progress slider that carries the given two attributes. -/
def sliderPage (ariaValueNow ariaValueMax : Option String) : Dom :=
  { Dom.empty with progressSlider := some ⟨ariaValueNow, ariaValueMax⟩ }

/-- A host skip control as the host renders it, with an icon. -/
def hostSkipControl : SkipControl :=
  { hasSvg := true, ariaValue := none, overflowAdjusted := false, numbersHidden := false,
    label := none }

/-- A page with a video at 37 s of 100 s and the two skip controls. -/
def playerPage : Dom :=
  { Dom.empty with
    video := some ⟨JSNum.fin 37, JSNum.fin 100, false⟩,
    skipBackButton := some hostSkipControl,
    skipForwardButton := some hostSkipControl }

/-- A world on `playerPage` in which custom skip is on, the skip-back value is
0 and the skip-forward value is unset. -/
def zeroSkipWorld : World :=
  { World.initial playerPage with
    settings := [(STORAGE_KEYS.ENABLE_CUSTOM_SKIP, JSVal.bool true),
                 (STORAGE_KEYS.CUSTOM_SKIP_BACK, JSVal.num (JSNum.fin 0))] }

/-- A world on a page with one video, not instrumented, and the given settings. -/
def videoWorld (currentTime duration : JSNum) (settings : Obj JSVal) : World :=
  { World.initial { Dom.empty with video := some ⟨currentTime, duration, false⟩ } with
    settings := settings }

/-- A world on a page with one instrumented video at `currentTime` of 100 s,
in which `expected` is the expected seek time. -/
def seekingWorld (currentTime expected : JSNum) : World :=
  { World.initial { Dom.empty with video := some ⟨currentTime, JSNum.fin 100, true⟩ } with
    flags := { Flags.initial with expectedSeekTime := some expected } }

/-! # Properties -/

/-! ## Facts about numbers: rounding -/

theorem pow2_eq_zpow (e : Int) : pow2 e = (2 : ℚ) ^ e := by
  unfold pow2
  split
  · rename_i h
    obtain ⟨n, rfl⟩ := Int.eq_ofNat_of_zero_le h
    simp
  · rename_i h
    obtain ⟨n, hn⟩ := Int.eq_ofNat_of_zero_le (show 0 ≤ -e by omega)
    have he : e = -(n : Int) := by omega
    subst he
    simp

theorem pow2_pos (e : Int) : 0 < pow2 e := by
  rw [pow2_eq_zpow]; positivity

theorem log2Fuel_eq (fuel n : ℕ) (h : n ≤ fuel) : log2Fuel fuel n = Nat.log2 n := by
  induction fuel generalizing n with
  | zero =>
    have : n = 0 := by omega
    subst this
    simp [log2Fuel, Nat.log2]
  | succ f ih =>
    rw [log2Fuel, Nat.log2]
    by_cases h2 : 2 ≤ n
    · simp only [h2, if_true, ge_iff_le]
      rw [ih (n / 2) (by omega)]
    · simp [h2]

theorem natLog2_eq (n : ℕ) : natLog2 n = Nat.log2 n := log2Fuel_eq n n le_rfl

theorem natLog2_le (n : ℕ) (h : n ≠ 0) : 2 ^ natLog2 n ≤ n := by
  rw [natLog2_eq]; exact Nat.log2_self_le h

theorem natLog2_lt (n : ℕ) : n < 2 ^ (natLog2 n + 1) := by
  rw [natLog2_eq]; exact Nat.lt_log2_self

/-- The exponent `floorLog2` returns brackets the number. -/
theorem floorLog2_spec (q : ℚ) (hq : 0 < q) :
    (2 : ℚ) ^ floorLog2 q ≤ q ∧ q < (2 : ℚ) ^ (floorLog2 q + 1) := by
  have hnum : 0 < q.num := Rat.num_pos.mpr hq
  have hden : (0 : ℚ) < q.den := by exact_mod_cast q.den_pos
  obtain ⟨a, ha⟩ := Int.eq_ofNat_of_zero_le hnum.le
  have ha0 : a ≠ 0 := by
    intro h
    subst h
    rw [ha] at hnum
    exact lt_irrefl _ hnum
  have hqa : q = (a : ℚ) / (q.den : ℚ) := by
    have := Rat.num_div_den q
    rw [ha] at this
    simpa using this.symm
  have hna : q.num.natAbs = a := by rw [ha]; rfl
  have h1 := natLog2_le a ha0
  have h2 := natLog2_lt a
  have h3 := natLog2_le q.den q.den_nz
  have h4 := natLog2_lt q.den
  have h1q : (2 : ℚ) ^ (natLog2 a) ≤ (a : ℚ) := by exact_mod_cast h1
  have h2q : (a : ℚ) < (2 : ℚ) ^ (natLog2 a + 1) := by exact_mod_cast h2
  have h3q : (2 : ℚ) ^ (natLog2 q.den) ≤ (q.den : ℚ) := by exact_mod_cast h3
  have h4q : (q.den : ℚ) < (2 : ℚ) ^ (natLog2 q.den + 1) := by exact_mod_cast h4
  have two_ne : (2 : ℚ) ≠ 0 := by norm_num
  -- the upper bound with e0 + 1 and the lower bound with e0 - 1
  have hup : q < (2 : ℚ) ^ (((natLog2 a : Int) - (natLog2 q.den : Int)) + 1) := by
    have e : (((natLog2 a : Int) - (natLog2 q.den : Int)) + 1)
        = ((natLog2 a + 1 : ℕ) : Int) - ((natLog2 q.den : ℕ) : Int) := by push_cast; ring
    rw [e, zpow_sub₀ two_ne, zpow_natCast, zpow_natCast]
    calc q = (a : ℚ) / q.den := hqa
      _ < (2 : ℚ) ^ (natLog2 a + 1) / q.den :=
          div_lt_div_of_pos_right h2q hden
      _ ≤ (2 : ℚ) ^ (natLog2 a + 1) / (2 : ℚ) ^ (natLog2 q.den) :=
          div_le_div_of_nonneg_left (by positivity) (by positivity) h3q
  have hlow : (2 : ℚ) ^ (((natLog2 a : Int) - (natLog2 q.den : Int)) - 1) ≤ q := by
    have e : (((natLog2 a : Int) - (natLog2 q.den : Int)) - 1)
        = ((natLog2 a : ℕ) : Int) - ((natLog2 q.den + 1 : ℕ) : Int) := by push_cast; ring
    rw [e, zpow_sub₀ two_ne, zpow_natCast, zpow_natCast]
    calc (2 : ℚ) ^ (natLog2 a) / (2 : ℚ) ^ (natLog2 q.den + 1)
          ≤ (a : ℚ) / (2 : ℚ) ^ (natLog2 q.den + 1) :=
          div_le_div_of_nonneg_right h1q (by positivity)
      _ ≤ (a : ℚ) / q.den :=
          div_le_div_of_nonneg_left (by positivity) hden h4q.le
      _ = q := hqa.symm
  unfold floorLog2
  simp only [hna, pow2_eq_zpow]
  split
  · rename_i h
    exact ⟨h, hup⟩
  · rename_i h
    refine ⟨hlow, ?_⟩
    rw [sub_add_cancel]
    exact not_le.mp h

theorem floorLog2_unique (q : ℚ) (e : Int) (h1 : (2 : ℚ) ^ e ≤ q) (h2 : q < (2 : ℚ) ^ (e + 1)) :
    floorLog2 q = e := by
  have hq : 0 < q := lt_of_lt_of_le (by positivity) h1
  obtain ⟨s1, s2⟩ := floorLog2_spec q hq
  have one_lt : (1 : ℚ) < 2 := by norm_num
  have a : floorLog2 q < e + 1 := (zpow_lt_zpow_iff_right₀ one_lt).mp (lt_of_le_of_lt s1 h2)
  have b : e < floorLog2 q + 1 := (zpow_lt_zpow_iff_right₀ one_lt).mp (lt_of_le_of_lt h1 s2)
  omega

theorem floorLog2_mono (x y : ℚ) (hx : 0 < x) (hxy : x ≤ y) : floorLog2 x ≤ floorLog2 y := by
  obtain ⟨s1, _⟩ := floorLog2_spec x hx
  obtain ⟨_, t2⟩ := floorLog2_spec y (lt_of_lt_of_le hx hxy)
  have one_lt : (1 : ℚ) < 2 := by norm_num
  have a : floorLog2 x < floorLog2 y + 1 :=
    (zpow_lt_zpow_iff_right₀ one_lt).mp (lt_of_le_of_lt s1 (lt_of_le_of_lt hxy t2))
  omega


theorem roundHalfEven_floor_le (x : ℚ) : ⌊x⌋₊ ≤ roundHalfEven x := by
  unfold roundHalfEven
  dsimp only
  split_ifs <;> omega

theorem roundHalfEven_le_floor_succ (x : ℚ) : roundHalfEven x ≤ ⌊x⌋₊ + 1 := by
  unfold roundHalfEven
  dsimp only
  split_ifs <;> omega

theorem roundHalfEven_natCast (n : ℕ) : roundHalfEven (n : ℚ) = n := by
  unfold roundHalfEven
  simp

theorem roundHalfEven_mono (x y : ℚ) (hxy : x ≤ y) :
    roundHalfEven x ≤ roundHalfEven y := by
  have hf : ⌊x⌋₊ ≤ ⌊y⌋₊ := Nat.floor_mono hxy
  rcases Nat.lt_or_eq_of_le hf with h | h
  · calc roundHalfEven x ≤ ⌊x⌋₊ + 1 := roundHalfEven_le_floor_succ x
      _ ≤ ⌊y⌋₊ := h
      _ ≤ roundHalfEven y := roundHalfEven_floor_le y
  · unfold roundHalfEven
    dsimp only
    rw [h]
    split_ifs <;> first | omega | (exfalso; linarith)

/-- A number more than one half above `N` rounds to at least `N + 1`. -/
theorem roundHalfEven_above (N : ℕ) (z : ℚ) (h : (N : ℚ) + 1 / 2 < z) :
    N + 1 ≤ roundHalfEven z := by
  have hN : N ≤ ⌊z⌋₊ := Nat.le_floor (by linarith)
  rcases Nat.lt_or_eq_of_le hN with h1 | h1
  · exact le_trans h1 (roundHalfEven_floor_le z)
  · unfold roundHalfEven
    dsimp only
    rw [← h1]
    have a : ¬ (z - (N : ℚ) < 1 / 2) := by linarith
    have b : 1 / 2 < z - (N : ℚ) := by linarith
    simp only [a, b, if_false, if_true, le_refl]

/-- A number less than one half above `N` rounds to at most `N`. -/
theorem roundHalfEven_below (N : ℕ) (z : ℚ) (h0 : 0 ≤ z) (h : z < (N : ℚ) + 1 / 2) :
    roundHalfEven z ≤ N := by
  have hN : ⌊z⌋₊ < N + 1 := (Nat.floor_lt h0).mpr (by push_cast; linarith)
  rcases Nat.lt_or_eq_of_le (Nat.lt_succ_iff.mp hN) with h1 | h1
  · exact le_trans (roundHalfEven_le_floor_succ z) h1
  · unfold roundHalfEven
    dsimp only
    rw [h1]
    have a : z - (N : ℚ) < 1 / 2 := by linarith
    simp only [a, if_true, le_refl]

theorem natPow_mul_zpow (k : ℕ) (e : Int) :
    ((2 ^ k : ℕ) : ℚ) * (2 : ℚ) ^ e = (2 : ℚ) ^ (e + k) := by
  rw [Nat.cast_pow, Nat.cast_ofNat, ← zpow_natCast (2 : ℚ) k, ← zpow_add₀ (by norm_num), add_comm]

theorem roundMagnitude_nonneg (q : ℚ) : 0 ≤ roundMagnitude q := by
  unfold roundMagnitude
  dsimp only
  exact mul_nonneg (Nat.cast_nonneg _) (pow2_pos _).le

/-- The rounding of a magnitude that lies in the binade of exponent `e ≥ -1022`. -/
theorem roundMagnitude_of_binade (q : ℚ) (e : Int) (he : -1022 ≤ e) (h1 : (2 : ℚ) ^ e ≤ q)
    (h2 : q < (2 : ℚ) ^ (e + 1)) :
    roundMagnitude q = (roundHalfEven (q / (2 : ℚ) ^ (e - 52)) : ℚ) * (2 : ℚ) ^ (e - 52) := by
  unfold roundMagnitude
  dsimp only
  rw [floorLog2_unique q e h1 h2, max_eq_left he, pow2_eq_zpow]

/-- Rounding a magnitude does not change the order. -/
theorem roundMagnitude_mono (x y : ℚ) (hx : 0 < x) (hxy : x ≤ y) :
    roundMagnitude x ≤ roundMagnitude y := by
  have hy : 0 < y := lt_of_lt_of_le hx hxy
  have hE := floorLog2_mono x y hx hxy
  obtain ⟨_, sx⟩ := floorLog2_spec x hx
  obtain ⟨sy, _⟩ := floorLog2_spec y hy
  have one_le : (1 : ℚ) ≤ 2 := by norm_num
  have two_ne : (2 : ℚ) ≠ 0 := by norm_num
  unfold roundMagnitude
  dsimp only
  rw [pow2_eq_zpow, pow2_eq_zpow]
  have hle : max (floorLog2 x) (-1022) ≤ max (floorLog2 y) (-1022) := max_le_max hE le_rfl
  rcases lt_or_eq_of_le hle with h | h
  · have hey : max (floorLog2 y) (-1022) = floorLog2 y := by
      apply max_eq_left
      by_contra hc
      rw [max_eq_right (not_le.mp hc).le] at h
      exact absurd h (not_lt.mpr (le_max_right _ _))
    rw [hey] at h ⊢
    have hex : floorLog2 x ≤ max (floorLog2 x) (-1022) := le_max_left _ _
    generalize max (floorLog2 x) (-1022) = ex at h hex ⊢
    generalize floorLog2 y = ey at h sy ⊢
    have hux : (0 : ℚ) < (2 : ℚ) ^ (ex - 52) := by positivity
    have huy : (0 : ℚ) < (2 : ℚ) ^ (ey - 52) := by positivity
    have hp1 : ((2 ^ 53 : ℕ) : ℚ) * (2 : ℚ) ^ (ex - 52) = (2 : ℚ) ^ (ex + 1) := by
      rw [natPow_mul_zpow]
      congr 1
      omega
    have hp2 : ((2 ^ 52 : ℕ) : ℚ) * (2 : ℚ) ^ (ey - 52) = (2 : ℚ) ^ ey := by
      rw [natPow_mul_zpow]
      congr 1
      omega
    have hA : x ≤ (2 : ℚ) ^ (ex + 1) :=
      le_trans sx.le (zpow_le_zpow_right₀ one_le (by omega))
    have hB : x / (2 : ℚ) ^ (ex - 52) ≤ ((2 ^ 53 : ℕ) : ℚ) := by
      rw [div_le_iff₀ hux, hp1]
      exact hA
    have hC : roundHalfEven (x / (2 : ℚ) ^ (ex - 52)) ≤ 2 ^ 53 := by
      have := roundHalfEven_mono _ _ hB
      rwa [roundHalfEven_natCast] at this
    have hE2 : ((2 ^ 52 : ℕ) : ℚ) ≤ y / (2 : ℚ) ^ (ey - 52) := by
      rw [le_div_iff₀ huy, hp2]
      exact sy
    have hF : 2 ^ 52 ≤ roundHalfEven (y / (2 : ℚ) ^ (ey - 52)) := by
      have := roundHalfEven_mono _ _ hE2
      rwa [roundHalfEven_natCast] at this
    calc (roundHalfEven (x / (2 : ℚ) ^ (ex - 52)) : ℚ) * (2 : ℚ) ^ (ex - 52)
        ≤ ((2 ^ 53 : ℕ) : ℚ) * (2 : ℚ) ^ (ex - 52) :=
          mul_le_mul_of_nonneg_right (by exact_mod_cast hC) hux.le
      _ = (2 : ℚ) ^ (ex + 1) := hp1
      _ ≤ (2 : ℚ) ^ ey := zpow_le_zpow_right₀ one_le (by omega)
      _ = ((2 ^ 52 : ℕ) : ℚ) * (2 : ℚ) ^ (ey - 52) := hp2.symm
      _ ≤ (roundHalfEven (y / (2 : ℚ) ^ (ey - 52)) : ℚ) * (2 : ℚ) ^ (ey - 52) :=
          mul_le_mul_of_nonneg_right (by exact_mod_cast hF) huy.le
  · rw [h]
    apply mul_le_mul_of_nonneg_right _ (by positivity)
    exact_mod_cast roundHalfEven_mono _ _ (div_le_div_of_nonneg_right hxy (by positivity))


theorem roundMagnitude_zero : roundMagnitude 0 = 0 := by decide!

theorem roundMagnitude_mono_nonneg (x y : ℚ) (hx : 0 ≤ x) (hxy : x ≤ y) :
    roundMagnitude x ≤ roundMagnitude y := by
  rcases lt_or_eq_of_le hx with h | h
  · exact roundMagnitude_mono x y h hxy
  · rw [← h, roundMagnitude_zero]
    exact roundMagnitude_nonneg y

/-- A whole number below `2 ^ 53` is its own rounding. -/
theorem roundMagnitude_natCast (n : ℕ) (h0 : 0 < n) (hn : n < 2 ^ 53) :
    roundMagnitude (n : ℚ) = n := by
  have hq : (0 : ℚ) < (n : ℚ) := by exact_mod_cast h0
  obtain ⟨s1, s2⟩ := floorLog2_spec (n : ℚ) hq
  have one_lt : (1 : ℚ) < 2 := by norm_num
  have hlo : 0 ≤ floorLog2 (n : ℚ) := by
    have h1 : (2 : ℚ) ^ (0 : Int) ≤ (n : ℚ) := by
      rw [zpow_zero]
      exact_mod_cast h0
    have := (zpow_lt_zpow_iff_right₀ one_lt).mp (lt_of_le_of_lt h1 s2)
    omega
  have hhi : floorLog2 (n : ℚ) ≤ 52 := by
    have h1 : (n : ℚ) < (2 : ℚ) ^ (53 : Int) := by
      rw [show ((53 : Int)) = ((53 : ℕ) : Int) from rfl, zpow_natCast]
      exact_mod_cast hn
    have := (zpow_lt_zpow_iff_right₀ one_lt).mp (lt_of_le_of_lt s1 h1)
    omega
  rw [roundMagnitude_of_binade (n : ℚ) (floorLog2 (n : ℚ)) (by omega) s1 s2]
  obtain ⟨k, hk⟩ := Int.eq_ofNat_of_zero_le (show 0 ≤ 52 - floorLog2 (n : ℚ) by omega)
  have he : floorLog2 (n : ℚ) - 52 = -(k : Int) := by omega
  rw [he, zpow_neg, zpow_natCast, div_inv_eq_mul]
  have hc : (n : ℚ) * (2 : ℚ) ^ k = ((n * 2 ^ k : ℕ) : ℚ) := by push_cast; ring
  rw [hc, roundHalfEven_natCast, ← hc]
  field_simp

/-- A magnitude rounds to more than 2 exactly when it exceeds the midpoint
between 2 and the next double. -/
theorem roundMagnitude_gt_two (y : ℚ) (hy : 0 ≤ y) :
    2 < roundMagnitude y ↔ 2 + 1 / 2 ^ 52 < y := by
  constructor
  · intro h
    by_contra hc
    have h1 : roundMagnitude y ≤ roundMagnitude (2 + 1 / 2 ^ 52) :=
      roundMagnitude_mono_nonneg y _ hy (not_lt.mp hc)
    have h2 : roundMagnitude (2 + 1 / 2 ^ 52) = 2 := by decide!
    rw [h2] at h1
    exact absurd h (not_lt.mpr h1)
  · intro h
    rcases le_or_lt 4 y with h4 | h4
    · have h1 : roundMagnitude 4 ≤ roundMagnitude y := roundMagnitude_mono 4 y (by norm_num) h4
      have h2 : roundMagnitude 4 = 4 := by decide!
      rw [h2] at h1
      linarith
    · rw [roundMagnitude_of_binade y 1 (by norm_num) (by norm_num; linarith)
        (by norm_num; linarith)]
      have hz : ((2 ^ 52 : ℕ) : ℚ) + 1 / 2 < y / (2 : ℚ) ^ ((1 : Int) - 52) := by
        rw [lt_div_iff₀ (by positivity)]
        norm_num
        norm_num at h
        linarith
      have := roundHalfEven_above (2 ^ 52) _ hz
      have hq : ((2 ^ 52 + 1 : ℕ) : ℚ) ≤ (roundHalfEven (y / (2 : ℚ) ^ ((1 : Int) - 52)) : ℚ) := by
        exact_mod_cast this
      calc (2 : ℚ) < ((2 ^ 52 + 1 : ℕ) : ℚ) * (2 : ℚ) ^ ((1 : Int) - 52) := by norm_num
        _ ≤ _ := mul_le_mul_of_nonneg_right hq (by positivity)

/-- A magnitude rounds to less than 10 exactly when it is below the midpoint
between 10 and the double before it. -/
theorem roundMagnitude_lt_ten (y : ℚ) (hy : 0 ≤ y) :
    roundMagnitude y < 10 ↔ y < 10 - 1 / 2 ^ 50 := by
  constructor
  · intro h
    by_contra hc
    have h1 : roundMagnitude (10 - 1 / 2 ^ 50) ≤ roundMagnitude y :=
      roundMagnitude_mono _ y (by norm_num) (not_lt.mp hc)
    have h2 : roundMagnitude (10 - 1 / 2 ^ 50) = 10 := by decide!
    rw [h2] at h1
    exact absurd h (not_lt.mpr h1)
  · intro h
    rcases lt_or_le y 8 with h8 | h8
    · have h1 : roundMagnitude y ≤ roundMagnitude 8 := roundMagnitude_mono_nonneg y 8 hy h8.le
      have h2 : roundMagnitude 8 = 8 := by decide!
      rw [h2] at h1
      linarith
    · rw [roundMagnitude_of_binade y 3 (by norm_num) (by norm_num; linarith)
        (by norm_num; linarith)]
      have hz : y / (2 : ℚ) ^ ((3 : Int) - 52) < ((10 * 2 ^ 49 - 1 : ℕ) : ℚ) + 1 / 2 := by
        rw [div_lt_iff₀ (by positivity)]
        norm_num
        norm_num at h
        linarith
      have := roundHalfEven_below (10 * 2 ^ 49 - 1) _ (by positivity) hz
      have hq : (roundHalfEven (y / (2 : ℚ) ^ ((3 : Int) - 52)) : ℚ)
          ≤ ((10 * 2 ^ 49 - 1 : ℕ) : ℚ) := by
        exact_mod_cast this
      calc _ ≤ ((10 * 2 ^ 49 - 1 : ℕ) : ℚ) * (2 : ℚ) ^ ((3 : Int) - 52) :=
            mul_le_mul_of_nonneg_right hq (by positivity)
        _ < 10 := by norm_num

namespace JSNum

/-- The rounding of a positive value. -/
theorem roundDouble_of_pos (q : ℚ) (hq : 0 < q) :
    roundDouble q = if pow2 1024 ≤ roundMagnitude q then posInf else fin (roundMagnitude q) := by
  unfold roundDouble
  have h0 : q ≠ 0 := ne_of_gt hq
  have hn : ¬ q < 0 := not_lt.mpr hq.le
  simp only [h0, if_false, abs_of_pos hq, hn, decide_False, infinity, zero, Bool.false_eq_true]
  split_ifs with h1 h2
  · rfl
  · rw [h2]
  · rfl

/-- The rounding of a negative value. -/
theorem roundDouble_of_neg (q : ℚ) (hq : q < 0) :
    roundDouble q = if pow2 1024 ≤ roundMagnitude (-q) then negInf
      else if roundMagnitude (-q) = 0 then negZero else fin (-roundMagnitude (-q)) := by
  unfold roundDouble
  have h0 : q ≠ 0 := ne_of_lt hq
  simp only [h0, if_false, abs_of_neg hq, hq, decide_True, infinity, zero, if_true]

theorem pow2_1024_gt : (2 : ℚ) ^ 53 < pow2 1024 := by
  rw [pow2_eq_zpow, show ((1024 : Int)) = ((1024 : ℕ) : Int) from rfl, zpow_natCast]
  exact pow_lt_pow_right₀ (by norm_num) (by norm_num)

/-- A whole number below `2 ^ 53` is a double. -/
theorem roundDouble_natCast (n : ℕ) (hn : n < 2 ^ 53) : roundDouble (n : ℚ) = fin (n : ℚ) := by
  rcases Nat.eq_zero_or_pos n with h | h
  · subst h
    simp [roundDouble]
  · have hq : (0 : ℚ) < (n : ℚ) := by exact_mod_cast h
    rw [roundDouble_of_pos _ hq, roundMagnitude_natCast n h hn]
    have : ¬ pow2 1024 ≤ (n : ℚ) := by
      have h1 : (n : ℚ) < (2 : ℚ) ^ 53 := by exact_mod_cast hn
      exact not_le.mpr (lt_trans h1 pow2_1024_gt)
    simp [this]

/-- An integer of magnitude below `2 ^ 53` is a double. -/
theorem roundDouble_intCast (z : Int) (hz : z.natAbs < 2 ^ 53) :
    roundDouble (z : ℚ) = fin (z : ℚ) := by
  rcases le_or_lt 0 z with h | h
  · obtain ⟨n, rfl⟩ := Int.eq_ofNat_of_zero_le h
    simpa using roundDouble_natCast n (by simpa using hz)
  · have hq : ((z : ℚ)) < 0 := by exact_mod_cast h
    have hz0 : 0 < z.natAbs := Int.natAbs_pos.mpr (ne_of_lt h)
    have hcast : -(z : ℚ) = ((z.natAbs : ℕ) : ℚ) := by
      rw [Nat.cast_natAbs, Int.cast_abs, abs_of_neg hq]
    rw [roundDouble_of_neg _ hq, hcast, roundMagnitude_natCast _ hz0 hz]
    have h1 : ¬ pow2 1024 ≤ ((z.natAbs : ℕ) : ℚ) := by
      have h1 : ((z.natAbs : ℕ) : ℚ) < (2 : ℚ) ^ 53 := by exact_mod_cast hz
      exact not_le.mpr (lt_trans h1 pow2_1024_gt)
    have h2 : ((z.natAbs : ℕ) : ℚ) ≠ 0 := by
      exact_mod_cast (ne_of_gt hz0)
    simp only [h1, h2, if_false]
    rw [← hcast, neg_neg]

/-- The magnitude of a double is its own rounding. -/
theorem roundMagnitude_abs_of_isDouble (a : ℚ) (h : isDouble a = true) :
    roundMagnitude |a| = |a| := by
  unfold isDouble at h
  have h := eq_of_beq h
  rcases lt_trichotomy a 0 with ha | ha | ha
  · rw [roundDouble_of_neg a ha] at h
    rw [abs_of_neg ha]
    split_ifs at h
    simp only [fin.injEq] at h
    linarith
  · subst ha
    simpa using roundMagnitude_zero
  · rw [roundDouble_of_pos a ha] at h
    rw [abs_of_pos ha]
    split_ifs at h
    simpa using h

end JSNum

/-! ## Classification by the progress ratio -/

namespace JSNum

theorem pow2_1024_gt_fifty : (50 : ℚ) < pow2 1024 :=
  lt_trans (by norm_num) pow2_1024_gt

theorem mul_fin_nonneg (r c : ℚ) (hr : 0 ≤ r) (hc : 0 < c) :
    (fin r).mul (fin c) = signed false (r * c) := by
  simp [mul, toRat?, signBit, not_lt.mpr hr, not_lt.mpr hc.le]

/-- A positive ratio of at most `1/2 - 2^-54` gives a percentage below 50. -/
theorem percent_lt_of_le (q : ℚ) (hq : 0 < q) (h : q ≤ 1 / 2 - 1 / 2 ^ 54) :
    ((roundDouble q).mul (fin 100)).lt (fin 50) = true := by
  have ha : roundMagnitude (1 / 2 - 1 / 2 ^ 54) = 1 / 2 - 1 / 2 ^ 54 := by decide!
  have hb : roundMagnitude ((1 / 2 - 1 / 2 ^ 54) * 100) = 50 - 1 / 2 ^ 47 := by decide!
  have h1 : roundMagnitude q ≤ 1 / 2 - 1 / 2 ^ 54 := by
    have := roundMagnitude_mono q _ hq h
    rwa [ha] at this
  have h2 : ¬ pow2 1024 ≤ roundMagnitude q := by
    have := pow2_1024_gt_fifty
    intro hc
    have h3 : (1 : ℚ) / 2 - 1 / 2 ^ 54 < 50 := by norm_num
    linarith
  rw [roundDouble_of_pos q hq, if_neg h2,
    mul_fin_nonneg _ _ (roundMagnitude_nonneg q) (by norm_num)]
  unfold signed
  split_ifs with h0
  · simp [zero, lt]
  · have hpos : 0 < roundMagnitude q * 100 :=
      lt_of_le_of_ne (mul_nonneg (roundMagnitude_nonneg q) (by norm_num)) (Ne.symm h0)
    have h3 : roundMagnitude (roundMagnitude q * 100) ≤ 50 - 1 / 2 ^ 47 := by
      have := roundMagnitude_mono (roundMagnitude q * 100) ((1 / 2 - 1 / 2 ^ 54) * 100) hpos
        (mul_le_mul_of_nonneg_right h1 (by norm_num))
      rwa [hb] at this
    have h4 : roundMagnitude (roundMagnitude q * 100) < 50 :=
      lt_of_le_of_lt h3 (by norm_num)
    have h5 : ¬ pow2 1024 ≤ roundMagnitude (roundMagnitude q * 100) := by
      have := pow2_1024_gt_fifty
      intro hc
      linarith
    rw [roundDouble_of_pos _ hpos, if_neg h5]
    simp [lt, h4]

/-- A ratio of at least one half gives a percentage that is not below 50. -/
theorem percent_ge_of_ge (q : ℚ) (h : 1 / 2 ≤ q) :
    ((roundDouble q).mul (fin 100)).lt (fin 50) = false := by
  have hq : 0 < q := lt_of_lt_of_le (by norm_num) h
  have ha : roundMagnitude (1 / 2) = 1 / 2 := by decide!
  have hb : roundMagnitude 50 = 50 := by decide!
  have h1 : 1 / 2 ≤ roundMagnitude q := by
    have := roundMagnitude_mono (1 / 2) q (by norm_num) h
    rwa [ha] at this
  have h100 : ¬ ((100 : ℚ) < 0) := by norm_num
  rw [roundDouble_of_pos q hq]
  split_ifs with h2
  · simp [mul, toRat?, signBit, infinity, lt, h100]
  · rw [mul_fin_nonneg _ _ (roundMagnitude_nonneg q) (by norm_num)]
    have hpos : 0 < roundMagnitude q * 100 := by linarith
    have h3 : 50 ≤ roundMagnitude (roundMagnitude q * 100) := by
      have := roundMagnitude_mono 50 (roundMagnitude q * 100) (by norm_num) (by linarith)
      rwa [hb] at this
    unfold signed
    rw [if_neg (ne_of_gt hpos), roundDouble_of_pos _ hpos]
    split_ifs with h4
    · simp [lt]
    · simp [lt, not_lt.mpr h3]

/-- A negative ratio gives a percentage below 50. -/
theorem percent_lt_of_neg (q : ℚ) (hq : q < 0) :
    ((roundDouble q).mul (fin 100)).lt (fin 50) = true := by
  have h100 : ¬ ((100 : ℚ) < 0) := by norm_num
  rw [roundDouble_of_neg q hq]
  split_ifs with h1 h2
  · simp [mul, toRat?, signBit, infinity, lt, h100]
  · simp [mul, toRat?, signBit, signed, zero, lt, h100]
  · have hr : 0 < roundMagnitude (-q) :=
      lt_of_le_of_ne (roundMagnitude_nonneg _) (Ne.symm h2)
    have hm : (fin (-roundMagnitude (-q))).mul (fin 100)
        = roundDouble (-roundMagnitude (-q) * 100) := by
      simp [mul, toRat?, signBit, signed, hr, h100, h2]
    rw [hm]
    have hneg : -roundMagnitude (-q) * 100 < 0 := by linarith
    rw [roundDouble_of_neg _ hneg]
    split_ifs with h3 h4
    · simp [lt]
    · simp [lt]
    · have := roundMagnitude_nonneg (-(-roundMagnitude (-q) * 100))
      simp only [lt]
      apply decide_eq_true
      linarith

/-- What `parseInt` returns for an integer of magnitude below `2 ^ 53`. -/
theorem ofSignedNat_exact (negative : Bool) (n : ℕ) (hn : n < 2 ^ 53) :
    ofSignedNat negative n
      = if n = 0 then zero negative else fin (if negative then -(n : ℚ) else (n : ℚ)) := by
  unfold ofSignedNat
  split_ifs with h0 hneg
  · rfl
  · have := roundDouble_intCast (-(n : Int)) (by simpa using hn)
    simpa using this
  · exact roundDouble_natCast n hn

end JSNum

/-- The progress test of `detectSkipType` on two integers below `2 ^ 53`, the
second positive, is the comparison of their exact ratio with one half. -/
theorem progress_ofSignedNat (negative : Bool) (n m : ℕ) (hn : n < 2 ^ 53) (hm0 : 0 < m)
    (hm : m < 2 ^ 53) :
    (((JSNum.ofSignedNat negative n).div (JSNum.ofSignedNat false m)).mul (JSNum.fin 100)).lt
        (JSNum.fin 50)
      = decide ((if negative then -(n : ℚ) else (n : ℚ)) / (m : ℚ) < 1 / 2) := by
  have hmq : (0 : ℚ) < (m : ℚ) := by exact_mod_cast hm0
  have hm' : JSNum.ofSignedNat false m = JSNum.fin (m : ℚ) := by
    rw [JSNum.ofSignedNat_exact false m hm]
    simp [ne_of_gt hm0]
  rw [hm', JSNum.ofSignedNat_exact negative n hn]
  rcases Nat.eq_zero_or_pos n with h0 | h0
  · subst h0
    have h100 : ¬ ((100 : ℚ) < 0) := by norm_num
    cases negative <;>
      simp [JSNum.zero, JSNum.div, JSNum.toRat?, JSNum.signBit, JSNum.signed, JSNum.mul,
        JSNum.lt, ne_of_gt hmq, not_lt.mpr hmq.le, h100]
  · have hnq : (0 : ℚ) < (n : ℚ) := by exact_mod_cast h0
    rw [if_neg (ne_of_gt h0)]
    cases negative
    · have hd : (JSNum.fin (n : ℚ)).div (JSNum.fin (m : ℚ)) = JSNum.roundDouble ((n : ℚ) / m) := by
        have hne : (n : ℚ) / m ≠ 0 := ne_of_gt (div_pos hnq hmq)
        simp only [JSNum.div, JSNum.toRat?, JSNum.signBit, JSNum.signed, ne_of_gt hmq, if_false,
          hne, not_lt.mpr hnq.le, not_lt.mpr hmq.le, decide_False, Bool.xor_false]
      simp only [Bool.false_eq_true, if_false]
      rw [hd]
      by_cases hlt : (n : ℚ) / m < 1 / 2
      · rw [decide_eq_true hlt]
        apply JSNum.percent_lt_of_le _ (div_pos hnq hmq)
        rw [div_le_iff₀ hmq]
        have h1 : 2 * n + 1 ≤ m := by
          rw [div_lt_iff₀ hmq] at hlt
          have : (2 * n : ℚ) < m := by linarith
          have : 2 * n < m := by exact_mod_cast this
          omega
        have h1q : (2 * n + 1 : ℚ) ≤ m := by exact_mod_cast h1
        have h2q : (m : ℚ) ≤ 2 ^ 53 := by exact_mod_cast hm.le
        have e : ((1 : ℚ) / 2 - 1 / 2 ^ 54) * m = m / 2 - m / 2 ^ 54 := by ring
        rw [e]
        have h3 : (m : ℚ) / 2 ^ 54 ≤ 1 / 2 := by
          rw [div_le_iff₀ (by positivity)]
          norm_num
          norm_num at h2q
          linarith
        linarith
      · rw [decide_eq_false hlt]
        exact JSNum.percent_ge_of_ge _ (not_lt.mp hlt)
    · have hd : (JSNum.fin (-(n : ℚ))).div (JSNum.fin (m : ℚ))
          = JSNum.roundDouble (-(n : ℚ) / m) := by
        have hne : -(n : ℚ) / m ≠ 0 := ne_of_lt (div_neg_of_neg_of_pos (by linarith) hmq)
        simp only [JSNum.div, JSNum.toRat?, JSNum.signBit, JSNum.signed, ne_of_gt hmq, if_false,
          hne, not_lt.mpr hmq.le, decide_False, Bool.xor_false]
      simp only [if_true]
      rw [hd]
      have hneg : -(n : ℚ) / m < 0 := div_neg_of_neg_of_pos (by linarith) hmq
      rw [JSNum.percent_lt_of_neg _ hneg]
      symm
      apply decide_eq_true
      linarith

/-- What `parseInt` returns in terms of the integer it reads. -/
theorem parseInt_of_mathInt (str : String) (z : Int) (h : mathInt str = some z) :
    ∃ negative n, parseInt str = JSNum.ofSignedNat negative n ∧ n = z.natAbs ∧
      (z : ℚ) = (if negative then -(n : ℚ) else (n : ℚ)) ∧ (0 < z → negative = false) := by
  unfold mathInt at h
  cases hr : readInt str with
  | none => simp [hr] at h
  | some p =>
    obtain ⟨negative, n⟩ := p
    simp only [hr, Option.map_some', Option.some.injEq] at h
    refine ⟨negative, n, by simp [parseInt, hr], ?_, ?_, ?_⟩
    · cases negative <;> simp at h <;> omega
    · cases negative <;> simp at h <;> subst h <;> simp
    · intro hz
      cases negative
      · rfl
      · simp at h
        omega

/-- Claim C1, as amended: a slider whose `aria-valuenow` and `aria-valuemax` are
the integers `v` and `m` with `m > 0`, both of magnitude below `2 ^ 53`, is
classified `intro` when `v / m < 1 / 2` and `credits` when `v / m ≥ 1 / 2`, the
ratio taken in exact rational arithmetic. -/
theorem detectSkipType_ratio (d : Dom) (s : Slider) (v m : Int)
    (hs : d.progressSlider = some s)
    (hv : mathInt (attrOr s.ariaValueNow "0") = some v)
    (hm : mathInt (attrOr s.ariaValueMax "1") = some m)
    (hpos : 0 < m) (hvb : v.natAbs < 2 ^ 53) (hmb : m < 2 ^ 53) :
    ((v : ℚ) / (m : ℚ) < 1 / 2 → detectSkipType d = some SkipType.intro) ∧
    (1 / 2 ≤ (v : ℚ) / (m : ℚ) → detectSkipType d = some SkipType.credits) := by
  obtain ⟨nv, n, hpv, hn, hvq, _⟩ := parseInt_of_mathInt _ v hv
  obtain ⟨nm, k, hpm, hk, hmq, hsign⟩ := parseInt_of_mathInt _ m hm
  have hnm : nm = false := hsign hpos
  subst hnm
  have hk0 : 0 < k := by omega
  have hkb : k < 2 ^ 53 := by omega
  have key := progress_ofSignedNat nv n k (by omega) hk0 hkb
  simp only [Bool.false_eq_true, if_false] at hmq
  rw [← hvq, ← hmq] at key
  constructor
  · intro h
    simp only [detectSkipType, hs, hpv, hpm, key, decide_eq_true h]
    rfl
  · intro h
    simp only [detectSkipType, hs, hpv, hpm, key, decide_eq_false (not_lt.mpr h)]
    rfl

theorem detectSkipType_ratio_witness :
    ((30 : Int) : ℚ) / ((100 : Int) : ℚ) < 1 / 2 ∧
    detectSkipType (sliderPage (some "30") (some "100")) = some SkipType.intro :=
  ⟨by norm_num,
   (detectSkipType_ratio (sliderPage (some "30") (some "100"))
      ⟨some "30", some "100"⟩ 30 100 rfl (by decide) (by decide) (by decide) (by decide)
      (by decide)).1 (by norm_num)⟩

/-- Claim C1 as stated fails for integers of 2 ^ 53 and more, which `parseInt`
rounds to the nearest double: `aria-valuenow` 49999999999999999 is read as
5e16, so with `aria-valuemax` 1e17 the quotient is exactly 0.5 and the slider
is classified `credits`, although the exact ratio is below one half. -/
theorem detectSkipType_ratio_counterexample :
    mathInt (attrOr (some "49999999999999999") "0") = some 49999999999999999 ∧
    mathInt (attrOr (some "100000000000000000") "1") = some 100000000000000000 ∧
    ((49999999999999999 : Int) : ℚ) / ((100000000000000000 : Int) : ℚ) < 1 / 2 ∧
    parseInt "49999999999999999" = JSNum.fin 50000000000000000 ∧
    detectSkipType (sliderPage (some "49999999999999999") (some "100000000000000000"))
      = some SkipType.credits := by
  refine ⟨by decide!, by decide!, by norm_num, by decide!, by decide!⟩

/-! ## Skip compensation -/

namespace JSNum

theorem add_int (a b : Int) (h : (a + b).natAbs < 2 ^ 53) :
    (fin (a : ℚ)).add (fin (b : ℚ)) = fin ((a : ℚ) + (b : ℚ)) := by
  have := roundDouble_intCast (a + b) h
  simpa [add] using this

theorem sub_int (a b : Int) (h : (a - b).natAbs < 2 ^ 53) :
    (fin (a : ℚ)).sub (fin (b : ℚ)) = fin ((a : ℚ) - (b : ℚ)) := by
  by_cases hb : b = 0
  · subst hb
    simp [sub, neg, add]
  · have hbq : (b : ℚ) ≠ 0 := by exact_mod_cast hb
    have := roundDouble_intCast (a - b) h
    simpa [sub, neg, add, hbq, sub_eq_add_neg] using this

theorem max_fin (a b : ℚ) : JSNum.max (fin a) (fin b) = fin (Max.max a b) := by
  unfold JSNum.max
  simp only [lt, signBit]
  rcases lt_trichotomy a b with h | h | h
  · simp [h, max_eq_right h.le]
  · subst h; simp
  · simp [h, not_lt.mpr h.le, max_eq_left h.le]

theorem min_fin (a b : ℚ) : JSNum.min (fin a) (fin b) = fin (Min.min a b) := by
  unfold JSNum.min
  simp only [lt, signBit]
  rcases lt_trichotomy a b with h | h | h
  · simp [h, min_eq_left h.le]
  · subst h; simp
  · simp [h, not_lt.mpr h.le, min_eq_right h.le]

theorem sub_self (e : JSNum) : e.sub e = nan ∨ e.sub e = fin 0 := by
  cases e with
  | nan => left; rfl
  | posInf => left; rfl
  | negInf => left; rfl
  | negZero => right; rfl
  | fin q =>
    right
    by_cases h : q = 0
    · subst h; simp [sub, neg, add]
    · simp [sub, neg, add, h, roundDouble]

theorem abs_sub_self_gt (e : JSNum) : ((e.sub e).abs.gt (fin 2)) = false := by
  rcases sub_self e with h | h <;> rw [h] <;> simp [abs, gt, lt]

end JSNum

/-- A write of the expected value itself passes the overriding setter unchanged. -/
theorem interceptedValue_self (e c : JSNum) : interceptedValue (some e) c e = e := by
  simp [interceptedValue, JSNum.abs_sub_self_gt]

/-- The original setter logs the value it is called with. -/
theorem nativeSetCurrentTime_writes (w : World) (v : Video) (x : JSNum)
    (hv : w.dom.video = some v) :
    (nativeSetCurrentTime w x).timeWrites = w.timeWrites ++ [x] := by
  unfold nativeSetCurrentTime
  simp only [hv]
  split <;> rfl

/-- An assignment of the value that was just stored as the expected seek time
reaches the original setter as it is. -/
theorem setCurrentTime_expected_writes (w : World) (v : Video) (x : JSNum)
    (hv : w.dom.video = some v) :
    (setCurrentTime { w with flags := { w.flags with expectedSeekTime := some x } } x).timeWrites
      = w.timeWrites ++ [x] := by
  unfold setCurrentTime
  simp only [hv]
  by_cases ho : v.overridden = true
  · simp only [ho, if_true, interceptedValue_self]
    rw [nativeSetCurrentTime_writes _ v x (by simp [World.setTimeout, hv])]
    rfl
  · have ho' : v.overridden = false := by simpa using ho
    simp only [ho', Bool.false_eq_true, if_false]
    rw [nativeSetCurrentTime_writes _ v x (by simpa using hv)]

/-- The user value the handlers read when the setting holds a positive number. -/
theorem orElse_pos (d : ℚ) (hd : 0 < d) (dflt : JSVal) :
    (JSVal.num (JSNum.fin d)).orElse dflt = JSVal.num (JSNum.fin d) := by
  simp [JSVal.orElse, JSVal.truthy, JSNum.isZero, ne_of_gt hd]

/-- The value the skip-back branch writes, for whole numbers of seconds. -/
theorem skipBackTarget_int (settings : Obj JSVal) (t d : Int) (hd : 0 < d)
    (ht : t.natAbs < 2 ^ 52) (hdb : d < 2 ^ 52)
    (hs : settings.read STORAGE_KEYS.CUSTOM_SKIP_BACK = JSVal.num (JSNum.fin (d : ℚ))) :
    skipBackTarget settings (JSNum.fin (t : ℚ))
      = JSNum.fin (if (t : ℚ) < 10 then max 0 ((t : ℚ) - d) else max 0 ((t : ℚ) + (10 - d))) := by
  have hdq : (0 : ℚ) < (d : ℚ) := by exact_mod_cast hd
  have h1 : (JSNum.fin (t : ℚ)).sub (JSNum.fin (d : ℚ)) = JSNum.fin ((t : ℚ) - d) :=
    JSNum.sub_int t d (by omega)
  have h2 : (JSNum.fin 10).sub (JSNum.fin (d : ℚ)) = JSNum.fin (10 - (d : ℚ)) := by
    have := JSNum.sub_int 10 d (by omega)
    simpa using this
  have h3 : (JSNum.fin (t : ℚ)).add (JSNum.fin (10 - (d : ℚ)))
      = JSNum.fin ((t : ℚ) + (10 - d)) := by
    have := JSNum.add_int t (10 - d) (by omega)
    simpa using this
  unfold skipBackTarget
  simp only [hs, orElse_pos (d : ℚ) hdq, JSVal.toNumber, h1, h2, h3, JSNum.max_fin, JSNum.lt]
  by_cases h : (t : ℚ) < 10 <;> simp [h]

/-- The value the skip-forward branch writes, for whole numbers of seconds. -/
theorem skipForwardTarget_int (settings : Obj JSVal) (t d : Int) (dur : ℚ) (hd : 0 < d)
    (ht : t.natAbs < 2 ^ 52) (hdb : d < 2 ^ 52)
    (hs : settings.read STORAGE_KEYS.CUSTOM_SKIP_FORWARD = JSVal.num (JSNum.fin (d : ℚ))) :
    skipForwardTarget settings (JSNum.fin (t : ℚ)) (JSNum.fin dur)
      = JSNum.fin (min dur ((t : ℚ) + ((d : ℚ) - 30))) := by
  have hdq : (0 : ℚ) < (d : ℚ) := by exact_mod_cast hd
  have h2 : (JSNum.fin (d : ℚ)).sub (JSNum.fin 30) = JSNum.fin ((d : ℚ) - 30) := by
    have := JSNum.sub_int d 30 (by omega)
    simpa using this
  have h3 : (JSNum.fin (t : ℚ)).add (JSNum.fin ((d : ℚ) - 30))
      = JSNum.fin ((t : ℚ) + (d - 30)) := by
    have := JSNum.add_int t (d - 30) (by omega)
    simpa using this
  unfold skipForwardTarget
  simp only [hs, orElse_pos (d : ℚ) hdq, JSVal.toNumber, h2, h3, JSNum.min_fin]

/-- Claim C3, as amended: for whole numbers of seconds `t`, `d` and `duration`
below `2 ^ 52`, with `d > 0` and `10 ≤ t ≤ duration`, the value `x` the skip-back
handler writes satisfies `clamp (x - 10) 0 duration = max 0 (t - d)`; for
`0 ≤ t < 10` the handler writes the desired time `max 0 (t - d)` itself, without
compensation. -/
theorem skipBack_compensation (w : World) (v : Video) (t d dur : ℕ)
    (hv : w.dom.video = some v) (ht : v.currentTime = JSNum.fin (t : ℚ))
    (hs : w.settings.read STORAGE_KEYS.CUSTOM_SKIP_BACK = JSVal.num (JSNum.fin (d : ℚ)))
    (hd : 0 < d) (hdur : t ≤ dur) (hbound : dur < 2 ^ 52) (hdb : d < 2 ^ 52) :
    ∃ x : ℚ,
      (skipButtonClickHandler w ClickTarget.skipBackButton).timeWrites
        = w.timeWrites ++ [JSNum.fin x] ∧
      (10 ≤ t → clamp (x - 10) 0 (dur : ℚ) = max 0 ((t : ℚ) - (d : ℚ))) ∧
      (t < 10 → x = max 0 ((t : ℚ) - (d : ℚ))) := by
  have hdq : (0 : ℚ) < (d : ℚ) := by exact_mod_cast hd
  have htq : (t : ℚ) ≤ (dur : ℚ) := by exact_mod_cast hdur
  have key := skipBackTarget_int w.settings (t : Int) (d : Int) (by exact_mod_cast hd)
    (by simp; omega) (by exact_mod_cast hdb) (by simpa using hs)
  simp only [Int.cast_natCast] at key
  refine ⟨if (t : ℚ) < 10 then max 0 ((t : ℚ) - d) else max 0 ((t : ℚ) + (10 - d)), ?_, ?_, ?_⟩
  · simp only [skipButtonClickHandler, hv, ht, key]
    exact setCurrentTime_expected_writes w v _ hv
  · intro h10
    have h10q : (10 : ℚ) ≤ (t : ℚ) := by exact_mod_cast h10
    simp only [not_lt.mpr h10q, if_false, clamp, min_def, max_def]
    split_ifs <;> linarith
  · intro h10
    have h10q : (t : ℚ) < 10 := by exact_mod_cast h10
    simp [h10q]

theorem skipBack_compensation_witness :
    ∃ x : ℚ,
      (skipButtonClickHandler
        (videoWorld (JSNum.fin 37) (JSNum.fin 100)
          [(STORAGE_KEYS.CUSTOM_SKIP_BACK, JSVal.num (JSNum.fin 5))])
        ClickTarget.skipBackButton).timeWrites = [JSNum.fin x] ∧
      clamp (x - 10) 0 100 = max 0 (37 - 5) :=
  match skipBack_compensation
    (videoWorld (JSNum.fin 37) (JSNum.fin 100)
      [(STORAGE_KEYS.CUSTOM_SKIP_BACK, JSVal.num (JSNum.fin 5))])
    ⟨JSNum.fin 37, JSNum.fin 100, false⟩ 37 5 100 rfl rfl (by decide) (by norm_num)
    (by norm_num) (by norm_num) (by norm_num) with
  | ⟨x, h1, h2, _⟩ => ⟨x, h1, by simpa using h2 (by norm_num)⟩

/-- Claim C3 as stated fails below ten seconds: at `t = 8`, `d = 3` and a duration
of 100 the handler writes 5, and `clamp (5 - 10) 0 100 = 0` is not `max 0 (8 - 3) = 5`.
It also fails where the handler's sums are rounded: at the double nearest to
10.1 and `d = 3` the handler writes the double nearest to `t + 7`, which minus 10
is not `t - 3`. -/
theorem skipBack_compensation_counterexample :
    ((skipButtonClickHandler
        (videoWorld (JSNum.fin 8) (JSNum.fin 100)
          [(STORAGE_KEYS.CUSTOM_SKIP_BACK, JSVal.num (JSNum.fin 3))])
        ClickTarget.skipBackButton).timeWrites = [JSNum.fin 5] ∧
      ¬ (clamp (5 - 10) 0 100 = max 0 ((8 : ℚ) - 3))) ∧
    (JSNum.roundDouble (101 / 10) = JSNum.fin (5685794529555251 / 562949953421312) ∧
      (skipButtonClickHandler
        (videoWorld (JSNum.fin (5685794529555251 / 562949953421312)) (JSNum.fin 100)
          [(STORAGE_KEYS.CUSTOM_SKIP_BACK, JSVal.num (JSNum.fin 3))])
        ClickTarget.skipBackButton).timeWrites
        = [JSNum.fin (2406611050876109 / 140737488355328)] ∧
      ¬ (clamp (2406611050876109 / 140737488355328 - 10) 0 100
          = max 0 ((5685794529555251 / 562949953421312 : ℚ) - 3))) := by
  refine ⟨⟨by decide!, by norm_num [clamp]⟩, by decide!, by decide!, by norm_num [clamp]⟩

/-- Claim C4, as amended: for whole numbers of seconds `t`, `d` and `duration`
below `2 ^ 52`, with `d > 0` and `0 ≤ t ≤ duration`, the skip-forward handler
writes `x = min duration (t + (d - 30))`, and
`clamp (x + 30) 0 duration = min duration (t + d)`. -/
theorem skipForward_compensation (w : World) (v : Video) (t d dur : ℕ)
    (hv : w.dom.video = some v) (ht : v.currentTime = JSNum.fin (t : ℚ))
    (hdu : v.duration = JSNum.fin (dur : ℚ))
    (hs : w.settings.read STORAGE_KEYS.CUSTOM_SKIP_FORWARD = JSVal.num (JSNum.fin (d : ℚ)))
    (hd : 0 < d) (hdur : t ≤ dur) (hbound : dur < 2 ^ 52) (hdb : d < 2 ^ 52) :
    ∃ x : ℚ,
      (skipButtonClickHandler w ClickTarget.skipForwardButton).timeWrites
        = w.timeWrites ++ [JSNum.fin x] ∧
      x = min (dur : ℚ) ((t : ℚ) + ((d : ℚ) - 30)) ∧
      clamp (x + 30) 0 (dur : ℚ) = min (dur : ℚ) ((t : ℚ) + (d : ℚ)) := by
  have hdq : (0 : ℚ) < (d : ℚ) := by exact_mod_cast hd
  have htq : (t : ℚ) ≤ (dur : ℚ) := by exact_mod_cast hdur
  have h0 : (0 : ℚ) ≤ (t : ℚ) := Nat.cast_nonneg t
  have key := skipForwardTarget_int w.settings (t : Int) (d : Int) (dur : ℚ)
    (by exact_mod_cast hd) (by simp; omega) (by exact_mod_cast hdb) (by simpa using hs)
  simp only [Int.cast_natCast] at key
  refine ⟨min (dur : ℚ) ((t : ℚ) + ((d : ℚ) - 30)), ?_, rfl, ?_⟩
  · simp only [skipButtonClickHandler, hv, ht, hdu, key]
    exact setCurrentTime_expected_writes w v _ hv
  · simp only [clamp, min_def, max_def]
    split_ifs <;> linarith

theorem skipForward_compensation_witness :
    ∃ x : ℚ,
      (skipButtonClickHandler
        (videoWorld (JSNum.fin 32) (JSNum.fin 100)
          [(STORAGE_KEYS.CUSTOM_SKIP_FORWARD, JSVal.num (JSNum.fin 5))])
        ClickTarget.skipForwardButton).timeWrites = [JSNum.fin x] ∧
      x = min 100 (32 + (5 - 30)) ∧
      clamp (x + 30) 0 100 = min 100 (32 + 5) :=
  match skipForward_compensation
    (videoWorld (JSNum.fin 32) (JSNum.fin 100)
      [(STORAGE_KEYS.CUSTOM_SKIP_FORWARD, JSVal.num (JSNum.fin 5))])
    ⟨JSNum.fin 32, JSNum.fin 100, false⟩ 32 5 100 rfl rfl rfl (by decide) (by norm_num)
    (by norm_num) (by norm_num) (by norm_num) with
  | ⟨x, h1, h2, h3⟩ => ⟨x, h1, by simpa using h2, by simpa using h3⟩

/-- Claim C4 as stated fails where the handler's sum is rounded: at the double
nearest to 0.1, `d = 5` and a duration of 100 the handler writes the double
nearest to `t - 25`, and that plus 30 is not `t + 5`, neither exactly nor as the
doubles the two sums round to. -/
theorem skipForward_compensation_counterexample :
    JSNum.roundDouble (1 / 10) = JSNum.fin (3602879701896397 / 36028797018963968) ∧
    (skipButtonClickHandler
        (videoWorld (JSNum.fin (3602879701896397 / 36028797018963968)) (JSNum.fin 100)
          [(STORAGE_KEYS.CUSTOM_SKIP_FORWARD, JSVal.num (JSNum.fin 5))])
        ClickTarget.skipForwardButton).timeWrites
      = [JSNum.fin (-3504363460047667 / 140737488355328)] ∧
    ¬ (clamp (-3504363460047667 / 140737488355328 + 30) 0 100
        = min 100 ((3602879701896397 / 36028797018963968 : ℚ) + 5)) ∧
    (JSNum.fin (-3504363460047667 / 140737488355328)).add (JSNum.fin 30)
      ≠ (JSNum.fin (3602879701896397 / 36028797018963968)).add (JSNum.fin 5) := by
  refine ⟨by decide!, by decide!, by norm_num [clamp], by decide!⟩

/-! ## Settings: the store and the change listener -/

namespace Obj

variable {α : Type}

theorem get?_set_self (o : Obj α) (k : String) (v : α) : (o.set k v).get? k = some v := by
  induction o with
  | nil => simp [set, get?]
  | cons p r ih =>
    obtain ⟨k', v'⟩ := p
    by_cases h : k' = k
    · simp [set, get?, h]
    · simp [set, get?, h, ih]

theorem get?_set_other (o : Obj α) (k k' : String) (v : α) (h : k' ≠ k) :
    (o.set k v).get? k' = o.get? k' := by
  induction o with
  | nil => simp [set, get?, Ne.symm h]
  | cons p r ih =>
    obtain ⟨k'', v''⟩ := p
    by_cases h1 : k'' = k
    · subst h1
      simp [set, get?, Ne.symm h]
    · by_cases h2 : k'' = k'
      · subst h2
        simp [set, get?, h1]
      · simp [set, get?, h1, h2, ih]

end Obj

theorem read_set_self (o : Obj JSVal) (k : String) (v : JSVal) : (o.set k v).read k = v := by
  simp [Obj.read, Obj.get?_set_self]

theorem read_set_other (o : Obj JSVal) (k k' : String) (v : JSVal) (h : k' ≠ k) :
    (o.set k v).read k' = o.read k' := by
  simp [Obj.read, Obj.get?_set_other o k k' v h]

/-- What `chrome.storage.local.get(defaults)` hands over at one key. -/
theorem storageGet_get? (store defaults : Obj JSVal) (k : String) :
    (storageGet store defaults).get? k
      = (defaults.get? k).map (fun d => (store.get? k).getD d) := by
  induction defaults with
  | nil => simp [storageGet, Obj.get?]
  | cons p r ih =>
    obtain ⟨k', d⟩ := p
    by_cases h : k' = k
    · subst h
      simp [storageGet, Obj.get?]
    · simp only [storageGet, List.map_cons, Obj.get?, h, if_false]
      exact ih

/-- Every setting key has an entry in the default table of `content.js`. -/
theorem default_isSome : ∀ k ∈ settingKeys, (DEFAULT_SETTINGS.get? k).isSome = true := by
  decide

/-- Every setting key has an entry in the default table of `popup.js`. -/
theorem popup_default_isSome :
    ∀ k ∈ settingKeys, (Popup.DEFAULT_SETTINGS.get? k).isSome = true := by
  decide

/-- Claim C5: after `saveSetting(k, v)` for one of the ten setting keys `k`, a
read of the store with the default table, as `loadSettings` does it in the popup
and in the content script, yields `v` at `k` and at every other key what it
yielded before the write. -/
theorem saveSetting_roundtrip (store : Obj JSVal) (k : String) (v : JSVal) (w : World)
    (hk : k ∈ settingKeys) :
    (Popup.loadSettings (Popup.saveSetting store k v)).get? k = some v ∧
    (loadSettings w (Popup.saveSetting store k v)).settings.get? k = some v ∧
    ∀ k', k' ≠ k →
      (Popup.loadSettings (Popup.saveSetting store k v)).get? k'
        = (Popup.loadSettings store).get? k' ∧
      (loadSettings w (Popup.saveSetting store k v)).settings.get? k'
        = (loadSettings w store).settings.get? k' := by
  have hset : Popup.saveSetting store k v = store.set k v := rfl
  refine ⟨?_, ?_, ?_⟩
  · have h := popup_default_isSome k hk
    rw [Option.isSome_iff_exists] at h
    obtain ⟨d, hd⟩ := h
    simp [Popup.loadSettings, storageGet_get?, hset, Obj.get?_set_self, hd]
  · have h := default_isSome k hk
    rw [Option.isSome_iff_exists] at h
    obtain ⟨d, hd⟩ := h
    simp [loadSettings, storageGet_get?, hset, Obj.get?_set_self, hd]
  · intro k' hne
    simp [Popup.loadSettings, loadSettings, storageGet_get?, hset,
      Obj.get?_set_other store k k' v hne]

theorem saveSetting_roundtrip_witness :
    "delayPlayNext" ∈ settingKeys ∧
    (Popup.loadSettings (Popup.saveSetting [("enablePIP", JSVal.bool false)] "delayPlayNext"
        (JSVal.num (JSNum.fin 1500)))).get? "delayPlayNext" = some (JSVal.num (JSNum.fin 1500)) ∧
    (Popup.loadSettings (Popup.saveSetting [("enablePIP", JSVal.bool false)] "delayPlayNext"
        (JSVal.num (JSNum.fin 1500)))).get? "enablePIP"
      = (Popup.loadSettings [("enablePIP", JSVal.bool false)]).get? "enablePIP" :=
  ⟨by decide,
   (saveSetting_roundtrip [("enablePIP", JSVal.bool false)] "delayPlayNext"
      (JSVal.num (JSNum.fin 1500)) (World.initial Dom.empty) (by decide)).1,
   ((saveSetting_roundtrip [("enablePIP", JSVal.bool false)] "delayPlayNext"
      (JSVal.num (JSNum.fin 1500)) (World.initial Dom.empty) (by decide)).2.2
      "enablePIP" (by decide)).1⟩

/-- The loop body of the listener writes one key of the in-memory settings. -/
theorem applyChange_settings (changes : Obj StorageChange) (w : World) (key : String) :
    (applyChange changes w key).settings = w.settings.set key (newValueOf changes key) := by
  unfold applyChange
  simp only
  split
  · split <;> rfl
  · rfl

/-- The in-memory settings after the loop of the listener over a list of keys. -/
theorem foldl_applyChange_read (changes : Obj StorageChange) (ks : List String) (w : World)
    (k : String) :
    (ks.foldl (applyChange changes) w).settings.read k
      = if k ∈ ks then newValueOf changes k else w.settings.read k := by
  induction ks generalizing w with
  | nil => simp
  | cons key rest ih =>
    rw [List.foldl_cons, ih]
    by_cases h1 : k ∈ rest
    · simp [h1]
    · by_cases h2 : k = key
      · subst h2
        simp [h1, applyChange_settings, read_set_self]
      · simp [h1, h2, applyChange_settings, read_set_other _ key k _ h2]

/-- Claim C9: for a change notification of area `local` the in-memory settings
afterwards hold `changes[k].newValue` at every key `k` of the notification and
are unchanged at every other key; for any other area they are unchanged. -/
theorem onStorageChanged_settings (w : World) (changes : Obj StorageChange) (area : String)
    (k : String) :
    (area = "local" →
      (k ∈ changes.keys →
        (onStorageChanged w changes area).settings.read k = newValueOf changes k) ∧
      (k ∉ changes.keys →
        (onStorageChanged w changes area).settings.read k = w.settings.read k)) ∧
    (area ≠ "local" → (onStorageChanged w changes area).settings = w.settings) := by
  constructor
  · intro ha
    simp only [onStorageChanged, ha, if_true, foldl_applyChange_read]
    constructor
    · intro hk; simp [hk]
    · intro hk; simp [hk]
  · intro ha
    simp [onStorageChanged, ha]

theorem onStorageChanged_settings_witness :
    (onStorageChanged (World.initial Dom.empty)
        [("enablePIP", ⟨JSVal.bool true, JSVal.bool false⟩)] "local").settings.read "enablePIP"
      = JSVal.bool false ∧
    (onStorageChanged (World.initial Dom.empty)
        [("enablePIP", ⟨JSVal.bool true, JSVal.bool false⟩)] "local").settings.read "enablePlayNext"
      = JSVal.bool true ∧
    (onStorageChanged (World.initial Dom.empty)
        [("enablePIP", ⟨JSVal.bool true, JSVal.bool false⟩)] "sync").settings
      = DEFAULT_SETTINGS :=
  ⟨((onStorageChanged_settings (World.initial Dom.empty)
      [("enablePIP", ⟨JSVal.bool true, JSVal.bool false⟩)] "local" "enablePIP").1 rfl).1
      (by decide),
   ((onStorageChanged_settings (World.initial Dom.empty)
      [("enablePIP", ⟨JSVal.bool true, JSVal.bool false⟩)] "local" "enablePlayNext").1 rfl).2
      (by decide),
   (onStorageChanged_settings (World.initial Dom.empty)
      [("enablePIP", ⟨JSVal.bool true, JSVal.bool false⟩)] "sync" "enablePIP").2 (by decide)⟩

/-! ## The monitoring loop re-arms itself -/

theorem extends_of_eq {w w' : World} (h1 : w'.now = w.now) (h2 : w'.timers = w.timers) :
    Extends w w' :=
  ⟨h1, [], by simp [h2], by simp⟩

theorem extends_refl (w : World) : Extends w w := extends_of_eq rfl rfl

theorem extends_trans {a b c : World} (h1 : Extends a b) (h2 : Extends b c) : Extends a c := by
  obtain ⟨n1, o1, t1, p1⟩ := h1
  obtain ⟨n2, o2, t2, p2⟩ := h2
  refine ⟨by rw [n2, n1], o1 ++ o2, by rw [t2, t1, List.append_assoc], ?_⟩
  intro t ht
  rcases List.mem_append.mp ht with h | h
  · exact p1 t h
  · exact p2 t h

theorem extends_setTimeout (w : World) (task : Task) (delay : JSVal) (h : task ≠ Task.tick) :
    Extends w (w.setTimeout task delay) :=
  ⟨rfl, [⟨w.now + timeoutMillis delay, task⟩], rfl, by simp [h]⟩

theorem addPIPButton_extends (w : World) : Extends w (addPIPButton w) := by
  apply extends_of_eq <;>
  · unfold addPIPButton injectPIPStyles
    dsimp only
    repeat' split
    all_goals rfl

theorem handleSkipButtons_extends (w : World) : Extends w (handleSkipButtons w) := by
  unfold handleSkipButtons clickSkipButton
  dsimp only
  repeat' split
  all_goals
    first
    | exact extends_refl _
    | exact extends_of_eq rfl rfl
    | exact extends_setTimeout _ _ _ (by simp)

theorem handleAutoPlayNext_extends (w : World) : Extends w (handleAutoPlayNext w) := by
  unfold handleAutoPlayNext
  dsimp only
  repeat' split
  all_goals
    first
    | exact extends_refl _
    | exact extends_of_eq rfl rfl
    | exact ⟨rfl, [_], rfl, by simp⟩

theorem setupCustomSkipButtons_extends (w : World) : Extends w (setupCustomSkipButtons w) := by
  apply extends_of_eq <;>
  · unfold setupCustomSkipButtons setupVideoSeekingHandler
    dsimp only
    repeat' split
    all_goals rfl

theorem updateSkipButtonVisuals_extends (w : World) : Extends w (updateSkipButtonVisuals w) := by
  apply extends_of_eq <;>
  · unfold updateSkipButtonVisuals
    dsimp only
    repeat' split
    all_goals rfl

/-- The five calls of `tick` before the final `setTimeout`, in one step. -/
theorem tick_body_extends (w : World) :
    ∃ w', Extends w w' ∧ tick w = w'.setTimeout Task.tick (JSVal.num (JSNum.fin 250)) := by
  have s1 : ∀ u : World, Extends u
      (if (u.settings.read STORAGE_KEYS.ENABLE_PIP).truthy then
        match u.dom.bottomNavChildren with
        | none => u
        | some childCount => if childCount != 0 then addPIPButton u else u
      else u) := by
    intro u
    repeat' split
    all_goals first | exact extends_refl _ | exact addPIPButton_extends _
  have s2 : ∀ u : World, Extends u
      (if (u.settings.read STORAGE_KEYS.ENABLE_SKIP_INTRO).truthy
          || (u.settings.read STORAGE_KEYS.ENABLE_SKIP_CREDITS).truthy then
        handleSkipButtons u
      else u) := by
    intro u
    split
    · exact handleSkipButtons_extends _
    · exact extends_refl _
  have s3 : ∀ u : World, Extends u
      (if (u.settings.read STORAGE_KEYS.ENABLE_PLAY_NEXT).truthy then handleAutoPlayNext u
       else u) := by
    intro u
    split
    · exact handleAutoPlayNext_extends _
    · exact extends_refl _
  exact ⟨_, extends_trans (extends_trans (extends_trans (s1 w) (s2 _)) (s3 _))
    (extends_trans (setupCustomSkipButtons_extends _) (updateSkipButtonVisuals_extends _)), rfl⟩

/-- Claim C10: one execution of `tick`, whatever the settings, flags and page,
adds exactly one timer for `tick` to the pending timers, due 250 ms after the
time of the execution; the other timers it adds are not ticks. -/
theorem tick_rearms_once (w : World) :
    ∃ others, (tick w).timers = w.timers ++ others ++ [⟨w.now + 250, Task.tick⟩] ∧
      ∀ t ∈ others, t.task ≠ Task.tick := by
  obtain ⟨w', ⟨hnow, others, htimers, hothers⟩, htick⟩ := tick_body_extends w
  refine ⟨others, ?_, hothers⟩
  rw [htick]
  have h250 : timeoutMillis (JSVal.num (JSNum.fin 250)) = 250 := by decide
  simp [World.setTimeout, htimers, hnow, h250]

/-! ## The PIP button is injected once -/

theorem addPIPButton_idem (w : World) : addPIPButton (addPIPButton w) = addPIPButton w := by
  obtain ⟨now, settings, flags, dom, timers, clicks, tw⟩ := w
  obtain ⟨pa, f2, f3, f4, f5, f6, f7, f8⟩ := flags
  obtain ⟨d1, pips, close, d4, inj, d6, d7, d8, d9, d10, d11, d12, d13⟩ := dom
  by_cases he : (Obj.read settings STORAGE_KEYS.ENABLE_PIP).truthy = true
  · cases pips with
    | cons b rest => simp [addPIPButton, he]
    | nil =>
      cases close with
      | none => cases pa <;> simp [addPIPButton, he]
      | some c =>
        obtain ⟨cn, hp⟩ := c
        cases hp <;> cases pa <;> cases inj <;> simp [addPIPButton, injectPIPStyles, he]
  · simp [addPIPButton, he]

/-- A property that every call made by `tick` preserves is preserved by `tick`. -/
theorem tick_preserves (P : World → Prop)
    (h1 : ∀ u, P u → P (addPIPButton u))
    (h2 : ∀ u, P u → P (handleSkipButtons u))
    (h3 : ∀ u, P u → P (handleAutoPlayNext u))
    (h4 : ∀ u, P u → P (setupCustomSkipButtons u))
    (h5 : ∀ u, P u → P (updateSkipButtonVisuals u))
    (h6 : ∀ u, P u → P (u.setTimeout Task.tick (JSVal.num (JSNum.fin 250))))
    (w : World) (hw : P w) : P (tick w) := by
  have s1 : ∀ u : World, P u → P
      (if (u.settings.read STORAGE_KEYS.ENABLE_PIP).truthy then
        match u.dom.bottomNavChildren with
        | none => u
        | some childCount => if childCount != 0 then addPIPButton u else u
      else u) := by
    intro u hu
    repeat' split
    all_goals first | exact hu | exact h1 _ hu
  have s2 : ∀ u : World, P u → P
      (if (u.settings.read STORAGE_KEYS.ENABLE_SKIP_INTRO).truthy
          || (u.settings.read STORAGE_KEYS.ENABLE_SKIP_CREDITS).truthy then
        handleSkipButtons u
      else u) := by
    intro u hu
    split
    · exact h2 _ hu
    · exact hu
  have s3 : ∀ u : World, P u → P
      (if (u.settings.read STORAGE_KEYS.ENABLE_PLAY_NEXT).truthy then handleAutoPlayNext u
       else u) := by
    intro u hu
    split
    · exact h3 _ hu
    · exact hu
  exact h6 _ (h5 _ (h4 _ (s3 _ (s2 _ (s1 _ hw)))))

theorem handleSkipButtons_dom (w : World) : (handleSkipButtons w).dom = w.dom := by
  unfold handleSkipButtons clickSkipButton
  dsimp only
  repeat' split
  all_goals rfl

theorem handleAutoPlayNext_dom (w : World) : (handleAutoPlayNext w).dom = w.dom := by
  unfold handleAutoPlayNext
  dsimp only
  repeat' split
  all_goals rfl

theorem skipClickCallback_dom (w : World) (b : Nat) : (skipClickCallback w b).dom = w.dom := by
  unfold skipClickCallback
  dsimp only
  split <;> rfl

theorem playNextCallback_dom (w : World) : (playNextCallback w).dom = w.dom := by
  unfold playNextCallback
  dsimp only
  repeat' split
  all_goals rfl

theorem setupCustomSkipButtons_pip (w : World) :
    (setupCustomSkipButtons w).dom.pipButtons = w.dom.pipButtons := by
  unfold setupCustomSkipButtons setupVideoSeekingHandler
  dsimp only
  repeat' split
  all_goals rfl

theorem updateSkipButtonVisuals_pip (w : World) :
    (updateSkipButtonVisuals w).dom.pipButtons = w.dom.pipButtons := by
  unfold updateSkipButtonVisuals
  dsimp only
  repeat' split
  all_goals rfl

theorem setCurrentTime_pip (w : World) (x : JSNum) :
    (setCurrentTime w x).dom.pipButtons = w.dom.pipButtons := by
  unfold setCurrentTime nativeSetCurrentTime
  dsimp only
  repeat' split
  all_goals rfl

theorem skipButtonClickHandler_pip (w : World) (t : ClickTarget) :
    (skipButtonClickHandler w t).dom.pipButtons = w.dom.pipButtons := by
  unfold skipButtonClickHandler
  dsimp only
  repeat' split
  all_goals first | rfl | rw [setCurrentTime_pip]

theorem addPIPButton_pip (w : World) (h : w.dom.pipButtons.length ≤ 1) :
    (addPIPButton w).dom.pipButtons.length ≤ 1 := by
  unfold addPIPButton injectPIPStyles
  dsimp only
  repeat' split
  all_goals first | exact h | simp_all

theorem applyChange_pip (changes : Obj StorageChange) (w : World) (key : String)
    (h : w.dom.pipButtons.length ≤ 1) :
    (applyChange changes w key).dom.pipButtons.length ≤ 1 := by
  unfold applyChange
  dsimp only
  repeat' split
  all_goals first | exact h | simp_all

theorem onStorageChanged_pip (w : World) (changes : Obj StorageChange) (area : String)
    (h : w.dom.pipButtons.length ≤ 1) :
    (onStorageChanged w changes area).dom.pipButtons.length ≤ 1 := by
  unfold onStorageChanged
  split
  · generalize changes.keys = ks
    induction ks generalizing w with
    | nil => exact h
    | cons k rest ih => exact ih _ (applyChange_pip changes w k h)
  · exact h

theorem tick_pip (w : World) (h : w.dom.pipButtons.length ≤ 1) :
    (tick w).dom.pipButtons.length ≤ 1 := by
  apply tick_preserves (fun u => u.dom.pipButtons.length ≤ 1) _ _ _ _ _ _ w h
  · exact addPIPButton_pip
  · intro u hu; simpa [handleSkipButtons_dom] using hu
  · intro u hu; simpa [handleAutoPlayNext_dom] using hu
  · intro u hu; simpa [setupCustomSkipButtons_pip] using hu
  · intro u hu; simpa [updateSkipButtonVisuals_pip] using hu
  · intro u hu; exact hu

theorem fireTimer_pip (w : World) (i : Nat) (h : w.dom.pipButtons.length ≤ 1) :
    (fireTimer w i).dom.pipButtons.length ≤ 1 := by
  unfold fireTimer
  split
  · exact h
  · rename_i t _
    cases ht : t.task with
    | tick => exact tick_pip _ h
    | skipClick b => simpa [runTask, skipClickCallback_dom] using h
    | playNextClick => simpa [runTask, playNextCallback_dom] using h
    | clearExpectedSeek => simpa [runTask] using h

/-- Claim C8: running `addPIPButton` twice in succession leaves the world (the
page included) as running it once does, and from a page with at most one
injected button no sequence of ticks, other timer firings, change notifications,
user clicks and host seeks leads to a page with more than one. -/
theorem addPIPButton_idempotent (w : World) (events : List Event) :
    addPIPButton (addPIPButton w) = addPIPButton w ∧
    (w.dom.pipButtons.length ≤ 1 → (∀ e ∈ events, e.isDomChange = false) →
      (run w events).dom.pipButtons.length ≤ 1) := by
  refine ⟨addPIPButton_idem w, ?_⟩
  unfold run
  induction events generalizing w with
  | nil => exact fun hpage _ => hpage
  | cons e rest ih =>
    intro hpage hevents
    rw [List.foldl_cons]
    apply ih
    · cases e with
      | timer i => exact fireTimer_pip w i hpage
      | domChange d =>
        exact absurd (hevents _ (List.mem_cons_self _ _)) (by simp [Event.isDomChange])
      | storageChanged changes area => exact onStorageChanged_pip w changes area hpage
      | userClick target =>
        simp only [step]
        split
        · rw [skipButtonClickHandler_pip]; exact hpage
        · exact hpage
      | hostSeek value =>
        simp only [step]
        rw [setCurrentTime_pip]; exact hpage
    · intro e' he'
      exact hevents e' (List.mem_cons_of_mem _ he')

theorem addPIPButton_idempotent_witness :
    (init [] { Dom.empty with closeButton := some ⟨"btn", true⟩,
                              bottomNavChildren := some 3 }).dom.pipButtons.length ≤ 1 ∧
    (run (init [] { Dom.empty with closeButton := some ⟨"btn", true⟩,
                                   bottomNavChildren := some 3 })
      [Event.timer 0, Event.userClick ClickTarget.other, Event.timer 0]).dom.pipButtons.length
      ≤ 1 :=
  ⟨by decide,
   (addPIPButton_idempotent
      (init [] { Dom.empty with closeButton := some ⟨"btn", true⟩, bottomNavChildren := some 3 })
      [Event.timer 0, Event.userClick ClickTarget.other, Event.timer 0]).2
      (by decide) (by decide)⟩

/-! ## Play next: one delayed click at a time -/

theorem countP_eraseIdx_of_pos {α : Type} (p : α → Bool) (l : List α) (i : Nat) (a : α)
    (h : l.get? i = some a) (hp : p a = true) :
    (l.eraseIdx i).countP p + 1 = l.countP p := by
  induction l generalizing i with
  | nil => simp at h
  | cons b r ih =>
    cases i with
    | zero =>
      simp at h
      subst h
      simp [List.countP_cons, hp]
    | succ j =>
      simp only [List.get?_cons_succ] at h
      simp only [List.eraseIdx_cons_succ, List.countP_cons]
      have := ih j h
      omega

theorem countP_eraseIdx_of_neg {α : Type} (p : α → Bool) (l : List α) (i : Nat) (a : α)
    (h : l.get? i = some a) (hp : p a = false) :
    (l.eraseIdx i).countP p = l.countP p := by
  induction l generalizing i with
  | nil => simp at h
  | cons b r ih =>
    cases i with
    | zero =>
      simp at h
      subst h
      simp [List.countP_cons, hp]
    | succ j =>
      simp only [List.get?_cons_succ] at h
      simp only [List.eraseIdx_cons_succ, List.countP_cons]
      rw [ih j h]

theorem keeps_refl (w : World) : KeepsPlayNext w w := ⟨rfl, rfl, rfl, rfl⟩

theorem keeps_trans {a b c : World} (h1 : KeepsPlayNext a b) (h2 : KeepsPlayNext b c) :
    KeepsPlayNext a c := by
  obtain ⟨a1, a2, a3, a4⟩ := h1
  obtain ⟨b1, b2, b3, b4⟩ := h2
  exact ⟨by rw [b1, a1], by rw [b2, a2], by rw [b3, a3], by rw [b4, a4]⟩

theorem keeps_inv {w w' : World} (h : KeepsPlayNext w w') (hi : PlayNextInv w) :
    PlayNextInv w' := by
  obtain ⟨a1, a2, a3, _⟩ := h
  unfold PlayNextInv at *
  rw [a1, a2, a3]
  exact hi

theorem addPIPButton_keeps (w : World) : KeepsPlayNext w (addPIPButton w) := by
  unfold addPIPButton injectPIPStyles
  dsimp only
  repeat' split
  all_goals exact ⟨rfl, rfl, rfl, rfl⟩

theorem handleSkipButtons_keeps (w : World) : KeepsPlayNext w (handleSkipButtons w) := by
  unfold handleSkipButtons clickSkipButton
  dsimp only
  repeat' split
  all_goals
    first
    | exact ⟨rfl, rfl, rfl, rfl⟩
    | exact ⟨by simp [pendingPlayNext, World.setTimeout, List.countP_append], rfl, rfl, rfl⟩

theorem setupCustomSkipButtons_keeps (w : World) : KeepsPlayNext w (setupCustomSkipButtons w) := by
  unfold setupCustomSkipButtons setupVideoSeekingHandler
  dsimp only
  repeat' split
  all_goals exact ⟨rfl, rfl, rfl, rfl⟩

theorem updateSkipButtonVisuals_keeps (w : World) :
    KeepsPlayNext w (updateSkipButtonVisuals w) := by
  unfold updateSkipButtonVisuals
  dsimp only
  repeat' split
  all_goals exact ⟨rfl, rfl, rfl, rfl⟩

theorem setTimeout_keeps (w : World) (task : Task) (delay : JSVal)
    (h : task ≠ Task.playNextClick) : KeepsPlayNext w (w.setTimeout task delay) :=
  ⟨by simp [pendingPlayNext, World.setTimeout, List.countP_append, h], rfl, rfl, rfl⟩

theorem skipClickCallback_keeps (w : World) (b : Nat) :
    KeepsPlayNext w (skipClickCallback w b) := by
  unfold skipClickCallback simulateClick
  dsimp only
  split
  · exact ⟨rfl, rfl, rfl, rfl⟩
  · exact ⟨rfl, rfl, rfl, by simp [playNextClicks, List.countP_append]⟩

theorem setCurrentTime_keeps (w : World) (x : JSNum) : KeepsPlayNext w (setCurrentTime w x) := by
  unfold setCurrentTime nativeSetCurrentTime
  dsimp only
  repeat' split
  all_goals
    first
    | exact ⟨rfl, rfl, rfl, rfl⟩
    | exact ⟨by simp [pendingPlayNext, World.setTimeout, List.countP_append], rfl, rfl, rfl⟩

theorem skipButtonClickHandler_keeps (w : World) (t : ClickTarget) :
    KeepsPlayNext w (skipButtonClickHandler w t) := by
  unfold skipButtonClickHandler
  dsimp only
  repeat' split
  all_goals
    first
    | exact ⟨rfl, rfl, rfl, rfl⟩
    | exact keeps_trans ⟨rfl, rfl, rfl, rfl⟩ (setCurrentTime_keeps _ _)

theorem applyChange_keeps (changes : Obj StorageChange) (w : World) (key : String) :
    KeepsPlayNext w (applyChange changes w key) := by
  unfold applyChange
  dsimp only
  repeat' split
  all_goals exact ⟨rfl, rfl, rfl, rfl⟩

theorem onStorageChanged_keeps (w : World) (changes : Obj StorageChange) (area : String) :
    KeepsPlayNext w (onStorageChanged w changes area) := by
  unfold onStorageChanged
  split
  · generalize changes.keys = ks
    induction ks generalizing w with
    | nil => exact keeps_refl w
    | cons k rest ih => exact keeps_trans (applyChange_keeps changes w k) (ih _)
  · exact keeps_refl w

theorem handleAutoPlayNext_inv (w : World) (hi : PlayNextInv w) :
    PlayNextInv (handleAutoPlayNext w) := by
  unfold handleAutoPlayNext
  dsimp only
  repeat' split
  all_goals
    first
    | exact hi
    | (unfold PlayNextInv pendingPlayNext at *
       simp_all [World.setTimeout, List.countP_append])

theorem tick_inv (w : World) (hi : PlayNextInv w) : PlayNextInv (tick w) := by
  apply tick_preserves PlayNextInv _ _ _ _ _ _ w hi
  · exact fun u hu => keeps_inv (addPIPButton_keeps u) hu
  · exact fun u hu => keeps_inv (handleSkipButtons_keeps u) hu
  · exact handleAutoPlayNext_inv
  · exact fun u hu => keeps_inv (setupCustomSkipButtons_keeps u) hu
  · exact fun u hu => keeps_inv (updateSkipButtonVisuals_keeps u) hu
  · exact fun u hu => keeps_inv (setTimeout_keeps u _ _ (by simp)) hu

theorem playNextCallback_timers (w : World) : (playNextCallback w).timers = w.timers := by
  unfold playNextCallback simulateClick
  dsimp only
  repeat' split
  all_goals rfl

theorem fireTimer_inv (w : World) (i : Nat) (hi : PlayNextInv w) :
    PlayNextInv (fireTimer w i) := by
  unfold fireTimer
  split
  · exact hi
  · rename_i t ht
    by_cases hp : t.task = Task.playNextClick
    · have hc := countP_eraseIdx_of_pos (fun t => t.task == Task.playNextClick) w.timers i t ht
        (by simp [hp])
      have h0 : pendingPlayNext (playNextCallback
          { w with timers := w.timers.eraseIdx i, now := Nat.max w.now t.due }) = 0 := by
        have h1 : pendingPlayNext w ≤ 1 := hi.1
        unfold pendingPlayNext at *
        rw [playNextCallback_timers]
        dsimp only
        omega
      rw [hp]
      simp only [runTask]
      exact ⟨by omega, by omega⟩
    · have hc := countP_eraseIdx_of_neg (fun t => t.task == Task.playNextClick) w.timers i t ht
        (by simp [hp])
      have hk : KeepsPlayNext w
          { w with timers := w.timers.eraseIdx i, now := Nat.max w.now t.due } :=
        ⟨hc, rfl, rfl, rfl⟩
      have hi' := keeps_inv hk hi
      cases htask : t.task with
      | tick => exact tick_inv _ hi'
      | skipClick b => exact keeps_inv (skipClickCallback_keeps _ b) hi'
      | playNextClick => exact absurd htask hp
      | clearExpectedSeek => exact keeps_inv ⟨rfl, rfl, rfl, rfl⟩ hi'

theorem step_inv (w : World) (e : Event) (hi : PlayNextInv w) : PlayNextInv (step w e) := by
  cases e with
  | timer i => exact fireTimer_inv w i hi
  | domChange d => exact keeps_inv ⟨rfl, rfl, rfl, rfl⟩ hi
  | storageChanged changes area => exact keeps_inv (onStorageChanged_keeps w changes area) hi
  | userClick target =>
    simp only [step]
    split
    · exact keeps_inv (skipButtonClickHandler_keeps w target) hi
    · exact hi
  | hostSeek value => exact keeps_inv (setCurrentTime_keeps w value) hi

theorem run_inv (w : World) (events : List Event) (hi : PlayNextInv w) :
    PlayNextInv (run w events) := by
  unfold run
  induction events generalizing w with
  | nil => exact hi
  | cons e rest ih => exact ih _ (step_inv w e hi)

theorem init_inv (store : Obj JSVal) (dom : Dom) : PlayNextInv (init store dom) := by
  apply tick_inv
  exact ⟨by simp [pendingPlayNext, loadSettings, World.initial],
         by simp [pendingPlayNext, loadSettings, World.initial]⟩

theorem reachable_inv (w : World) (h : Reachable w) : PlayNextInv w := by
  obtain ⟨store, dom, events, rfl⟩ := h
  exact run_inv _ _ (init_inv store dom)

/-- Claim C6: in every state reachable from `init` by timer firings (ticks and
delayed clicks), changes of the page, change notifications, user clicks and host
seeks, at most one delayed play-next click is pending, and whenever one is
pending `playNextScheduled` is true. -/
theorem playNext_single_pending (w : World) (h : Reachable w) :
    pendingPlayNext w ≤ 1 ∧ (0 < pendingPlayNext w → w.flags.playNextScheduled = true) :=
  ⟨(reachable_inv w h).1, fun hp => ((reachable_inv w h).2 hp).1⟩

theorem playNext_single_pending_witness :
    Reachable (init [] upNextPage) ∧
    pendingPlayNext (init [] upNextPage) ≤ 1 ∧
    (init [] upNextPage).flags.playNextScheduled = true :=
  ⟨⟨[], _, [], rfl⟩,
   (playNext_single_pending _ ⟨[], _, [], rfl⟩).1,
   (playNext_single_pending
      (init [] upNextPage)
      ⟨[], _, [], rfl⟩).2 (by decide)⟩

/-! ## Play next: no second click while the button stays -/

theorem keeps_done {w w' : World} {n : Nat} (h : KeepsPlayNext w w')
    (hd : PlayNextDone n w) : PlayNextDone n w' := by
  obtain ⟨a1, _, a3, a4⟩ := h
  unfold PlayNextDone at *
  rw [a1, a3, a4]
  exact hd

theorem handleAutoPlayNext_done (w : World) (hb : w.dom.playNextButton.isSome = true)
    (hs : w.flags.playNextClickedSuccessfully = true) : handleAutoPlayNext w = w := by
  unfold handleAutoPlayNext
  dsimp only
  repeat' split
  all_goals first | rfl | simp_all

theorem addPIPButton_playNextButton (w : World) :
    (addPIPButton w).dom.playNextButton = w.dom.playNextButton := by
  unfold addPIPButton injectPIPStyles
  dsimp only
  repeat' split
  all_goals rfl

theorem setupCustomSkipButtons_playNextButton (w : World) :
    (setupCustomSkipButtons w).dom.playNextButton = w.dom.playNextButton := by
  unfold setupCustomSkipButtons setupVideoSeekingHandler
  dsimp only
  repeat' split
  all_goals rfl

theorem updateSkipButtonVisuals_playNextButton (w : World) :
    (updateSkipButtonVisuals w).dom.playNextButton = w.dom.playNextButton := by
  unfold updateSkipButtonVisuals
  dsimp only
  repeat' split
  all_goals rfl

theorem tick_done (w : World) (n : Nat) (hb : w.dom.playNextButton.isSome = true)
    (hd : PlayNextDone n w) : PlayNextDone n (tick w) := by
  have h := tick_preserves
    (fun u => u.dom.playNextButton.isSome = true ∧ PlayNextDone n u) ?_ ?_ ?_ ?_ ?_ ?_ w ⟨hb, hd⟩
  · exact h.2
  · exact fun u hu => ⟨by rw [addPIPButton_playNextButton]; exact hu.1,
      keeps_done (addPIPButton_keeps u) hu.2⟩
  · exact fun u hu => ⟨by rw [handleSkipButtons_dom]; exact hu.1,
      keeps_done (handleSkipButtons_keeps u) hu.2⟩
  · intro u hu
    rw [handleAutoPlayNext_done u hu.1 hu.2.1]
    exact hu
  · exact fun u hu => ⟨by rw [setupCustomSkipButtons_playNextButton]; exact hu.1,
      keeps_done (setupCustomSkipButtons_keeps u) hu.2⟩
  · exact fun u hu => ⟨by rw [updateSkipButtonVisuals_playNextButton]; exact hu.1,
      keeps_done (updateSkipButtonVisuals_keeps u) hu.2⟩
  · exact fun u hu => ⟨hu.1, keeps_done (setTimeout_keeps u _ _ (by simp)) hu.2⟩

theorem fireTimer_done (w : World) (i : Nat) (n : Nat)
    (hsee : tickMissesPlayNext w (Event.timer i) = false) (hd : PlayNextDone n w) :
    PlayNextDone n (fireTimer w i) := by
  unfold fireTimer
  split
  · exact hd
  · rename_i t ht
    by_cases hp : t.task = Task.playNextClick
    · have hc := countP_eraseIdx_of_pos (fun t => t.task == Task.playNextClick) w.timers i t ht
        (by simp [hp])
      have h0 : pendingPlayNext w = 0 := hd.2.1
      unfold pendingPlayNext at h0
      omega
    · have hc := countP_eraseIdx_of_neg (fun t => t.task == Task.playNextClick) w.timers i t ht
        (by simp [hp])
      have hk : KeepsPlayNext w
          { w with timers := w.timers.eraseIdx i, now := Nat.max w.now t.due } :=
        ⟨hc, rfl, rfl, rfl⟩
      have hd' := keeps_done hk hd
      cases htask : t.task with
      | tick =>
        have hb : w.dom.playNextButton.isSome = true := by
          simp only [tickMissesPlayNext, ht, htask] at hsee
          cases hbtn : w.dom.playNextButton with
          | none => simp [hbtn] at hsee
          | some b => rfl
        exact tick_done _ n hb hd'
      | skipClick b => exact keeps_done (skipClickCallback_keeps _ b) hd'
      | playNextClick => exact absurd htask hp
      | clearExpectedSeek => exact keeps_done ⟨rfl, rfl, rfl, rfl⟩ hd'

theorem step_done (w : World) (e : Event) (n : Nat)
    (hsee : tickMissesPlayNext w e = false) (hd : PlayNextDone n w) :
    PlayNextDone n (step w e) := by
  cases e with
  | timer i => exact fireTimer_done w i n hsee hd
  | domChange d => exact keeps_done ⟨rfl, rfl, rfl, rfl⟩ hd
  | storageChanged changes area => exact keeps_done (onStorageChanged_keeps w changes area) hd
  | userClick target =>
    simp only [step]
    split
    · exact keeps_done (skipButtonClickHandler_keeps w target) hd
    · exact hd
  | hostSeek value => exact keeps_done (setCurrentTime_keeps w value) hd

theorem run_done (w : World) (events : List Event) (n : Nat)
    (hsee : everyTickSeesPlayNext w events = true) (hd : PlayNextDone n w) :
    PlayNextDone n (run w events) := by
  unfold run
  induction events generalizing w with
  | nil => exact hd
  | cons e rest ih =>
    simp only [everyTickSeesPlayNext, Bool.and_eq_true, Bool.not_eq_true'] at hsee
    exact ih _ hsee.2 (step_done w e n hsee.1 hd)

/-- Claim C7: from a reachable state in which `playNextClickedSuccessfully` is
true, along every run in which each tick finds a play-next button in the page
the flag stays true, no delayed play-next click is pending and no play-next
click is dispatched; so a run that ends with a scheduled click contains a tick
that found the button absent. -/
theorem playNext_no_retrigger (w : World) (events : List Event) (hr : Reachable w)
    (hs : w.flags.playNextClickedSuccessfully = true) :
    (everyTickSeesPlayNext w events = true →
      (run w events).flags.playNextClickedSuccessfully = true ∧
      pendingPlayNext (run w events) = 0 ∧
      playNextClicks (run w events) = playNextClicks w) ∧
    (0 < pendingPlayNext (run w events) → everyTickSeesPlayNext w events = false) := by
  have h0 : pendingPlayNext w = 0 := by
    have hi := reachable_inv w hr
    by_contra hne
    have := (hi.2 (Nat.pos_of_ne_zero hne)).2
    rw [hs] at this
    exact absurd this (by simp)
  have hd : PlayNextDone (playNextClicks w) w := ⟨hs, h0, rfl⟩
  constructor
  · intro hsee
    exact run_done w events _ hsee hd
  · intro hp
    by_contra hne
    have hsee : everyTickSeesPlayNext w events = true := by simpa using hne
    have := (run_done w events _ hsee hd).2.1
    omega

theorem playNext_no_retrigger_witness :
    Reachable afterPlayNext ∧
    afterPlayNext.flags.playNextClickedSuccessfully = true ∧
    everyTickSeesPlayNext afterPlayNext [Event.timer 0, Event.timer 0] = true ∧
    (run afterPlayNext [Event.timer 0, Event.timer 0]).flags.playNextClickedSuccessfully
      = true ∧
    playNextClicks (run afterPlayNext [Event.timer 0, Event.timer 0]) = 1 :=
  ⟨⟨[], _, [Event.timer 0], rfl⟩, by decide, by decide,
   ((playNext_no_retrigger afterPlayNext [Event.timer 0, Event.timer 0]
      ⟨[], _, [Event.timer 0], rfl⟩ (by decide)).1 (by decide)).1,
   ((playNext_no_retrigger afterPlayNext [Event.timer 0, Event.timer 0]
      ⟨[], _, [Event.timer 0], rfl⟩ (by decide)).1 (by decide)).2.2⟩

/-! ## Skip button: delayed clicks pile up -/

/-- Claim C2 fails on the code: with an intro delay of 500 ms and a page that
never changes, the event loop runs the ticks at 0 ms and 250 ms, each of which
schedules a delayed click, and both delayed clicks (at 500 ms and 750 ms) find
the button visible, so the same button receives two simulated clicks. -/
theorem skipButton_clicked_twice :
    (List.range 5).all (fun n => (runLoop n (init slowIntroStore introPage)).dom == introPage)
      = true ∧
    (runLoop 4 (init slowIntroStore introPage)).clicks
      = [⟨ClickSource.skipButton, 1⟩, ⟨ClickSource.skipButton, 1⟩] ∧
    clicksOn (runLoop 4 (init slowIntroStore introPage)) 1 = 2 := by
  decide!

/-! ## Settings: reset and load -/

theorem storageSet_get?_not_mem (store items : Obj JSVal) (k : String)
    (h : ∀ p ∈ items, p.1 ≠ k) : (storageSet store items).get? k = store.get? k := by
  unfold storageSet
  induction items generalizing store with
  | nil => rfl
  | cons p rest ih =>
    rw [List.foldl_cons, ih _ (fun q hq => h q (List.mem_cons_of_mem _ hq))]
    exact Obj.get?_set_other store p.1 k p.2 (Ne.symm (h p (List.mem_cons_self _ _)))

theorem storageSet_get?_of_nodup (store items : Obj JSVal) (k : String) (v : JSVal)
    (hn : (items.map Prod.fst).Nodup) (hm : (k, v) ∈ items) :
    (storageSet store items).get? k = some v := by
  induction items generalizing store with
  | nil => simp at hm
  | cons p rest ih =>
    rw [List.map_cons, List.nodup_cons] at hn
    have hstep : storageSet store (p :: rest) = storageSet (store.set p.1 p.2) rest := rfl
    rw [hstep]
    rcases List.mem_cons.mp hm with h | h
    · subst h
      rw [storageSet_get?_not_mem]
      · exact Obj.get?_set_self store k v
      · intro q hq hqk
        exact hn.1 (List.mem_map.mpr ⟨q, hq, hqk⟩)
    · exact ih _ hn.2 h

theorem Obj.mem_of_get? {α : Type} (o : Obj α) (k : String) (v : α) (h : o.get? k = some v) :
    (k, v) ∈ o := by
  induction o with
  | nil => simp [Obj.get?] at h
  | cons p r ih =>
    obtain ⟨k', v'⟩ := p
    by_cases hk : k' = k
    · subst hk
      simp [Obj.get?] at h
      subst h
      exact List.mem_cons_self _ _
    · simp [Obj.get?, hk] at h
      exact List.mem_cons_of_mem _ (ih h)

/-- The keys of the default table of `popup.js` are pairwise different. -/
theorem popup_default_nodup : (Popup.DEFAULT_SETTINGS.map Prod.fst).Nodup := by decide

/-- Claim C11: if the user confirms the prompt, then after `resetAllSettings`
every one of the ten setting keys holds its value of the default table, in the
store and as `loadSettings` reads it back; if the user declines, no write is
issued and the store is unchanged. -/
theorem resetAllSettings_defaults (store : Obj JSVal) (k : String) (hk : k ∈ settingKeys) :
    (Popup.resetAllSettings store true).get? k = Popup.DEFAULT_SETTINGS.get? k ∧
    (Popup.loadSettings (Popup.resetAllSettings store true)).get? k
      = Popup.DEFAULT_SETTINGS.get? k ∧
    Popup.resetAllSettingsWrite false = none ∧
    Popup.resetAllSettings store false = store := by
  have h := popup_default_isSome k hk
  rw [Option.isSome_iff_exists] at h
  obtain ⟨d, hd⟩ := h
  have hstore : (Popup.resetAllSettings store true).get? k = some d :=
    storageSet_get?_of_nodup store Popup.DEFAULT_SETTINGS k d popup_default_nodup
      (Obj.mem_of_get? _ k d hd)
  refine ⟨by rw [hstore, hd], ?_, rfl, rfl⟩
  rw [Popup.loadSettings, storageGet_get?, hstore, hd]
  rfl

theorem resetAllSettings_defaults_witness :
    "customSkipBack" ∈ settingKeys ∧
    (Popup.resetAllSettings [("customSkipBack", JSVal.num (JSNum.fin 5))] true).get?
      "customSkipBack" = some (JSVal.num (JSNum.fin 15)) ∧
    Popup.resetAllSettings [("customSkipBack", JSVal.num (JSNum.fin 5))] false
      = [("customSkipBack", JSVal.num (JSNum.fin 5))] :=
  ⟨by decide,
   (resetAllSettings_defaults [("customSkipBack", JSVal.num (JSNum.fin 5))] "customSkipBack"
      (by decide)).1,
   (resetAllSettings_defaults [("customSkipBack", JSVal.num (JSNum.fin 5))] "customSkipBack"
      (by decide)).2.2.2⟩

/-- Claim C12: for every store, the settings `loadSettings` of `content.js`
obtains hold each of the ten setting keys, with the stored value when the store
has the key and with the value of the default table when it has not; on an
empty store they are the default table. -/
theorem loadSettings_defaults (w : World) (store : Obj JSVal) (k : String)
    (hk : k ∈ settingKeys) :
    ((loadSettings w store).settings.get? k).isSome = true ∧
    (∀ v, store.get? k = some v → (loadSettings w store).settings.get? k = some v) ∧
    (store.get? k = none →
      (loadSettings w store).settings.get? k = DEFAULT_SETTINGS.get? k) ∧
    (loadSettings w []).settings = DEFAULT_SETTINGS := by
  have h := default_isSome k hk
  rw [Option.isSome_iff_exists] at h
  obtain ⟨d, hd⟩ := h
  refine ⟨?_, ?_, ?_, rfl⟩
  · simp [loadSettings, storageGet_get?, hd]
  · intro v hv
    simp [loadSettings, storageGet_get?, hd, hv]
  · intro hv
    simp [loadSettings, storageGet_get?, hd, hv]

theorem loadSettings_defaults_witness :
    "enablePIP" ∈ settingKeys ∧
    (loadSettings (World.initial Dom.empty) [("enablePIP", JSVal.bool false)]).settings.get?
      "enablePIP" = some (JSVal.bool false) ∧
    (loadSettings (World.initial Dom.empty) []).settings.get? "enablePIP"
      = some (JSVal.bool true) :=
  ⟨by decide,
   (loadSettings_defaults (World.initial Dom.empty) [("enablePIP", JSVal.bool false)]
      "enablePIP" (by decide)).2.1 _ rfl,
   (loadSettings_defaults (World.initial Dom.empty) [] "enablePIP" (by decide)).2.2.1 rfl⟩

/-! ## Play next: the host's choice and the delayed click -/

/-- Claim C18: if `enablePlayNext` is not set, or the `autoPlayCheck` element is
missing or unchecked, `handleAutoPlayNext` changes nothing: no click is
scheduled and both play-next flags keep their values, whatever the state of the
play-next button. -/
theorem handleAutoPlayNext_respects_host (w : World)
    (h : (w.settings.read STORAGE_KEYS.ENABLE_PLAY_NEXT).truthy = false ∨
      w.dom.autoPlayCheck = none ∨ w.dom.autoPlayCheck = some false) :
    handleAutoPlayNext w = w := by
  unfold handleAutoPlayNext
  rcases h with h | h | h
  · simp [h]
  · simp [h]
  · simp [h]

theorem handleAutoPlayNext_respects_host_witness :
    handleAutoPlayNext
      (World.initial { Dom.empty with autoPlayCheck := some false, playNextButton := some 7 })
      = World.initial { Dom.empty with autoPlayCheck := some false, playNextButton := some 7 } :=
  handleAutoPlayNext_respects_host
    (World.initial { Dom.empty with autoPlayCheck := some false, playNextButton := some 7 })
    (Or.inr (Or.inr rfl))

/-- Claim C19: when a scheduled play-next click fires, the button is looked up
again: if the page then has a displayed play-next button, the click goes to
that element and `playNextClickedSuccessfully` becomes true; if it has none, or
the one it has is not displayed, no click is dispatched, `playNextScheduled`
becomes false and `playNextClickedSuccessfully` keeps its value. -/
theorem playNextClick_reresolves (w : World) (i : Nat) (t : Timer)
    (ht : w.timers.get? i = some t) (htask : t.task = Task.playNextClick) :
    (∀ node, w.dom.playNextButton = some node →
      isElementVisible w.dom (some node) true = true →
      (fireTimer w i).clicks = w.clicks ++ [⟨ClickSource.playNext, node⟩] ∧
      (fireTimer w i).flags.playNextClickedSuccessfully = true) ∧
    ((w.dom.playNextButton = none ∨
        isElementVisible w.dom w.dom.playNextButton true = false) →
      (fireTimer w i).clicks = w.clicks ∧
      (fireTimer w i).flags.playNextScheduled = false ∧
      (fireTimer w i).flags.playNextClickedSuccessfully
        = w.flags.playNextClickedSuccessfully) := by
  have hfire : fireTimer w i = playNextCallback
      { w with timers := w.timers.eraseIdx i, now := Nat.max w.now t.due } := by
    simp only [fireTimer, ht, htask, runTask]
  rw [hfire]
  constructor
  · intro node hnode hvis
    simp [playNextCallback, hnode, hvis, simulateClick]
  · intro h
    rcases h with h | h
    · simp [playNextCallback, h]
    · cases hb : w.dom.playNextButton with
      | none => simp [playNextCallback, hb]
      | some node =>
        rw [hb] at h
        simp [playNextCallback, hb, h]

theorem playNextClick_reresolves_witness :
    (step (init [] upNextPage) (Event.domChange rerenderedUpNextPage)).timers.get? 0
      = some ⟨0, Task.playNextClick⟩ ∧
    (fireTimer (step (init [] upNextPage) (Event.domChange rerenderedUpNextPage)) 0).clicks
      = [⟨ClickSource.playNext, 9⟩] ∧
    (fireTimer (step (init [] upNextPage)
      (Event.domChange rerenderedUpNextPage)) 0).flags.playNextClickedSuccessfully = true :=
  ⟨by decide,
   ((playNextClick_reresolves (step (init [] upNextPage) (Event.domChange rerenderedUpNextPage))
      0 ⟨0, Task.playNextClick⟩ (by decide) rfl).1 9 rfl (by decide)).1,
   ((playNextClick_reresolves (step (init [] upNextPage) (Event.domChange rerenderedUpNextPage))
      0 ⟨0, Task.playNextClick⟩ (by decide) rfl).1 9 rfl (by decide)).2⟩

/-! ## The overriding setter -/

namespace JSNum

theorem pow2_1024_pos_gap (r : ℚ) (h : pow2 1024 ≤ r) : (10 : ℚ) < r :=
  lt_of_lt_of_le (lt_trans (by norm_num) pow2_1024_gt) h

/-- The magnitude of a rounded value. -/
theorem abs_roundDouble (q : ℚ) :
    (roundDouble q).abs
      = if pow2 1024 ≤ roundMagnitude |q| then posInf else fin (roundMagnitude |q|) := by
  rcases lt_trichotomy q 0 with h | h | h
  · rw [roundDouble_of_neg q h, abs_of_neg h]
    split_ifs with h1 h2
    · rfl
    · rw [h2]; rfl
    · simp [abs, abs_of_nonneg (roundMagnitude_nonneg (-q))]
  · subst h
    have h1 : ¬ pow2 1024 ≤ (0 : ℚ) := not_le.mpr (pow2_pos 1024)
    simp [roundDouble, abs, roundMagnitude_zero, h1]
  · rw [roundDouble_of_pos q h, abs_of_pos h]
    split_ifs with h1
    · rfl
    · simp [abs, abs_of_nonneg (roundMagnitude_nonneg q)]

/-- The test `Math.abs(x) > 2` on a rounded value, in terms of the exact one. -/
theorem abs_roundDouble_gt_two (q : ℚ) :
    (roundDouble q).abs.gt (fin 2) = decide (2 + 1 / 2 ^ 52 < |q|) := by
  rw [abs_roundDouble]
  have key := roundMagnitude_gt_two |q| (abs_nonneg q)
  split_ifs with h1
  · have : (2 : ℚ) < roundMagnitude |q| := by
      have := pow2_1024_pos_gap _ h1
      linarith
    simp only [gt, lt]
    symm
    exact decide_eq_true (key.mp this)
  · simp only [gt, lt]
    exact decide_eq_decide.mpr key

/-- The test `Math.abs(x) < 10` on a rounded value, in terms of the exact one. -/
theorem abs_roundDouble_lt_ten (q : ℚ) :
    (roundDouble q).abs.lt (fin 10) = decide (|q| < 10 - 1 / 2 ^ 50) := by
  rw [abs_roundDouble]
  have key := roundMagnitude_lt_ten |q| (abs_nonneg q)
  split_ifs with h1
  · have : ¬ roundMagnitude |q| < 10 := by
      have := pow2_1024_pos_gap _ h1
      linarith
    simp only [lt]
    symm
    apply decide_eq_false
    exact fun h => this (key.mpr h)
  · simp only [lt]
    exact decide_eq_decide.mpr key

theorem roundDouble_of_isDouble (a : ℚ) (h : isDouble a = true) : roundDouble a = fin a :=
  eq_of_beq h

/-- The magnitude of a difference of two doubles is that of the rounded exact
difference. -/
theorem abs_sub_of_toRat? {x y : JSNum} {a b : ℚ} (hx : x.toRat? = some a)
    (hy : y.toRat? = some b) (ha : isDouble a = true) (hb : isDouble b = true) :
    (x.sub y).abs = (roundDouble (a - b)).abs := by
  have ra := roundDouble_of_isDouble a ha
  have rb := roundDouble_of_isDouble b hb
  have hneg : (roundDouble (-b)).abs = fin |b| := by
    rw [abs_roundDouble, abs_neg, ← abs_roundDouble, rb]
    rfl
  cases x with
  | nan => simp [toRat?] at hx
  | posInf => simp [toRat?] at hx
  | negInf => simp [toRat?] at hx
  | negZero =>
    simp only [toRat?, Option.some.injEq] at hx
    subst hx
    cases y with
    | nan => simp [toRat?] at hy
    | posInf => simp [toRat?] at hy
    | negInf => simp [toRat?] at hy
    | negZero =>
      simp only [toRat?, Option.some.injEq] at hy
      subst hy
      simp [sub, neg, add, roundDouble, abs]
    | fin q =>
      simp only [toRat?, Option.some.injEq] at hy
      subst hy
      by_cases h0 : q = 0
      · subst h0
        simp [sub, neg, add, roundDouble, abs]
      · simp only [sub, neg, h0, if_false, add, zero_sub, hneg]
        simp [abs]
  | fin p =>
    simp only [toRat?, Option.some.injEq] at hx
    subst hx
    cases y with
    | nan => simp [toRat?] at hy
    | posInf => simp [toRat?] at hy
    | negInf => simp [toRat?] at hy
    | negZero =>
      simp only [toRat?, Option.some.injEq] at hy
      subst hy
      simp [sub, neg, add]
    | fin q =>
      simp only [toRat?, Option.some.injEq] at hy
      subst hy
      by_cases h0 : q = 0
      · subst h0
        simp [sub, neg, add, ra]
      · simp [sub, neg, h0, add, sub_eq_add_neg]

end JSNum

/-- The value the overriding setter passes on, for finite numbers: the two
tests on the rounded differences, in terms of the exact ones. -/
theorem interceptedValue_finite {v e c : JSNum} {qv qe qc : ℚ} (hv : v.toRat? = some qv)
    (he : e.toRat? = some qe) (hc : c.toRat? = some qc) (dv : JSNum.isDouble qv = true)
    (de : JSNum.isDouble qe = true) (dc : JSNum.isDouble qc = true) :
    interceptedValue (some e) c v
      = if 2 + 1 / 2 ^ 52 < |qv - qe| ∧ |qc - qe| < 10 - 1 / 2 ^ 50 then e else v := by
  unfold interceptedValue
  simp only [JSNum.abs_sub_of_toRat? hv he dv de, JSNum.abs_sub_of_toRat? hc he dc de,
    JSNum.abs_roundDouble_gt_two, JSNum.abs_roundDouble_lt_ten, Bool.and_eq_true,
    decide_eq_true_eq]

/-- The value the overriding setter passes on for an infinite written value. -/
theorem interceptedValue_infinite {v e c : JSNum} {qe qc : ℚ}
    (hv : v = JSNum.posInf ∨ v = JSNum.negInf)
    (he : e.toRat? = some qe) (hc : c.toRat? = some qc)
    (de : JSNum.isDouble qe = true) (dc : JSNum.isDouble qc = true) :
    interceptedValue (some e) c v = if |qc - qe| < 10 - 1 / 2 ^ 50 then e else v := by
  have h1 : (v.sub e).abs.gt (JSNum.fin 2) = true := by
    rcases hv with h | h <;> subst h <;> cases e <;>
      first
      | (simp [JSNum.toRat?] at he; done)
      | (simp only [JSNum.sub, JSNum.neg, JSNum.add, JSNum.abs, JSNum.gt, JSNum.lt]; done)
      | (simp only [JSNum.sub, JSNum.neg]; split_ifs <;> rfl)
  unfold interceptedValue
  simp only [h1, Bool.true_and, JSNum.abs_sub_of_toRat? hc he dc de,
    JSNum.abs_roundDouble_lt_ten, decide_eq_true_eq]

/-- The overriding setter passes the written value on when that is `NaN`, or
when the expected seek time or the current time is not finite. -/
theorem interceptedValue_not_finite (v e c : JSNum)
    (h : v = JSNum.nan ∨ e.toRat? = none ∨ c.toRat? = none) :
    interceptedValue (some e) c v = v := by
  unfold interceptedValue
  have key : ((v.sub e).abs.gt (JSNum.fin 2) && (c.sub e).abs.lt (JSNum.fin 10)) = false
      ∨ e = v := by
    rcases h with h | h | h
    · subst h
      left
      cases e <;> simp [JSNum.sub, JSNum.neg, JSNum.add, JSNum.abs, JSNum.gt, JSNum.lt]
    · cases e <;> simp [JSNum.toRat?] at h
      all_goals
        cases c <;> cases v <;>
        simp [JSNum.sub, JSNum.neg, JSNum.add, JSNum.abs, JSNum.gt, JSNum.lt]
    · left
      cases c <;> simp [JSNum.toRat?] at h
      all_goals
        cases e <;>
        simp [JSNum.sub, JSNum.neg, JSNum.add, JSNum.abs, JSNum.gt, JSNum.lt] <;>
        split_ifs <;> simp [JSNum.add, JSNum.abs, JSNum.lt]
  rcases key with k | k
  · simp [k]
  · subst k
    simp

/-- The original setter leaves the module-level variables alone. -/
theorem nativeSetCurrentTime_flags (w : World) (x : JSNum) :
    (nativeSetCurrentTime w x).flags = w.flags := by
  unfold nativeSetCurrentTime
  split
  · rfl
  · dsimp only
    split <;> rfl

/-- Claim C20, as amended: a write of `value` to the time of a video that
carries the overriding setter reaches the original setter as `value` when
`expectedSeekTime` is null.  When it is `e`, and `c` is the video's time before
the write, the setter tests `|value - e| > 2` and `|c - e| < 10` on the rounded
differences: for finite numbers the value passed on is `e` exactly when
`|value - e| > 2 + 2^-52` and `|c - e| < 10 - 2^-50` in exact arithmetic, and
`value` otherwise; an infinite `value` is replaced by `e` exactly when
`|c - e| < 10 - 2^-50`; and `value` is passed on whenever it is `NaN` or `e` or
`c` is not finite.  The write leaves `expectedSeekTime` as it is. -/
theorem setCurrentTime_intercepts (w : World) (video : Video) (value : JSNum)
    (hvid : w.dom.video = some video) (hov : video.overridden = true) :
    (w.flags.expectedSeekTime = none →
      (setCurrentTime w value).timeWrites = w.timeWrites ++ [value]) ∧
    (∀ e : JSNum, w.flags.expectedSeekTime = some e →
      (∀ qv qe qc : ℚ, value.toRat? = some qv → e.toRat? = some qe →
        video.currentTime.toRat? = some qc → JSNum.isDouble qv = true →
        JSNum.isDouble qe = true → JSNum.isDouble qc = true →
        (setCurrentTime w value).timeWrites = w.timeWrites ++
          [if 2 + 1 / 2 ^ 52 < |qv - qe| ∧ |qc - qe| < 10 - 1 / 2 ^ 50 then e else value]) ∧
      (∀ qe qc : ℚ, value = JSNum.posInf ∨ value = JSNum.negInf → e.toRat? = some qe →
        video.currentTime.toRat? = some qc →
        JSNum.isDouble qe = true → JSNum.isDouble qc = true →
        (setCurrentTime w value).timeWrites = w.timeWrites ++
          [if |qc - qe| < 10 - 1 / 2 ^ 50 then e else value]) ∧
      (value = JSNum.nan ∨ e.toRat? = none ∨ video.currentTime.toRat? = none →
        (setCurrentTime w value).timeWrites = w.timeWrites ++ [value])) ∧
    (setCurrentTime w value).flags.expectedSeekTime = w.flags.expectedSeekTime := by
  have hw : ∀ e : JSNum, w.flags.expectedSeekTime = some e →
      (setCurrentTime w value).timeWrites
        = w.timeWrites ++ [interceptedValue (some e) video.currentTime value] := by
    intro e he
    simp only [setCurrentTime, hvid, hov, he, if_true]
    rw [nativeSetCurrentTime_writes _ video _ (by simp [World.setTimeout, hvid])]
    rfl
  refine ⟨?_, ?_, ?_⟩
  · intro he
    simp only [setCurrentTime, hvid, hov, he, if_true]
    exact nativeSetCurrentTime_writes w video value hvid
  · intro e he
    refine ⟨?_, ?_, ?_⟩
    · intro qv qe qc hv hqe hc dv de dc
      rw [hw e he, interceptedValue_finite hv hqe hc dv de dc]
    · intro qe qc hv hqe hc de dc
      rw [hw e he, interceptedValue_infinite hv hqe hc de dc]
    · intro h
      rw [hw e he, interceptedValue_not_finite value e video.currentTime h]
  · unfold setCurrentTime
    simp only [hvid, hov, if_true]
    cases he : w.flags.expectedSeekTime with
    | none => simp only [nativeSetCurrentTime_flags, he]
    | some e =>
      simp only [nativeSetCurrentTime_flags]
      exact he

theorem setCurrentTime_intercepts_witness :
    afterSkipBack.dom.video = some ⟨JSNum.fin 42, JSNum.fin 100, true⟩ ∧
    afterSkipBack.flags.expectedSeekTime = some (JSNum.fin 42) ∧
    (setCurrentTime afterSkipBack (JSNum.fin 50)).timeWrites
      = afterSkipBack.timeWrites ++ [JSNum.fin 42] := by
  refine ⟨by decide!, by decide!, ?_⟩
  have h := ((setCurrentTime_intercepts afterSkipBack ⟨JSNum.fin 42, JSNum.fin 100, true⟩
    (JSNum.fin 50) (by decide!) rfl).2.1 (JSNum.fin 42) (by decide!)).1 50 42 42 rfl rfl rfl
    (by decide!) (by decide!) (by decide!)
  rw [h]
  norm_num

/-- Claim C20 as stated fails where the setter's difference is rounded: with
the doubles nearest to 2.1 as the written value and to 0.1 as the expected seek
time, and a video at 0 s, `|v - e| > 2` and `|c - e| < 10` hold, but the
difference the setter computes is the double 2, which is not above 2, and the
written value is passed on. -/
theorem setCurrentTime_intercepts_counterexample :
    JSNum.roundDouble (21 / 10) = JSNum.fin (4728779608739021 / 2251799813685248) ∧
    JSNum.roundDouble (1 / 10) = JSNum.fin (3602879701896397 / 36028797018963968) ∧
    (2 : ℚ) < |4728779608739021 / 2251799813685248 - 3602879701896397 / 36028797018963968| ∧
    |(0 : ℚ) - 3602879701896397 / 36028797018963968| < 10 ∧
    (JSNum.fin (4728779608739021 / 2251799813685248)).sub
        (JSNum.fin (3602879701896397 / 36028797018963968)) = JSNum.fin 2 ∧
    (setCurrentTime
        (seekingWorld (JSNum.fin 0) (JSNum.fin (3602879701896397 / 36028797018963968)))
        (JSNum.fin (4728779608739021 / 2251799813685248))).timeWrites
      = [JSNum.fin (4728779608739021 / 2251799813685248)] := by
  refine ⟨by decide!, by decide!, ?_, ?_, by decide!, by decide!⟩
  · rw [abs_of_pos (by norm_num)]
    norm_num
  · rw [abs_of_neg (by norm_num)]
    norm_num

/-! ## Skip back: the host's write after the handler's -/

/-- Claim C13 fails on the code: at 37 s with a skip-back value of 5 the handler
writes 42 and makes 42 the expected seek time; the host's adjustment, a write of
42 - 10 = 32 within the 500 ms window, is redirected by the overriding setter to
42, so the video ends at 42 s and not at 37 - 5 = 32 s. -/
theorem skipBack_host_write_redirected :
    (init customSkipStore videoPage).dom.video = some ⟨JSNum.fin 37, JSNum.fin 100, true⟩ ∧
    afterSkipBack.timeWrites = [JSNum.fin 42] ∧
    afterSkipBack.flags.expectedSeekTime = some (JSNum.fin 42) ∧
    (step afterSkipBack (Event.hostSeek (JSNum.fin 32))).timeWrites
      = [JSNum.fin 42, JSNum.fin 42] ∧
    (step afterSkipBack (Event.hostSeek (JSNum.fin 32))).dom.video
      = some ⟨JSNum.fin 42, JSNum.fin 100, true⟩ := by
  decide!

theorem JSNum.isDouble_intCast (z : Int) (hz : z.natAbs < 2 ^ 53) :
    JSNum.isDouble (z : ℚ) = true := by
  simp [JSNum.isDouble, JSNum.roundDouble_intCast z hz]

/-- The video after the original setter has taken a finite value that is not
negative, for a video with a known duration. -/
theorem nativeSetCurrentTime_video (w : World) (v : Video) (q dur : ℚ)
    (hv : w.dom.video = some v) (hdu : v.duration = JSNum.fin dur) (hq : 0 ≤ q)
    (hdur : 0 ≤ dur) :
    (nativeSetCurrentTime w (JSNum.fin q)).dom.video
      = some { v with currentTime := JSNum.fin (min q dur) } := by
  have hn : (JSNum.fin dur == JSNum.nan) = false := by simp
  simp [nativeSetCurrentTime, hv, hdu, JSNum.toRat?, hn, JSNum.min_fin, JSNum.max_fin,
    le_min hq hdur]

/-- With the overriding setter on the video, a skip-back click at a whole
number of seconds `t ≥ 10` with a user value `0 < d ≤ t`, followed by the host's
write of the written value minus 10, leaves the video at `t + (10 - d)` (or at
its end, if that is earlier): the host's write is redirected to the expected
seek time. -/
theorem skipBack_then_hostSeek (w : World) (v : Video) (t d dur : ℕ)
    (hv : w.dom.video = some v) (hov : v.overridden = true)
    (ht : v.currentTime = JSNum.fin (t : ℚ)) (hdu : v.duration = JSNum.fin (dur : ℚ))
    (hs : w.settings.read STORAGE_KEYS.CUSTOM_SKIP_BACK = JSVal.num (JSNum.fin (d : ℚ)))
    (hd : 0 < d) (hdt : d ≤ t) (h10 : 10 ≤ t) (htd : t ≤ dur) (hb : dur < 2 ^ 52) :
    (setCurrentTime (skipButtonClickHandler w ClickTarget.skipBackButton)
      (JSNum.fin ((t : ℚ) + (10 - (d : ℚ)) - 10))).dom.video
      = some { v with currentTime := JSNum.fin (min ((t : ℚ) + (10 - (d : ℚ))) (dur : ℚ)) } := by
  have hdq : (0 : ℚ) < (d : ℚ) := by exact_mod_cast hd
  have hdtq : (d : ℚ) ≤ (t : ℚ) := by exact_mod_cast hdt
  have h10q : (10 : ℚ) ≤ (t : ℚ) := by exact_mod_cast h10
  have htdq : (t : ℚ) ≤ (dur : ℚ) := by exact_mod_cast htd
  have hx0 : (0 : ℚ) ≤ (t : ℚ) + (10 - (d : ℚ)) := by linarith
  have hdur0 : (0 : ℚ) ≤ (dur : ℚ) := Nat.cast_nonneg dur
  have htarget : skipBackTarget w.settings (JSNum.fin (t : ℚ))
      = JSNum.fin ((t : ℚ) + (10 - (d : ℚ))) := by
    have key := skipBackTarget_int w.settings (t : Int) (d : Int) (by exact_mod_cast hd)
      (by simp; omega) (by omega) (by simpa using hs)
    simp only [Int.cast_natCast] at key
    rw [key, if_neg (not_lt.mpr h10q), max_eq_right hx0]
  -- the world after the click
  have hclick : ∃ (w1 : World) (v1 : Video),
      skipButtonClickHandler w ClickTarget.skipBackButton = w1 ∧
      w1.dom.video = some v1 ∧
      v1 = { v with currentTime := JSNum.fin (min ((t : ℚ) + (10 - (d : ℚ))) (dur : ℚ)) } ∧
      w1.flags.expectedSeekTime = some (JSNum.fin ((t : ℚ) + (10 - (d : ℚ)))) := by
    refine ⟨_, _, rfl, ?_, rfl, ?_⟩
    · simp only [skipButtonClickHandler, hv, ht, htarget, setCurrentTime, hov, if_true,
        interceptedValue_self]
      rw [nativeSetCurrentTime_video _ v _ _ (by simpa [World.setTimeout] using hv) hdu hx0
        hdur0, hov]
    · simp only [skipButtonClickHandler, hv, ht, htarget, setCurrentTime, hov, if_true,
        nativeSetCurrentTime_flags]
      rfl
  obtain ⟨w1, v1, hw1, hvid1, hv1, hexp1⟩ := hclick
  have hov1 : v1.overridden = true := by rw [hv1]; exact hov
  have hdu1 : v1.duration = JSNum.fin (dur : ℚ) := by rw [hv1]; exact hdu
  have hc1 : v1.currentTime = JSNum.fin (min ((t : ℚ) + (10 - (d : ℚ))) (dur : ℚ)) := by
    rw [hv1]
  rw [hw1]
  -- the host's write is redirected
  have dx : JSNum.isDouble ((t : ℚ) + (10 - (d : ℚ))) = true := by
    have := JSNum.isDouble_intCast ((t : Int) + (10 - (d : Int))) (by omega)
    simpa using this
  have dv : JSNum.isDouble ((t : ℚ) + (10 - (d : ℚ)) - 10) = true := by
    have := JSNum.isDouble_intCast ((t : Int) + (10 - (d : Int)) - 10) (by omega)
    simpa using this
  have dc : JSNum.isDouble (min ((t : ℚ) + (10 - (d : ℚ))) (dur : ℚ)) = true := by
    have := JSNum.isDouble_intCast (min ((t : Int) + (10 - (d : Int))) (dur : Int)) (by omega)
    simpa using this
  have hint : interceptedValue (some (JSNum.fin ((t : ℚ) + (10 - (d : ℚ)))))
      (JSNum.fin (min ((t : ℚ) + (10 - (d : ℚ))) (dur : ℚ)))
      (JSNum.fin ((t : ℚ) + (10 - (d : ℚ)) - 10)) = JSNum.fin ((t : ℚ) + (10 - (d : ℚ))) := by
    rw [@interceptedValue_finite (JSNum.fin ((t : ℚ) + (10 - (d : ℚ)) - 10))
      (JSNum.fin ((t : ℚ) + (10 - (d : ℚ))))
      (JSNum.fin (min ((t : ℚ) + (10 - (d : ℚ))) (dur : ℚ))) _ _ _ rfl rfl rfl dv dx dc]
    have c1 : (2 : ℚ) + 1 / 2 ^ 52
        < |(t : ℚ) + (10 - (d : ℚ)) - 10 - ((t : ℚ) + (10 - (d : ℚ)))| := by
      have e : (t : ℚ) + (10 - (d : ℚ)) - 10 - ((t : ℚ) + (10 - (d : ℚ))) = -10 := by ring
      rw [e]
      norm_num
    have c2 : |min ((t : ℚ) + (10 - (d : ℚ))) (dur : ℚ) - ((t : ℚ) + (10 - (d : ℚ)))|
        < 10 - 1 / 2 ^ 50 := by
      have hd1 : (1 : ℚ) ≤ (d : ℚ) := by exact_mod_cast hd
      rw [abs_lt]
      constructor
      · rcases min_choice ((t : ℚ) + (10 - (d : ℚ))) (dur : ℚ) with h | h
        · rw [h]
          norm_num
        · rw [h]
          norm_num
          linarith
      · have := min_le_left ((t : ℚ) + (10 - (d : ℚ))) (dur : ℚ)
        norm_num
        linarith
    simp only [c1, c2, and_self, if_true]
  simp only [setCurrentTime, hvid1, hov1, hexp1, if_true, hc1, hint]
  rw [nativeSetCurrentTime_video _ v1 _ (dur : ℚ) (by simpa [World.setTimeout] using hvid1) hdu1
    hx0 hdur0, hv1]

/-! ## Skip button: which toggle and which delay -/

/-- A delay of `n` milliseconds, `n` below 2 ^ 31, is the time `setTimeout` waits. -/
theorem timeoutMillis_nat (n : ℕ) (hn : n < 2 ^ 31) :
    timeoutMillis ((JSVal.num (JSNum.fin (n : ℚ))).orElse (JSVal.num (JSNum.fin 0))) = n := by
  by_cases h0 : n = 0
  · subst h0
    decide
  · have hpos : (0 : ℚ) < (n : ℚ) := by exact_mod_cast Nat.pos_of_ne_zero h0
    have hlt : (n : Int) < 2 ^ 31 := by exact_mod_cast hn
    rw [orElse_pos (n : ℚ) hpos]
    simp only [timeoutMillis, JSVal.toNumber, JSNum.toRat?, Rat.num_natCast, Rat.den_natCast,
      Nat.cast_one, Int.tdiv_one]
    rw [Int.emod_eq_of_lt (Int.natCast_nonneg n) (by omega)]
    rw [if_neg (by omega)]
    exact Int.toNat_natCast n

/-- Claim C17: a run of `handleSkipButtons` that sees a visible skip button it
has not clicked yet schedules a click for a button classified `intro` exactly
when `enableSkipIntro` is set, with the delay `delaySkipIntro || 0`, and for a
button classified `credits` exactly when `enableSkipCredits` is set, with the
delay `delaySkipCredits || 0`; the settings of the other feature do not occur.
A delay of `n` ms is waited as `n` ms, an unset delay as 0 ms. -/
theorem handleSkipButtons_schedules (w : World) (button : Nat)
    (hbtn : w.dom.skipButton = some button)
    (hvis : isElementVisible w.dom (some button) false = true)
    (hnew : w.flags.lastSkipButtonClicked ≠ some button) :
    (detectSkipType w.dom = some SkipType.intro →
      ((w.settings.read STORAGE_KEYS.ENABLE_SKIP_INTRO).truthy = true →
        (handleSkipButtons w).timers = w.timers ++
          [⟨w.now + timeoutMillis ((w.settings.read STORAGE_KEYS.DELAY_SKIP_INTRO).orElse
              (JSVal.num (JSNum.fin 0))), Task.skipClick button⟩]) ∧
      ((w.settings.read STORAGE_KEYS.ENABLE_SKIP_INTRO).truthy = false →
        (handleSkipButtons w).timers = w.timers)) ∧
    (detectSkipType w.dom = some SkipType.credits →
      ((w.settings.read STORAGE_KEYS.ENABLE_SKIP_CREDITS).truthy = true →
        (handleSkipButtons w).timers = w.timers ++
          [⟨w.now + timeoutMillis ((w.settings.read STORAGE_KEYS.DELAY_SKIP_CREDITS).orElse
              (JSVal.num (JSNum.fin 0))), Task.skipClick button⟩]) ∧
      ((w.settings.read STORAGE_KEYS.ENABLE_SKIP_CREDITS).truthy = false →
        (handleSkipButtons w).timers = w.timers)) ∧
    (∀ n : ℕ, n < 2 ^ 31 →
      timeoutMillis ((JSVal.num (JSNum.fin (n : ℚ))).orElse (JSVal.num (JSNum.fin 0))) = n) ∧
    timeoutMillis (JSVal.undefined.orElse (JSVal.num (JSNum.fin 0))) = 0 := by
  have hne : (w.flags.lastSkipButtonClicked == some button) = false := by
    simpa using hnew
  refine ⟨?_, ?_, timeoutMillis_nat, by decide⟩
  · intro hty
    constructor
    · intro hen
      cases hsv : w.flags.skipButtonVisible <;>
        simp [handleSkipButtons, hbtn, hvis, hne, hsv, hty, hen, clickSkipButton,
          World.setTimeout]
    · intro hen
      cases hsv : w.flags.skipButtonVisible <;>
        simp [handleSkipButtons, hbtn, hvis, hne, hsv, hty, hen, clickSkipButton,
          World.setTimeout]
  · intro hty
    constructor
    · intro hen
      cases hsv : w.flags.skipButtonVisible <;>
        simp [handleSkipButtons, hbtn, hvis, hne, hsv, hty, hen, clickSkipButton,
          World.setTimeout]
    · intro hen
      cases hsv : w.flags.skipButtonVisible <;>
        simp [handleSkipButtons, hbtn, hvis, hne, hsv, hty, hen, clickSkipButton,
          World.setTimeout]

theorem handleSkipButtons_schedules_witness :
    isElementVisible introWorld.dom (some 1) false = true ∧
    detectSkipType introWorld.dom = some SkipType.intro ∧
    (handleSkipButtons introWorld).timers = [⟨500, Task.skipClick 1⟩] :=
  ⟨by decide, by decide!,
   (((handleSkipButtons_schedules introWorld 1 rfl (by decide) (by decide)).1
      (by decide!)).1 (by decide)).trans (by decide!)⟩

/-! ## A page without any of the elements -/

theorem nothingFound_fields (d : Dom) (h : d.nothingFound = true) :
    d.closeButton = none ∧ d.skipButton = none ∧ d.autoPlayCheck = none ∧
    d.skipBackButton = none ∧ d.video = none := by
  simp only [Dom.nothingFound, Bool.and_eq_true, Option.isNone_iff_eq_none] at h
  obtain ⟨⟨⟨⟨⟨⟨⟨h1, h2⟩, _⟩, h4⟩, _⟩, h6⟩, _⟩, h8⟩ := h
  exact ⟨h1, h2, h4, h6, h8⟩

/-- A property that every call made by `tick` preserves holds of the world
`tick` hands to its final `setTimeout`. -/
theorem tick_body_preserves (P : World → Prop)
    (h1 : ∀ u, P u → P (addPIPButton u))
    (h2 : ∀ u, P u → P (handleSkipButtons u))
    (h3 : ∀ u, P u → P (handleAutoPlayNext u))
    (h4 : ∀ u, P u → P (setupCustomSkipButtons u))
    (h5 : ∀ u, P u → P (updateSkipButtonVisuals u))
    (w : World) (hw : P w) :
    ∃ w', P w' ∧ tick w = w'.setTimeout Task.tick (JSVal.num (JSNum.fin 250)) := by
  have s1 : ∀ u : World, P u → P
      (if (u.settings.read STORAGE_KEYS.ENABLE_PIP).truthy then
        match u.dom.bottomNavChildren with
        | none => u
        | some childCount => if childCount != 0 then addPIPButton u else u
      else u) := by
    intro u hu
    repeat' split
    all_goals first | exact hu | exact h1 _ hu
  have s2 : ∀ u : World, P u → P
      (if (u.settings.read STORAGE_KEYS.ENABLE_SKIP_INTRO).truthy
          || (u.settings.read STORAGE_KEYS.ENABLE_SKIP_CREDITS).truthy then
        handleSkipButtons u
      else u) := by
    intro u hu
    split
    · exact h2 _ hu
    · exact hu
  have s3 : ∀ u : World, P u → P
      (if (u.settings.read STORAGE_KEYS.ENABLE_PLAY_NEXT).truthy then handleAutoPlayNext u
       else u) := by
    intro u hu
    split
    · exact h3 _ hu
    · exact hu
  exact ⟨_, h5 _ (h4 _ (s3 _ (s2 _ (s1 _ hw)))), rfl⟩

/-- Claim C14: a tick on a page that has none of the elements the script looks
for dispatches no simulated click, schedules nothing but the next tick, writes
no video time and leaves the page as it is, whatever the settings and flags.
The tick is a total function: none of its steps can fail. -/
theorem tick_nothingFound (w : World) (h : w.dom.nothingFound = true) :
    (tick w).clicks = w.clicks ∧
    (tick w).timers = w.timers ++ [⟨w.now + 250, Task.tick⟩] ∧
    (tick w).timeWrites = w.timeWrites ∧
    (tick w).dom = w.dom := by
  obtain ⟨hclose, hskip, hauto, hback, hvideo⟩ := nothingFound_fields w.dom h
  have key := tick_body_preserves
    (fun u => u.dom = w.dom ∧ u.clicks = w.clicks ∧ u.timers = w.timers ∧
      u.timeWrites = w.timeWrites ∧ u.now = w.now) ?_ ?_ ?_ ?_ ?_ w ⟨rfl, rfl, rfl, rfl, rfl⟩
  · have h250 : timeoutMillis (JSVal.num (JSNum.fin 250)) = 250 := by decide
    obtain ⟨w', ⟨k1, k2, k3, k4, k5⟩, htick⟩ := key
    rw [htick]
    exact ⟨k2, by simp [World.setTimeout, k3, k5, h250], k4, k1⟩
  · intro u ⟨hd, hc, ht, hw, hn⟩
    have hcl : u.dom.closeButton = none := by rw [hd]; exact hclose
    unfold addPIPButton
    dsimp only
    repeat' split
    all_goals first | exact ⟨hd, hc, ht, hw, hn⟩ | simp_all
  · intro u ⟨hd, hc, ht, hw, hn⟩
    have hsk : u.dom.skipButton = none := by rw [hd]; exact hskip
    unfold handleSkipButtons
    simp only [hsk, Option.isNone_none, Bool.true_or, if_true]
    split
    · exact ⟨hd, hc, ht, hw, hn⟩
    · exact ⟨hd, hc, ht, hw, hn⟩
  · intro u ⟨hd, hc, ht, hw, hn⟩
    have hau : u.dom.autoPlayCheck = none := by rw [hd]; exact hauto
    unfold handleAutoPlayNext
    simp only [hau]
    split
    · exact ⟨hd, hc, ht, hw, hn⟩
    · exact ⟨hd, hc, ht, hw, hn⟩
  · intro u ⟨hd, hc, ht, hw, hn⟩
    have hvi : u.dom.video = none := by rw [hd]; exact hvideo
    unfold setupCustomSkipButtons setupVideoSeekingHandler
    dsimp only
    repeat' split
    all_goals first | exact ⟨hd, hc, ht, hw, hn⟩ | simp_all
  · intro u ⟨hd, hc, ht, hw, hn⟩
    have hb : u.dom.skipBackButton = none := by rw [hd]; exact hback
    unfold updateSkipButtonVisuals
    simp only [hb]
    exact ⟨hd, hc, ht, hw, hn⟩

theorem tick_nothingFound_witness :
    (World.initial Dom.empty).dom.nothingFound = true ∧
    (tick (World.initial Dom.empty)).clicks = [] ∧
    (tick (World.initial Dom.empty)).timers = [⟨250, Task.tick⟩] ∧
    (tick (World.initial Dom.empty)).timeWrites = [] :=
  ⟨by decide,
   (tick_nothingFound (World.initial Dom.empty) (by decide)).1,
   (tick_nothingFound (World.initial Dom.empty) (by decide)).2.1,
   (tick_nothingFound (World.initial Dom.empty) (by decide)).2.2.1⟩

/-! ## Play next: what a tick resets when the button is gone -/

theorem tick_split (w : World) :
    tick w = tickAfterPlayNext
      (if ((tickBeforePlayNext w).settings.read STORAGE_KEYS.ENABLE_PLAY_NEXT).truthy then
        handleAutoPlayNext (tickBeforePlayNext w)
       else tickBeforePlayNext w) := rfl

theorem keeps_states {w w' : World} (h : KeepsPlayNext w w') (hs : PlayNextStates w) :
    PlayNextStates w' := by
  obtain ⟨a1, a2, a3, _⟩ := h
  unfold PlayNextStates at *
  rw [a1, a2, a3]
  exact hs

theorem handleAutoPlayNext_states (w : World) (hs : PlayNextStates w) :
    PlayNextStates (handleAutoPlayNext w) := by
  unfold handleAutoPlayNext
  dsimp only
  repeat' split
  all_goals
    first
    | exact hs
    | (unfold PlayNextStates pendingPlayNext at *
       simp_all [World.setTimeout, List.countP_append])

theorem tick_states (w : World) (hs : PlayNextStates w) : PlayNextStates (tick w) := by
  apply tick_preserves PlayNextStates _ _ _ _ _ _ w hs
  · exact fun u hu => keeps_states (addPIPButton_keeps u) hu
  · exact fun u hu => keeps_states (handleSkipButtons_keeps u) hu
  · exact handleAutoPlayNext_states
  · exact fun u hu => keeps_states (setupCustomSkipButtons_keeps u) hu
  · exact fun u hu => keeps_states (updateSkipButtonVisuals_keeps u) hu
  · exact fun u hu => keeps_states (setTimeout_keeps u _ _ (by simp)) hu

theorem fireTimer_states (w : World) (i : Nat) (hs : PlayNextStates w) :
    PlayNextStates (fireTimer w i) := by
  unfold fireTimer
  split
  · exact hs
  · rename_i t ht
    by_cases hp : t.task = Task.playNextClick
    · have hc := countP_eraseIdx_of_pos (fun t => t.task == Task.playNextClick) w.timers i t ht
        (by simp [hp])
      rw [hp]
      simp only [runTask]
      unfold PlayNextStates pendingPlayNext at hs
      rcases hs with ⟨_, _, h3⟩ | ⟨h1, h2, h3⟩ | ⟨_, _, h3⟩
      · omega
      · have h0 : (w.timers.eraseIdx i).countP (fun t => t.task == Task.playNextClick) = 0 := by
          omega
        unfold playNextCallback simulateClick PlayNextStates pendingPlayNext
        dsimp only
        repeat' split
        all_goals simp [h0, h1, h2]
      · omega
    · have hc := countP_eraseIdx_of_neg (fun t => t.task == Task.playNextClick) w.timers i t ht
        (by simp [hp])
      have hk : KeepsPlayNext w
          { w with timers := w.timers.eraseIdx i, now := Nat.max w.now t.due } :=
        ⟨hc, rfl, rfl, rfl⟩
      have hs' := keeps_states hk hs
      cases htask : t.task with
      | tick => exact tick_states _ hs'
      | skipClick b => exact keeps_states (skipClickCallback_keeps _ b) hs'
      | playNextClick => exact absurd htask hp
      | clearExpectedSeek => exact keeps_states ⟨rfl, rfl, rfl, rfl⟩ hs'

theorem step_states (w : World) (e : Event) (hs : PlayNextStates w) :
    PlayNextStates (step w e) := by
  cases e with
  | timer i => exact fireTimer_states w i hs
  | domChange d => exact keeps_states ⟨rfl, rfl, rfl, rfl⟩ hs
  | storageChanged changes area => exact keeps_states (onStorageChanged_keeps w changes area) hs
  | userClick target =>
    simp only [step]
    split
    · exact keeps_states (skipButtonClickHandler_keeps w target) hs
    · exact hs
  | hostSeek value => exact keeps_states (setCurrentTime_keeps w value) hs

theorem reachable_states (w : World) (h : Reachable w) : PlayNextStates w := by
  obtain ⟨store, dom, events, rfl⟩ := h
  have hinit : PlayNextStates (init store dom) := by
    apply tick_states
    exact Or.inl ⟨rfl, rfl, rfl⟩
  unfold run
  generalize init store dom = w0 at hinit
  induction events generalizing w0 with
  | nil => exact hinit
  | cons e rest ih => exact ih _ (step_states w0 e hinit)

theorem frame_trans {a b c : World} (h1 : PlayNextFrame a b) (h2 : PlayNextFrame b c) :
    PlayNextFrame a c := by
  obtain ⟨a1, a2, a3, a4⟩ := h1
  obtain ⟨b1, b2, b3, b4⟩ := h2
  exact ⟨keeps_trans a1 b1, by rw [b2, a2], by rw [b3, a3], by rw [b4, a4]⟩

theorem addPIPButton_frame (u : World) : PlayNextFrame u (addPIPButton u) := by
  refine ⟨addPIPButton_keeps u, ?_, ?_, addPIPButton_playNextButton u⟩
  · unfold addPIPButton injectPIPStyles
    dsimp only
    repeat' split
    all_goals rfl
  · unfold addPIPButton injectPIPStyles
    dsimp only
    repeat' split
    all_goals rfl

theorem handleSkipButtons_frame (u : World) : PlayNextFrame u (handleSkipButtons u) := by
  refine ⟨handleSkipButtons_keeps u, ?_, by rw [handleSkipButtons_dom],
    by rw [handleSkipButtons_dom]⟩
  unfold handleSkipButtons clickSkipButton
  dsimp only
  repeat' split
  all_goals rfl

theorem tickBeforePlayNext_frame (w : World) : PlayNextFrame w (tickBeforePlayNext w) := by
  have e1 : ∀ u : World, PlayNextFrame u
      (if (u.settings.read STORAGE_KEYS.ENABLE_PIP).truthy then
        match u.dom.bottomNavChildren with
        | none => u
        | some childCount => if childCount != 0 then addPIPButton u else u
      else u) := by
    intro u
    repeat' split
    all_goals first | exact ⟨keeps_refl u, rfl, rfl, rfl⟩ | exact addPIPButton_frame u
  have e2 : ∀ u : World, PlayNextFrame u
      (if (u.settings.read STORAGE_KEYS.ENABLE_SKIP_INTRO).truthy
          || (u.settings.read STORAGE_KEYS.ENABLE_SKIP_CREDITS).truthy then
        handleSkipButtons u
      else u) := by
    intro u
    split
    · exact handleSkipButtons_frame u
    · exact ⟨keeps_refl u, rfl, rfl, rfl⟩
  exact frame_trans (e1 w) (e2 _)

theorem tickAfterPlayNext_keeps (w : World) : KeepsPlayNext w (tickAfterPlayNext w) := by
  unfold tickAfterPlayNext
  exact keeps_trans (setupCustomSkipButtons_keeps w)
    (keeps_trans (updateSkipButtonVisuals_keeps _) (setTimeout_keeps _ _ _ (by simp)))

/-- Claim C15, as amended: in every reachable state, after a tick on which the
play-next lookup runs (`enablePlayNext` is set and the autoplay box is present
and checked) and finds the button absent, `playNextClickedSuccessfully` is
false, and `playNextScheduled` is false unless a delayed click is still
pending. -/
theorem playNext_reset_on_absence (w : World) (hr : Reachable w)
    (hen : (w.settings.read STORAGE_KEYS.ENABLE_PLAY_NEXT).truthy = true)
    (hauto : w.dom.autoPlayCheck = some true)
    (habs : w.dom.playNextButton = none) :
    (tick w).flags.playNextClickedSuccessfully = false ∧
    (pendingPlayNext w = 0 → (tick w).flags.playNextScheduled = false) := by
  obtain ⟨hk, hset, hac, hbtn⟩ := tickBeforePlayNext_frame w
  rw [hauto] at hac
  rw [habs] at hbtn
  have hs := keeps_states hk (reachable_states w hr)
  have hrun : (handleAutoPlayNext (tickBeforePlayNext w)).flags.playNextClickedSuccessfully
        = false ∧
      ((tickBeforePlayNext w).flags.playNextClickedSuccessfully = true ∨
        (tickBeforePlayNext w).flags.playNextScheduled = false →
        (handleAutoPlayNext (tickBeforePlayNext w)).flags.playNextScheduled = false) := by
    unfold handleAutoPlayNext
    simp only [hset, hen, hac, hbtn]
    cases hsucc : (tickBeforePlayNext w).flags.playNextClickedSuccessfully <;> simp [hsucc]
  obtain ⟨k1, _, _, _⟩ := hk
  obtain ⟨_, a2, a3, _⟩ := tickAfterPlayNext_keeps
    (handleAutoPlayNext (tickBeforePlayNext w))
  rw [tick_split, hset, hen, if_pos rfl, a2, a3]
  refine ⟨hrun.1, ?_⟩
  intro hp
  apply hrun.2
  unfold PlayNextStates at hs
  rw [k1, hp] at hs
  rcases hs with ⟨h1, _, _⟩ | ⟨_, _, h3⟩ | ⟨_, h2, _⟩
  · exact Or.inr h1
  · exact absurd h3 (by decide)
  · exact Or.inl h2

theorem playNext_reset_on_absence_witness :
    Reachable upNextDoneRemoved ∧
    upNextDoneRemoved.flags.playNextClickedSuccessfully = true ∧
    (tick upNextDoneRemoved).flags.playNextClickedSuccessfully = false ∧
    (tick upNextDoneRemoved).flags.playNextScheduled = false :=
  ⟨⟨[], upNextPage, [Event.timer 0, Event.domChange noUpNextPage], rfl⟩,
   by decide,
   (playNext_reset_on_absence upNextDoneRemoved
      ⟨[], upNextPage, [Event.timer 0, Event.domChange noUpNextPage], rfl⟩
      (by decide) rfl rfl).1,
   (playNext_reset_on_absence upNextDoneRemoved
      ⟨[], upNextPage, [Event.timer 0, Event.domChange noUpNextPage], rfl⟩
      (by decide) rfl rfl).2 (by decide)⟩

/-- Claim C15 as stated fails: the tick at 0 ms schedules the play-next click
for 1000 ms, the button is removed, and the next tick, which finds it absent,
leaves `playNextScheduled` true. -/
theorem playNext_reset_counterexample :
    Reachable upNextRemoved ∧
    upNextRemoved.dom.playNextButton = none ∧
    (tick upNextRemoved).flags.playNextScheduled = true :=
  ⟨⟨slowNextStore, upNextPage, [Event.domChange noUpNextPage], rfl⟩, rfl, by decide⟩

/-! ## Skip button: a stale reference survives the reset -/

/-- Claim C16 fails on the code: in the reachable state `skipFlicker` the skip
button is hidden and `skipButtonVisible` is false, so `handleSkipButtons` takes
its branch for a button that is not visible without resetting anything, and
`lastSkipButtonClicked` still refers to the button afterwards; when the same
button is shown again, no click is scheduled for it. -/
theorem skipButton_stale_reference :
    Reachable skipFlicker ∧
    isElementVisible skipFlicker.dom skipFlicker.dom.skipButton false = false ∧
    (handleSkipButtons skipFlicker).flags.skipButtonVisible = false ∧
    (handleSkipButtons skipFlicker).flags.lastSkipButtonClicked = some 1 ∧
    (step skipFlicker (Event.timer 0)).flags.lastSkipButtonClicked = some 1 ∧
    (run skipFlicker [Event.timer 0, Event.domChange introPage, Event.timer 0]).timers
      = [⟨1000, Task.tick⟩] :=
  ⟨⟨flickerStore, introPage, _, rfl⟩, by decide!⟩

/-! ## The interceptor and a replaced video element -/

/-- Claim C21 fails on the code: custom skip is enabled and the first tick puts
the overriding setter on the video; the host replaces the video element; the
next tick finds `videoSeekingHandler` already set and installs nothing, so the
new video element is left without the overriding setter, also after any number
of further ticks of the loop. -/
theorem interceptor_missing_on_new_video :
    Reachable videoReplaced ∧
    (init customSkipStore videoPage).dom.video = some ⟨JSNum.fin 37, JSNum.fin 100, true⟩ ∧
    (videoReplaced.settings.read STORAGE_KEYS.ENABLE_CUSTOM_SKIP).truthy = true ∧
    videoReplaced.dom.video = some ⟨JSNum.fin 0, JSNum.fin 200, false⟩ ∧
    (tick videoReplaced).dom.video = some ⟨JSNum.fin 0, JSNum.fin 200, false⟩ ∧
    (tick videoReplaced).flags.videoSeekingHandler = true ∧
    (runLoop 8 videoReplaced).dom.video = some ⟨JSNum.fin 0, JSNum.fin 200, false⟩ :=
  ⟨⟨customSkipStore, videoPage, _, rfl⟩, by decide!⟩

/-- The video element that was present at installation keeps the overriding
setter when custom skip is switched off and on again: the ticks in between
only clear and leave the flag `videoSeekingHandler`. -/
theorem interceptor_survives_toggle :
    (run (init customSkipStore videoPage)
      [Event.storageChanged [("enableCustomSkip", ⟨JSVal.bool true, JSVal.bool false⟩)] "local",
       Event.timer 0,
       Event.storageChanged [("enableCustomSkip", ⟨JSVal.bool false, JSVal.bool true⟩)] "local",
       Event.timer 0]).dom.video = some ⟨JSNum.fin 37, JSNum.fin 100, true⟩ := by
  decide!

/-! ## The two scripts share one schema -/

/-- A read with a default table returns the table itself when the store holds
the value of the table at every key of the table. -/
theorem storageGet_eq_self (store defaults : Obj JSVal)
    (h : ∀ p ∈ defaults, store.get? p.1 = some p.2) : storageGet store defaults = defaults := by
  unfold storageGet
  induction defaults with
  | nil => rfl
  | cons p rest ih =>
    rw [List.map_cons, ih (fun q hq => h q (List.mem_cons_of_mem _ hq)),
      h p (List.mem_cons_self _ _)]
    rfl

/-- Claim C24: the `STORAGE_KEYS` tables of the two scripts are equal and name
ten different keys, their `DEFAULT_SETTINGS` tables are equal, and after a reset
issued by the popup the content script loads exactly its own default table. -/
theorem schema_agreement (store : Obj JSVal) (w : World) :
    Popup.STORAGE_KEYS = STORAGE_KEYS ∧
    settingKeys.length = 10 ∧ settingKeys.Nodup ∧
    Popup.DEFAULT_SETTINGS.map Prod.fst = settingKeys ∧
    DEFAULT_SETTINGS.map Prod.fst = settingKeys ∧
    Popup.DEFAULT_SETTINGS = DEFAULT_SETTINGS ∧
    (loadSettings w (Popup.resetAllSettings store true)).settings = DEFAULT_SETTINGS := by
  refine ⟨rfl, by decide, by decide, by decide, by decide, rfl, ?_⟩
  unfold loadSettings
  apply storageGet_eq_self
  intro p hp
  have hp' : (p.1, p.2) ∈ Popup.DEFAULT_SETTINGS := hp
  exact storageSet_get?_of_nodup store Popup.DEFAULT_SETTINGS p.1 p.2 popup_default_nodup hp'

/-! ## Classification: missing attributes and an undefined ratio -/

theorem JSNum.nan_div (y : JSNum) : JSNum.nan.div y = JSNum.nan := by
  cases y <;> rfl

theorem JSNum.div_nan (x : JSNum) : x.div JSNum.nan = JSNum.nan := by
  cases x <;> rfl

/-- A quotient that is `NaN` is classified `credits`. -/
theorem progress_nan : ((JSNum.nan).mul (JSNum.fin 100)).lt (JSNum.fin 50) = false := rfl

/-- A finite value that is not negative, divided by `+0`, is classified `credits`. -/
theorem progress_div_zero {x : JSNum} {a : ℚ} (hx : x.toRat? = some a) (ha : 0 ≤ a) :
    ((x.div (JSNum.fin 0)).mul (JSNum.fin 100)).lt (JSNum.fin 50) = false := by
  cases x with
  | nan => simp [JSNum.toRat?] at hx
  | posInf => simp [JSNum.toRat?] at hx
  | negInf => simp [JSNum.toRat?] at hx
  | negZero => simp [JSNum.div, JSNum.toRat?, JSNum.mul, JSNum.lt]
  | fin q =>
    simp only [JSNum.toRat?, Option.some.injEq] at hx
    subst hx
    by_cases h0 : q = 0
    · subst h0
      simp [JSNum.div, JSNum.toRat?, JSNum.mul, JSNum.lt]
    · have hneg : ¬ q < 0 := not_lt.mpr ha
      have h100 : ¬ ((100 : ℚ) < 0) := by norm_num
      simp [JSNum.div, JSNum.toRat?, JSNum.mul, JSNum.lt, JSNum.signBit, JSNum.infinity, h0,
        hneg, h100]

/-- Claim C23, as amended: `detectSkipType` returns null exactly when no
progress slider is found; a missing `aria-valuenow` counts as `'0'` and a
missing `aria-valuemax` as `'1'`, so a slider with neither attribute is
`intro`; the result is `credits` whenever one of the two attributes is not
numeric, and whenever `aria-valuemax` reads as 0 (without a minus sign) and
`aria-valuenow` reads as a number that is not negative. -/
theorem detectSkipType_edge_cases (d : Dom) (s : Slider) (hs : d.progressSlider = some s) :
    (∀ d' : Dom, detectSkipType d' = none ↔ d'.progressSlider = none) ∧
    (s.ariaValueNow = none →
      detectSkipType d
        = detectSkipType { d with progressSlider := some { s with ariaValueNow := some "0" } }) ∧
    (s.ariaValueMax = none →
      detectSkipType d
        = detectSkipType { d with progressSlider := some { s with ariaValueMax := some "1" } }) ∧
    (s.ariaValueNow = none → s.ariaValueMax = none → detectSkipType d = some SkipType.intro) ∧
    (parseInt (attrOr s.ariaValueNow "0") = JSNum.nan ∨
        parseInt (attrOr s.ariaValueMax "1") = JSNum.nan →
      detectSkipType d = some SkipType.credits) ∧
    (∀ a : ℚ, parseInt (attrOr s.ariaValueMax "1") = JSNum.fin 0 →
      (parseInt (attrOr s.ariaValueNow "0")).toRat? = some a → 0 ≤ a →
      detectSkipType d = some SkipType.credits) := by
  refine ⟨?_, ?_, ?_, ?_, ?_, ?_⟩
  · intro d'
    unfold detectSkipType
    cases d'.progressSlider with
    | none => simp
    | some s' =>
      simp only [reduceCtorEq, iff_false]
      split <;> simp
  · intro h
    simp [detectSkipType, hs, h, attrOr]
  · intro h
    simp [detectSkipType, hs, h, attrOr]
  · intro h1 h2
    simp only [detectSkipType, hs, h1, h2, attrOr]
    decide!
  · intro h
    rcases h with h | h
    · simp only [detectSkipType, hs, h, JSNum.nan_div, progress_nan]
      rfl
    · simp only [detectSkipType, hs, h, JSNum.div_nan, progress_nan]
      rfl
  · intro a hmax hnow ha
    simp only [detectSkipType, hs, hmax, progress_div_zero hnow ha]
    rfl

theorem detectSkipType_edge_cases_witness :
    detectSkipType (sliderPage none none) = some SkipType.intro ∧
    detectSkipType (sliderPage (some "abc") (some "100")) = some SkipType.credits ∧
    detectSkipType (sliderPage (some "7") (some "0")) = some SkipType.credits :=
  ⟨(detectSkipType_edge_cases (sliderPage none none) ⟨none, none⟩ rfl).2.2.2.1 rfl rfl,
   (detectSkipType_edge_cases (sliderPage (some "abc") (some "100")) ⟨some "abc", some "100"⟩
      rfl).2.2.2.2.1 (Or.inl (by decide)),
   (detectSkipType_edge_cases (sliderPage (some "7") (some "0")) ⟨some "7", some "0"⟩
      rfl).2.2.2.2.2 7 (by decide) (by decide!) (by norm_num)⟩

/-- Claim C23 as stated fails: with `aria-valuemax` 0 and a negative
`aria-valuenow` the ratio is `-Infinity`, which is below 50, and the result is
`intro`; the same holds for a maximum written `-0` and a positive value. -/
theorem detectSkipType_zero_max_counterexample :
    parseInt (attrOr (some "0") "1") = JSNum.fin 0 ∧
    parseInt (attrOr (some "-5") "0") = JSNum.fin (-5) ∧
    detectSkipType (sliderPage (some "-5") (some "0")) = some SkipType.intro ∧
    detectSkipType (sliderPage (some "5") (some "-0")) = some SkipType.intro := by
  decide!

/-! ## A skip value of zero -/

theorem orElse_falsy (v dflt : JSVal) (h : v.truthy = false) : v.orElse dflt = dflt := by
  simp [JSVal.orElse, h]

theorem JSNum.sub_self_fin (a : ℚ) : (JSNum.fin a).sub (JSNum.fin a) = JSNum.fin 0 := by
  by_cases h : a = 0
  · subst h; simp [JSNum.sub, JSNum.neg, JSNum.add]
  · simp [JSNum.sub, JSNum.neg, JSNum.add, h, JSNum.roundDouble]

theorem JSNum.add_zero_of_isDouble (t : ℚ) (h : JSNum.isDouble t = true) :
    (JSNum.fin t).add (JSNum.fin 0) = JSNum.fin t := by
  simp [JSNum.add, JSNum.roundDouble_of_isDouble t h]

/-- With a falsy skip-back setting the handler works with 10 s: from `t ≥ 10`
it writes `t`. -/
theorem skipBackTarget_falsy (settings : Obj JSVal) (t : ℚ)
    (h : (settings.read STORAGE_KEYS.CUSTOM_SKIP_BACK).truthy = false)
    (hd : JSNum.isDouble t = true) (ht : 10 ≤ t) :
    skipBackTarget settings (JSNum.fin t) = JSNum.fin t := by
  unfold skipBackTarget
  simp only [orElse_falsy _ _ h, JSVal.toNumber, JSNum.sub_self_fin,
    JSNum.add_zero_of_isDouble t hd, JSNum.max_fin, JSNum.lt, decide_eq_false (not_lt.mpr ht)]
  have h0 : (0 : ℚ) ≤ t := by linarith
  simp [h0]

/-- With a falsy skip-forward setting the handler works with 30 s: from
`t ≤ duration` it writes `t`. -/
theorem skipForwardTarget_falsy (settings : Obj JSVal) (t dur : ℚ)
    (h : (settings.read STORAGE_KEYS.CUSTOM_SKIP_FORWARD).truthy = false)
    (hd : JSNum.isDouble t = true) (ht : t ≤ dur) :
    skipForwardTarget settings (JSNum.fin t) (JSNum.fin dur) = JSNum.fin t := by
  unfold skipForwardTarget
  simp only [orElse_falsy _ _ h, JSVal.toNumber, JSNum.sub_self_fin,
    JSNum.add_zero_of_isDouble t hd, JSNum.min_fin]
  simp [ht]

/-- What the popup saves for a slider value that parses to zero or to `NaN`. -/
theorem slider_falsy (value : String)
    (h : parseIntAuto value = JSNum.nan ∨ (parseIntAuto value).isZero = true) (dflt : JSVal) :
    (JSVal.num (parseIntAuto value)).orElse dflt = dflt := by
  apply orElse_falsy
  rcases h with h | h
  · simp [JSVal.truthy, h]
  · simp [JSVal.truthy, h]

/-- Claim C22, as amended: a skip value that is 0 or unset (any falsy value) is
replaced by 10 s for skip back and 30 s for skip forward: the click handler then
writes the current time itself, for skip back from `t ≥ 10` and for skip forward
when `t` does not exceed the video's duration; the labels show 10 and 30, and
the popup's sliders save 10 and 30 for a slider value that parses to 0 or is
not a number. -/
theorem zero_skip_value_defaults (w : World) (v : Video) (t dur : ℚ) (b f : SkipControl)
    (store : Obj JSVal) (value : String) :
    ((w.settings.read STORAGE_KEYS.CUSTOM_SKIP_BACK).truthy = false →
      w.dom.video = some v → v.currentTime = JSNum.fin t → JSNum.isDouble t = true → 10 ≤ t →
      (skipButtonClickHandler w ClickTarget.skipBackButton).timeWrites
        = w.timeWrites ++ [JSNum.fin t]) ∧
    ((w.settings.read STORAGE_KEYS.CUSTOM_SKIP_FORWARD).truthy = false →
      w.dom.video = some v → v.currentTime = JSNum.fin t → JSNum.isDouble t = true →
      v.duration = JSNum.fin dur → t ≤ dur →
      (skipButtonClickHandler w ClickTarget.skipForwardButton).timeWrites
        = w.timeWrites ++ [JSNum.fin t]) ∧
    ((w.settings.read STORAGE_KEYS.ENABLE_CUSTOM_SKIP).truthy = true →
      w.dom.skipBackButton = some b → w.dom.skipForwardButton = some f →
      ((w.settings.read STORAGE_KEYS.CUSTOM_SKIP_BACK).truthy = false →
        (updateSkipButtonVisuals w).dom.skipBackButton
          = some (labelSkipControl b (JSVal.num (JSNum.fin 10)))) ∧
      ((w.settings.read STORAGE_KEYS.CUSTOM_SKIP_FORWARD).truthy = false →
        (updateSkipButtonVisuals w).dom.skipForwardButton
          = some (labelSkipControl f (JSVal.num (JSNum.fin 30))))) ∧
    ((labelSkipControl b (JSVal.num (JSNum.fin 10))).ariaValue = some (JSVal.num (JSNum.fin 10)) ∧
      (b.hasSvg = true → (labelSkipControl b (JSVal.num (JSNum.fin 10))).label
        = some ⟨JSVal.num (JSNum.fin 10), false⟩)) ∧
    ((labelSkipControl f (JSVal.num (JSNum.fin 30))).ariaValue = some (JSVal.num (JSNum.fin 30)) ∧
      (f.hasSvg = true → (labelSkipControl f (JSVal.num (JSNum.fin 30))).label
        = some ⟨JSVal.num (JSNum.fin 30), false⟩)) ∧
    (parseIntAuto value = JSNum.nan ∨ (parseIntAuto value).isZero = true →
      (Popup.skipBackSliderChange store value).get? STORAGE_KEYS.CUSTOM_SKIP_BACK
        = some (JSVal.num (JSNum.fin 10)) ∧
      (Popup.skipForwardSliderChange store value).get? STORAGE_KEYS.CUSTOM_SKIP_FORWARD
        = some (JSVal.num (JSNum.fin 30))) := by
  refine ⟨?_, ?_, ?_, ?_, ?_, ?_⟩
  · intro h hv ht hdb h10
    simp only [skipButtonClickHandler, hv, ht, skipBackTarget_falsy w.settings t h hdb h10]
    exact setCurrentTime_expected_writes w v _ hv
  · intro h hv ht hdb hd hle
    simp only [skipButtonClickHandler, hv, ht, hd,
      skipForwardTarget_falsy w.settings t dur h hdb hle]
    exact setCurrentTime_expected_writes w v _ hv
  · intro hen hb hf
    constructor
    · intro h
      simp [updateSkipButtonVisuals, hb, hf, hen, orElse_falsy _ _ h]
    · intro h
      simp [updateSkipButtonVisuals, hb, hf, hen, orElse_falsy _ _ h]
  · constructor
    · unfold labelSkipControl
      dsimp only
      split <;> rfl
    · intro hsvg
      have hp : (JSVal.num (JSNum.fin 10)).ltNum (JSNum.fin 10) = false := by decide
      simp [labelSkipControl, hsvg, skipLabelFor, hp]
  · constructor
    · unfold labelSkipControl
      dsimp only
      split <;> rfl
    · intro hsvg
      have hp : (JSVal.num (JSNum.fin 30)).ltNum (JSNum.fin 10) = false := by decide
      simp [labelSkipControl, hsvg, skipLabelFor, hp]
  · intro h
    constructor
    · unfold Popup.skipBackSliderChange Popup.saveSetting
      rw [slider_falsy value h]
      exact Obj.get?_set_self store _ _
    · unfold Popup.skipForwardSliderChange Popup.saveSetting
      rw [slider_falsy value h]
      exact Obj.get?_set_self store _ _

theorem zero_skip_value_defaults_witness :
    (skipButtonClickHandler zeroSkipWorld ClickTarget.skipBackButton).timeWrites
      = [] ++ [JSNum.fin 37] ∧
    (skipButtonClickHandler zeroSkipWorld ClickTarget.skipForwardButton).timeWrites
      = [] ++ [JSNum.fin 37] ∧
    (updateSkipButtonVisuals zeroSkipWorld).dom.skipBackButton
      = some (labelSkipControl hostSkipControl (JSVal.num (JSNum.fin 10))) ∧
    (updateSkipButtonVisuals zeroSkipWorld).dom.skipForwardButton
      = some (labelSkipControl hostSkipControl (JSVal.num (JSNum.fin 30))) ∧
    (Popup.skipBackSliderChange [] "0").get? "customSkipBack"
      = some (JSVal.num (JSNum.fin 10)) ∧
    (Popup.skipForwardSliderChange [] "abc").get? "customSkipForward"
      = some (JSVal.num (JSNum.fin 30)) :=
  ⟨(zero_skip_value_defaults zeroSkipWorld ⟨JSNum.fin 37, JSNum.fin 100, false⟩ 37 100
      hostSkipControl hostSkipControl [] "0").1 (by decide) rfl rfl (by decide!) (by norm_num),
   (zero_skip_value_defaults zeroSkipWorld ⟨JSNum.fin 37, JSNum.fin 100, false⟩ 37 100
      hostSkipControl hostSkipControl [] "0").2.1 (by decide) rfl rfl (by decide!) rfl
      (by norm_num),
   ((zero_skip_value_defaults zeroSkipWorld ⟨JSNum.fin 37, JSNum.fin 100, false⟩ 37 100
      hostSkipControl hostSkipControl [] "0").2.2.1 (by decide) rfl rfl).1 (by decide),
   ((zero_skip_value_defaults zeroSkipWorld ⟨JSNum.fin 37, JSNum.fin 100, false⟩ 37 100
      hostSkipControl hostSkipControl [] "0").2.2.1 (by decide) rfl rfl).2 (by decide),
   ((zero_skip_value_defaults zeroSkipWorld ⟨JSNum.fin 37, JSNum.fin 100, false⟩ 37 100
      hostSkipControl hostSkipControl [] "0").2.2.2.2.2 (Or.inr (by decide))).1,
   ((zero_skip_value_defaults zeroSkipWorld ⟨JSNum.fin 37, JSNum.fin 100, false⟩ 37 100
      hostSkipControl hostSkipControl [] "abc").2.2.2.2.2 (Or.inl (by decide))).2⟩

/-- Claim C22 as stated fails for skip forward while the video's duration is not
known yet: with a skip-forward value of 0 and a video at 37 s whose duration is
`NaN`, the handler computes `Math.min(NaN, 37 + 0)` and writes `NaN`, not the
current time; the setter rejects the value and the time stays at 37 s. -/
theorem zero_skip_value_counterexample :
    ((videoWorld (JSNum.fin 37) JSNum.nan
        [(STORAGE_KEYS.CUSTOM_SKIP_FORWARD, JSVal.num (JSNum.fin 0))]).settings.read
      STORAGE_KEYS.CUSTOM_SKIP_FORWARD).truthy = false ∧
    (skipButtonClickHandler
        (videoWorld (JSNum.fin 37) JSNum.nan
          [(STORAGE_KEYS.CUSTOM_SKIP_FORWARD, JSVal.num (JSNum.fin 0))])
        ClickTarget.skipForwardButton).timeWrites = [JSNum.nan] ∧
    (skipButtonClickHandler
        (videoWorld (JSNum.fin 37) JSNum.nan
          [(STORAGE_KEYS.CUSTOM_SKIP_FORWARD, JSVal.num (JSNum.fin 0))])
        ClickTarget.skipForwardButton).typeErrors = 1 ∧
    (skipButtonClickHandler
        (videoWorld (JSNum.fin 37) JSNum.nan
          [(STORAGE_KEYS.CUSTOM_SKIP_FORWARD, JSVal.num (JSNum.fin 0))])
        ClickTarget.skipForwardButton).dom.video = some ⟨JSNum.fin 37, JSNum.nan, false⟩ := by
  decide!

end PlexToolkit
